import Mathlib

/-!
# WDP framing protocol: embedding of `src/wdp.c` / `src/wdp.h`

The C functions are embedded as state-passing Lean functions over an explicit
environment (`Env`): the allocator and the three socket calls `send`, `select`
and `recv` are oracles on an abstract state, and every call the code issues is
recorded in a trace of `Event`s.  Machine integers are `Nat` / `Int` with
explicit 32-bit wrap-around where the C code converts between `unsigned int`
and `int`.  Loops carry a fuel argument; `Status.running` marks a loop that had
not finished when the fuel was used up, `Status.undefined` an out-of-bounds
memory access.
-/

namespace Wdp

/-- The type `byte` (`typedef unsigned char byte;`). -/
abbrev Byte := Fin 256

/-! ## Machine integers -/

/-- Conversion of an integer value to `unsigned int` (32 bit, modular). -/
def toU32 (i : Int) : Nat := (i % 4294967296).toNat

/-- Conversion of an `unsigned int` value to `int` (32 bit, two's complement). -/
def toInt32 (n : Nat) : Int :=
  if n % 4294967296 < 2147483648 then ((n % 4294967296 : Nat) : Int)
  else ((n % 4294967296 : Nat) : Int) - 4294967296

/-! ## Protocol constants (`wdp.h`) -/

/-- The string literal `"WDP0.1"` as it lies in memory, terminating NUL included. -/
def WDP_VERSION_STRING : List Byte := [87, 68, 80, 48, 46, 49, 0]

def WDP_VERSION_LEN : Nat := 6

def WDP_HEADER_SIZE : Nat := WDP_VERSION_LEN + 4

def WDP_DEFAULT_MAX_DATA_SIZE : Nat := 1024 * 1024

def WDP_SOCKET_ERROR : Int := -1

/-! ## Error codes (`WDP_ERROR_CODE`) -/

def WDP_SUCCESS : Int := 0
def WDP_ERR_NETWORK_SEND_FAILED : Int := -100
def WDP_ERR_NETWORK_RECV_FAILED : Int := -101
def WDP_ERR_NETWORK_TIMEOUT : Int := -102
def WDP_ERR_NETWORK_PEER_CLOSED : Int := -103
def WDP_ERR_NETWORK_INCOMPLETE : Int := -104
def WDP_ERR_SOCKET_INVALID : Int := -200
def WDP_ERR_SOCKET_NOT_CONNECTED : Int := -201
def WDP_ERR_SOCKET_SELECT_FAILED : Int := -202
def WDP_ERR_MEMORY_ALLOC_FAILED : Int := -300
def WDP_ERR_MEMORY_COPY_FAILED : Int := -301
def WDP_ERR_MEMORY_NULL_POINTER : Int := -302
def WDP_ERR_PROTOCOL_VERSION_MISMATCH : Int := -400
def WDP_ERR_PROTOCOL_INVALID_LENGTH : Int := -401
def WDP_ERR_PROTOCOL_DATA_TOO_LARGE : Int := -402
def WDP_ERR_PROTOCOL_HEADER_INCOMPLETE : Int := -403
def WDP_ERR_PARAM_INVALID : Int := -500
def WDP_ERR_PARAM_NULL_DATA : Int := -501
def WDP_ERR_PARAM_BUFFER_TOO_SMALL : Int := -502

/-! ## Platform -/

/-- The platform constants the code takes from system headers: the value of
`WDP_INVALID_SOCKET` and the three error numbers `isConnectionError` compares
with (`ENOTCONN`, `ECONNRESET`, `EPIPE` on POSIX; `WSAENOTCONN`,
`WSAECONNRESET`, `WSAECONNABORTED` under `_WIN32`). -/
structure Platform where
  WDP_INVALID_SOCKET : Int
  notConn : Int
  connReset : Int
  pipeOrAborted : Int
deriving DecidableEq, Repr

/-- The `#else` (Linux/Unix) branch, with the Linux error numbers. -/
def posix : Platform :=
  { WDP_INVALID_SOCKET := -1, notConn := 107, connReset := 104, pipeOrAborted := 32 }

/-- The `_WIN32` branch, with the Winsock error numbers (64-bit `SOCKET`). -/
def win32 : Platform :=
  { WDP_INVALID_SOCKET := 18446744073709551615,
    notConn := 10057, connReset := 10054, pipeOrAborted := 10053 }

/-- Embedding of `static int isConnectionError(int error)`. -/
def isConnectionError (p : Platform) (error : Int) : Bool :=
  error == p.notConn || error == p.connReset || error == p.pipeOrAborted

/-! ## Data model -/

/-- The `WDP` struct. `data` is the buffer the pointer designates (`none` for
`NULL`); `dataLen` is the `unsigned int` field. -/
structure WDP where
  dataLen : Nat
  data : Option (List Byte)
deriving DecidableEq, Repr

/-- The global `WDP_MAX_DATA_SIZE`. -/
structure Globals where
  WDP_MAX_DATA_SIZE : Nat
deriving DecidableEq, Repr

/-- Initial value of the global. -/
def Globals.init : Globals := { WDP_MAX_DATA_SIZE := WDP_DEFAULT_MAX_DATA_SIZE }

/-- Embedding of `void wdpSetMaxDataSize(unsigned int maxSize)`. -/
def wdpSetMaxDataSize (maxSize : Nat) (_g : Globals) : Globals :=
  { WDP_MAX_DATA_SIZE := maxSize }

/-- Embedding of `unsigned int wdpGetMaxDataSize(void)`. -/
def wdpGetMaxDataSize (g : Globals) : Nat := g.WDP_MAX_DATA_SIZE

/-- Embedding of `WDP wdpPack(byte *data, unsigned int dataLen)`. -/
def wdpPack (data : Option (List Byte)) (dataLen : Nat) : WDP :=
  { dataLen := dataLen, data := data }

/-! ## Environment and trace -/

/-- One call issued by the code, with what the environment answered.
`send` carries the `totalLen - totalSent` bytes offered, `recv` the requested
count and the bytes the call stored at `buffer + totalRecv`. -/
inductive Event where
  | malloc (size : Nat) (ok : Bool)
  | free
  | send (offered : List Byte) (sendStatus lastError : Int)
  | select (timeout : Option (Nat × Nat)) (selectResult : Int)
  | recv (requested : Nat) (recvStatus lastError : Int) (bytes : List Byte)
deriving DecidableEq, Repr

/-- The environment of the code on a state `σ`: the allocator and the socket
calls on the endpoint the socket designates. `send` and `recv` answer with the
value stored in the `int` status variable and the value `wdpGetLastError()`
would give; `recv` also gives the bytes it stored. `select` receives the
`timeval` (`tv_sec`, `tv_usec`), `none` for a null `timeoutPtr`. -/
structure Env (σ : Type) where
  platform : Platform
  malloc : σ → Nat → Bool × σ
  send : σ → List Byte → (Int × Int) × σ
  select : σ → Option (Nat × Nat) → Int × σ
  recv : σ → Nat → (Int × Int × List Byte) × σ

/-- How a call ended. -/
inductive Status where
  | returned (value : Int)
  | running
  | undefined
deriving DecidableEq, Repr

/-- The call `memcpy(dst + off, src, n)` on a destination object `dst`; `none` when the
copy would leave the destination or the source object. -/
def memcpy (dst : List Byte) (off : Nat) (src : List Byte) (n : Nat) : Option (List Byte) :=
  if off + n ≤ dst.length ∧ n ≤ src.length then
    some (dst.take off ++ src.take n ++ dst.drop (off + n))
  else none

/-- Memory image of `htonl(x)`: the four bytes of `x`, most significant first. -/
def htonl (x : Nat) : List Byte :=
  [Fin.ofNat (x / 16777216), Fin.ofNat (x / 65536), Fin.ofNat (x / 256), Fin.ofNat x]

/-- Value of `ntohl` on the `unsigned int` loaded from four bytes of memory. -/
def ntohl (bs : List Byte) : Nat :=
  match bs with
  | [b0, b1, b2, b3] => b0.val * 16777216 + b1.val * 65536 + b2.val * 256 + b3.val
  | _ => 0

/-- Embedding of `int wdpStartsWith(const byte *str, const byte *prefix, int prefixLen)`. -/
def wdpStartsWith (str pfx : Option (List Byte)) (prefixLen : Nat) : Int :=
  match str, pfx with
  | some s, some p => if s.take prefixLen = p.take prefixLen then 1 else 0
  | _, _ => 0

/-! ## Outcomes -/

/-- Outcome of `wdpSend`: how the call ended, the environment state it left and
the calls it issued, in order. -/
structure SendOutcome (σ : Type) where
  status : Status
  state : σ
  trace : List Event

/-- Outcome of `wdpRecvExact`: also the final contents of the buffer object
(`none` for a null `buffer`). -/
structure ExactOutcome (σ : Type) where
  status : Status
  buffer : Option (List Byte)
  state : σ
  trace : List Event

/-- Outcome of `wdpRecv`: also the final value of `*wdp_Dst` (`none` for a null
`wdp_Dst`). -/
structure RecvOutcome (σ : Type) where
  status : Status
  dst : Option WDP
  state : σ
  trace : List Event

/-- Put the events of the calls issued before in front of an outcome's trace. -/
def SendOutcome.after {σ : Type} (evs : List Event) (r : SendOutcome σ) : SendOutcome σ :=
  { r with trace := evs ++ r.trace }

/-- Put the events of the calls issued before in front of an outcome's trace. -/
def ExactOutcome.after {σ : Type} (evs : List Event) (r : ExactOutcome σ) : ExactOutcome σ :=
  { r with trace := evs ++ r.trace }

/-! ## `wdpSend` -/

/-- The `while (totalSent < totalLen)` loop of `wdpSend` with the `free` and
`return` that end it. -/
def wdpSendLoop {σ : Type} (E : Env σ) (sendBuffer : List Byte) (totalLen : Nat) :
    Nat → Nat → σ → SendOutcome σ
  | 0, totalSent, s =>
    if totalSent < totalLen then ⟨.running, s, []⟩
    else ⟨.returned (toInt32 totalSent), s, [.free]⟩
  | fuel + 1, totalSent, s =>
    if totalSent < totalLen then
      let offered := (sendBuffer.drop totalSent).take (totalLen - totalSent)
      let reply := E.send s offered
      let sendStatus := reply.1.1
      let lastError := reply.1.2
      let ev := Event.send offered sendStatus lastError
      if sendStatus = WDP_SOCKET_ERROR then
        if isConnectionError E.platform lastError then
          ⟨.returned WDP_ERR_SOCKET_NOT_CONNECTED, reply.2, [ev, .free]⟩
        else
          ⟨.returned WDP_ERR_NETWORK_SEND_FAILED, reply.2, [ev, .free]⟩
      else if sendStatus = 0 then
        ⟨.returned WDP_ERR_NETWORK_PEER_CLOSED, reply.2, [ev, .free]⟩
      else
        (wdpSendLoop E sendBuffer totalLen fuel (toU32 (totalSent + sendStatus)) reply.2).after [ev]
    else ⟨.returned (toInt32 totalSent), s, [.free]⟩

/-- The three copies that fill the send buffer (a fresh object of `totalLen`
bytes); `none` when one of them leaves an object. -/
def fillSendBuffer (totalLen : Nat) (wdp_toSend : WDP) : Option (List Byte) :=
  (memcpy (List.replicate totalLen 0) 0 WDP_VERSION_STRING WDP_VERSION_LEN).bind fun b1 =>
  (memcpy b1 WDP_VERSION_LEN (htonl wdp_toSend.dataLen) 4).bind fun b2 =>
  if wdp_toSend.dataLen > 0 then
    match wdp_toSend.data with
    | some d => memcpy b2 (WDP_VERSION_LEN + 4) d wdp_toSend.dataLen
    | none => none
  else some b2

/-- Embedding of `int wdpSend(wdp_socket_t socket, WDP wdp_toSend)`. -/
def wdpSend {σ : Type} (E : Env σ) (g : Globals) (fuel : Nat) (socket : Int) (wdp_toSend : WDP)
    (s : σ) : SendOutcome σ :=
  if socket = E.platform.WDP_INVALID_SOCKET then
    ⟨.returned WDP_ERR_SOCKET_INVALID, s, []⟩
  else if wdp_toSend.data = none ∧ wdp_toSend.dataLen > 0 then
    ⟨.returned WDP_ERR_PARAM_NULL_DATA, s, []⟩
  else if wdp_toSend.dataLen > g.WDP_MAX_DATA_SIZE then
    ⟨.returned WDP_ERR_PROTOCOL_DATA_TOO_LARGE, s, []⟩
  else
    let totalLen := (WDP_HEADER_SIZE + wdp_toSend.dataLen) % 4294967296
    let m := E.malloc s totalLen
    if m.1 = false then
      ⟨.returned WDP_ERR_MEMORY_ALLOC_FAILED, m.2, [.malloc totalLen false]⟩
    else
      match fillSendBuffer totalLen wdp_toSend with
      | none => ⟨.undefined, m.2, [.malloc totalLen true]⟩
      | some sendBuffer =>
        (wdpSendLoop E sendBuffer totalLen fuel 0 m.2).after [.malloc totalLen true]

/-! ## `wdpRecvExact` -/

/-- The `timeval` a wait is armed with: `none` (null `timeoutPtr`) for
`timeoutMs == 0`. -/
def timeoutPtr (timeoutMs : Nat) : Option (Nat × Nat) :=
  if timeoutMs > 0 then some (timeoutMs / 1000, (timeoutMs % 1000) * 1000) else none

/-- The `while (totalRecv < length)` loop of `wdpRecvExact` with the final
`return totalRecv`. -/
def wdpRecvExactLoop {σ : Type} (E : Env σ) (length timeoutMs : Nat) :
    Nat → Nat → List Byte → σ → ExactOutcome σ
  | 0, totalRecv, buf, s =>
    if totalRecv < length then ⟨.running, some buf, s, []⟩
    else ⟨.returned (toInt32 totalRecv), some buf, s, []⟩
  | fuel + 1, totalRecv, buf, s =>
    if totalRecv < length then
      let w := E.select s (timeoutPtr timeoutMs)
      let selectResult := w.1
      let evSel := Event.select (timeoutPtr timeoutMs) selectResult
      if selectResult = WDP_SOCKET_ERROR then
        ⟨.returned WDP_ERR_SOCKET_SELECT_FAILED, some buf, w.2, [evSel]⟩
      else if selectResult = 0 then
        ⟨.returned WDP_ERR_NETWORK_TIMEOUT, some buf, w.2, [evSel]⟩
      else
        let reply := E.recv w.2 (length - totalRecv)
        let recvStatus := reply.1.1
        let lastError := reply.1.2.1
        let bytes := reply.1.2.2
        let evRecv := Event.recv (length - totalRecv) recvStatus lastError bytes
        if recvStatus = WDP_SOCKET_ERROR then
          if isConnectionError E.platform lastError then
            ⟨.returned WDP_ERR_SOCKET_NOT_CONNECTED, some buf, reply.2, [evSel, evRecv]⟩
          else
            ⟨.returned WDP_ERR_NETWORK_RECV_FAILED, some buf, reply.2, [evSel, evRecv]⟩
        else if recvStatus = 0 then
          ⟨.returned WDP_ERR_NETWORK_PEER_CLOSED, some buf, reply.2, [evSel, evRecv]⟩
        else
          match memcpy buf totalRecv bytes bytes.length with
          | none => ⟨.undefined, some buf, reply.2, [evSel, evRecv]⟩
          | some buf1 =>
            (wdpRecvExactLoop E length timeoutMs fuel (toU32 (totalRecv + recvStatus)) buf1
              reply.2).after [evSel, evRecv]
    else ⟨.returned (toInt32 totalRecv), some buf, s, []⟩

/-- Embedding of `int wdpRecvExact(wdp_socket_t socket, byte *buffer, unsigned int length,
unsigned int timeoutMs)` -/
def wdpRecvExact {σ : Type} (E : Env σ) (fuel : Nat) (buffer : Option (List Byte))
    (length timeoutMs : Nat) (s : σ) : ExactOutcome σ :=
  match buffer with
  | none => ⟨.returned WDP_ERR_MEMORY_NULL_POINTER, none, s, []⟩
  | some buf => wdpRecvExactLoop E length timeoutMs fuel 0 buf s

/-! ## `wdpRecv` -/

/-- The empty message: `data == NULL`, `dataLen == 0`. -/
def emptyMessage : WDP := { dataLen := 0, data := none }

/-- Steps 6 to 8 of `wdpRecv`: allocate the data buffer, receive the data part,
set the return values. -/
def wdpRecvPayload {σ : Type} (E : Env σ) (fuel : Nat) (dataLen timeoutMs : Nat) (s : σ) :
    RecvOutcome σ :=
  let m := E.malloc s dataLen
  if m.1 = false then
    ⟨.returned WDP_ERR_MEMORY_ALLOC_FAILED, some emptyMessage, m.2, [.malloc dataLen false]⟩
  else
    let r := wdpRecvExact E fuel (some (List.replicate dataLen 0)) dataLen timeoutMs m.2
    let tr := Event.malloc dataLen true :: r.trace
    match r.status with
    | .running => ⟨.running, some emptyMessage, r.state, tr⟩
    | .undefined => ⟨.undefined, some emptyMessage, r.state, tr⟩
    | .returned recvStatus =>
      if recvStatus < 0 then
        ⟨.returned recvStatus, some emptyMessage, r.state, tr ++ [.free]⟩
      else if recvStatus < toInt32 dataLen then
        ⟨.returned WDP_ERR_NETWORK_INCOMPLETE, some emptyMessage, r.state, tr ++ [.free]⟩
      else
        ⟨.returned (toInt32 dataLen), some { dataLen := dataLen, data := r.buffer }, r.state, tr⟩

/-- Steps 2 to 8 of `wdpRecv`: what the code does with the received header. -/
def wdpRecvBody {σ : Type} (E : Env σ) (g : Globals) (fuel : Nat) (timeoutMs : Nat)
    (header : Option (List Byte)) (s : σ) : RecvOutcome σ :=
  if wdpStartsWith header (some WDP_VERSION_STRING) WDP_VERSION_LEN = 0 then
    ⟨.returned WDP_ERR_PROTOCOL_VERSION_MISMATCH, some emptyMessage, s, []⟩
  else
    let dataLen := ntohl ((((header.getD []).drop WDP_VERSION_LEN)).take 4)
    if dataLen > g.WDP_MAX_DATA_SIZE then
      ⟨.returned WDP_ERR_PROTOCOL_DATA_TOO_LARGE, some emptyMessage, s, []⟩
    else if dataLen = 0 then
      ⟨.returned WDP_SUCCESS, some { dataLen := 0, data := none }, s, []⟩
    else wdpRecvPayload E fuel dataLen timeoutMs s

/-- Embedding of `int wdpRecv(wdp_socket_t socket, WDP *wdp_Dst, unsigned int timeoutMs)`.
`wdp_Dst` is the object the pointer designates, `none` for `NULL`. -/
def wdpRecv {σ : Type} (E : Env σ) (g : Globals) (fuel : Nat) (socket : Int)
    (wdp_Dst : Option WDP) (timeoutMs : Nat) (s : σ) : RecvOutcome σ :=
  if socket = E.platform.WDP_INVALID_SOCKET then
    ⟨.returned WDP_ERR_SOCKET_INVALID, wdp_Dst, s, []⟩
  else
    match wdp_Dst with
    | none => ⟨.returned WDP_ERR_MEMORY_NULL_POINTER, none, s, []⟩
    | some _ =>
      let h := wdpRecvExact E fuel (some (List.replicate WDP_HEADER_SIZE 0)) WDP_HEADER_SIZE
        timeoutMs s
      match h.status with
      | .running => ⟨.running, some emptyMessage, h.state, h.trace⟩
      | .undefined => ⟨.undefined, some emptyMessage, h.state, h.trace⟩
      | .returned recvStatus =>
        if recvStatus < 0 then
          ⟨.returned recvStatus, some emptyMessage, h.state, h.trace⟩
        else if recvStatus < (WDP_HEADER_SIZE : Int) then
          ⟨.returned WDP_ERR_PROTOCOL_HEADER_INCOMPLETE, some emptyMessage, h.state, h.trace⟩
        else
          let r := wdpRecvBody E g fuel timeoutMs h.buffer h.state
          { r with trace := h.trace ++ r.trace }

/-! ## `wdpFree` and `wdpGetErrorString` -/

/-- Embedding of `void wdpFree(WDP *wdp)`: the final value of `*wdp` (`none` for
a null `wdp`) and the calls issued. -/
def wdpFree (wdp : Option WDP) : Option WDP × List Event :=
  match wdp with
  | none => (none, [])
  | some m =>
    if m.data ≠ none then (some { dataLen := 0, data := none }, [.free])
    else (some m, [])

/-- Embedding of `const char* wdpGetErrorString(int errorCode)`. -/
def wdpGetErrorString (errorCode : Int) : String :=
  if errorCode = WDP_SUCCESS then "Success"
  else if errorCode = WDP_ERR_NETWORK_SEND_FAILED then "Network send failed"
  else if errorCode = WDP_ERR_NETWORK_RECV_FAILED then "Network receive failed"
  else if errorCode = WDP_ERR_NETWORK_TIMEOUT then "Network timeout"
  else if errorCode = WDP_ERR_NETWORK_PEER_CLOSED then "Peer closed connection"
  else if errorCode = WDP_ERR_NETWORK_INCOMPLETE then "Incomplete data received"
  else if errorCode = WDP_ERR_SOCKET_INVALID then "Invalid socket"
  else if errorCode = WDP_ERR_SOCKET_NOT_CONNECTED then "Socket not connected"
  else if errorCode = WDP_ERR_SOCKET_SELECT_FAILED then "Select operation failed"
  else if errorCode = WDP_ERR_MEMORY_ALLOC_FAILED then "Memory allocation failed"
  else if errorCode = WDP_ERR_MEMORY_COPY_FAILED then "Memory copy failed"
  else if errorCode = WDP_ERR_MEMORY_NULL_POINTER then "Null pointer error"
  else if errorCode = WDP_ERR_PROTOCOL_VERSION_MISMATCH then "Protocol version mismatch"
  else if errorCode = WDP_ERR_PROTOCOL_INVALID_LENGTH then "Invalid data length"
  else if errorCode = WDP_ERR_PROTOCOL_DATA_TOO_LARGE then "Data exceeds maximum size"
  else if errorCode = WDP_ERR_PROTOCOL_HEADER_INCOMPLETE then "Incomplete header"
  else if errorCode = WDP_ERR_PARAM_INVALID then "Invalid parameter"
  else if errorCode = WDP_ERR_PARAM_NULL_DATA then "Null data pointer"
  else if errorCode = WDP_ERR_PARAM_BUFFER_TOO_SMALL then "Buffer too small"
  else "Unknown error"

/-! ## Reading a trace -/

/-- The bytes accepted by the successive write calls of a trace, concatenated:
a call with status `n > 0` accepted the first `n` bytes it was offered. -/
def sentBytes : List Event → List Byte
  | [] => []
  | .send offered sendStatus _ :: evs =>
    (if 0 < sendStatus then offered.take sendStatus.toNat else []) ++ sentBytes evs
  | _ :: evs => sentBytes evs

/-- The bytes stored by the successive read calls of a trace, concatenated. -/
def recvBytes : List Event → List Byte
  | [] => []
  | .recv _ recvStatus _ bytes :: evs =>
    (if 0 < recvStatus then bytes else []) ++ recvBytes evs
  | _ :: evs => recvBytes evs

/-- Number of write calls in a trace. -/
def sendCalls (tr : List Event) : Nat :=
  (tr.filter fun e => match e with | .send _ _ _ => true | _ => false).length

/-- Number of readiness waits in a trace. -/
def selectCalls (tr : List Event) : Nat :=
  (tr.filter fun e => match e with | .select _ _ => true | _ => false).length

/-- Number of read calls in a trace. -/
def recvCalls (tr : List Event) : Nat :=
  (tr.filter fun e => match e with | .recv _ _ _ _ => true | _ => false).length

/-- Number of buffers a trace allocates (successful `malloc` calls). -/
def allocations (tr : List Event) : Nat :=
  (tr.filter fun e => match e with | .malloc _ ok => ok | _ => false).length

/-- Number of `free` calls in a trace. -/
def releases (tr : List Event) : Nat :=
  (tr.filter fun e => match e with | .free => true | _ => false).length

/-! ## Streams -/

/-- A stream that accepts every write: each write call on a non-empty range
takes at least one and at most all of the bytes offered, and every allocation
succeeds. -/
structure AcceptsWrites {σ : Type} (E : Env σ) : Prop where
  malloc_ok : ∀ s n, (E.malloc s n).1 = true
  send_ok : ∀ s offered, offered ≠ [] →
    1 ≤ (E.send s offered).1.1 ∧ (E.send s offered).1.1 ≤ (offered.length : Int)

/-- A stream that delivers the byte sequence it holds without error: `holds s q`
says that in state `s` the bytes `q` are still to come. Every wait reports
ready, every read stores a non-empty chunk from the front of `q`, no longer
than requested, and every allocation succeeds. -/
structure Feeds {σ : Type} (E : Env σ) (holds : σ → List Byte → Prop) : Prop where
  malloc_ok : ∀ s q n, holds s q → (E.malloc s n).1 = true ∧ holds (E.malloc s n).2 q
  select_ready : ∀ s q t, holds s q →
    (E.select s t).1 ≠ -1 ∧ (E.select s t).1 ≠ 0 ∧ holds (E.select s t).2 q
  recv_chunk : ∀ s q requested, holds s q → 0 < requested → q ≠ [] →
    ∃ n : Nat, 0 < n ∧ n ≤ requested ∧ n ≤ q.length ∧
      (E.recv s requested).1.1 = (n : Int) ∧ (E.recv s requested).1.2.2 = q.take n ∧
      holds (E.recv s requested).2 (q.drop n)

/-- The contract of the read call: it returns an error (`-1`), `0`, or a count
between 1 and the requested number, having stored that many bytes. -/
def RecvContract {σ : Type} (E : Env σ) : Prop :=
  ∀ s requested,
    (E.recv s requested).1.1 = -1 ∨ (E.recv s requested).1.1 = 0 ∨
    (1 ≤ (E.recv s requested).1.1 ∧ (E.recv s requested).1.1 ≤ (requested : Int) ∧
      ((E.recv s requested).1.2.2.length : Int) = (E.recv s requested).1.1)

/-- A connected pair of endpoints: `queue` holds the bytes written and not yet
read, `picks` the chunk sizes the stream chooses for the coming transfers
(when `picks` is used up a call transfers all it may). -/
structure Link where
  queue : List Byte
  picks : List Nat
deriving DecidableEq, Repr

/-- The chunk size of the next transfer: the pick, at least 1, at most `bound`
and at most `INT_MAX`. -/
def Link.chunk (l : Link) (bound : Nat) : Nat :=
  min (max 1 (l.picks.headD bound)) (min bound 2147483647)

/-- An error-free stream over a `Link`: writes append to the queue, reads take
from its front (an empty queue reads as end of stream), every wait reports
ready and every allocation succeeds. -/
def linkEnv : Env Link where
  platform := posix
  malloc s _ := (true, s)
  send s offered :=
    (((s.chunk offered.length : Nat), 0),
      { queue := s.queue ++ offered.take (s.chunk offered.length), picks := s.picks.tail })
  select s _ := (1, s)
  recv s requested :=
    ((((s.queue.take (s.chunk requested)).length : Nat), 0, s.queue.take (s.chunk requested)),
      { queue := s.queue.drop (s.chunk requested), picks := s.picks.tail })

/-- Scripted answers of the environment, one list per call kind. -/
structure Script where
  mallocs : List Bool
  sends : List (Int × Int)
  selects : List Int
  recvs : List (Int × Int × List Byte)
deriving DecidableEq, Repr

/-- A stream that answers each call with the next entry of its script; when a
list is used up, allocation succeeds, a write fails, a wait expires and a read
reports end of stream. -/
def scriptEnv : Env Script where
  platform := posix
  malloc s _ := (s.mallocs.headD true, { s with mallocs := s.mallocs.tail })
  send s _ := (s.sends.headD (-1, 0), { s with sends := s.sends.tail })
  select s _ := (s.selects.headD 0, { s with selects := s.selects.tail })
  recv s _ := (s.recvs.headD (0, 0, []), { s with recvs := s.recvs.tail })

/-- Sending the payloads of a list back to back: the statuses of the calls and
the state the last call leaves. -/
def sendAll {σ : Type} (E : Env σ) (g : Globals) (fuel : Nat) (socket : Int) :
    List (List Byte) → σ → List Status × σ
  | [], s => ([], s)
  | d :: ds, s =>
    let r := wdpSend E g fuel socket (wdpPack (some d) d.length) s
    let rest := sendAll E g fuel socket ds r.state
    (r.status :: rest.1, rest.2)

/-- Calling `wdpRecv` a number of times in a row: status and destination
message of each call, and the state the last call leaves. -/
def recvAll {σ : Type} (E : Env σ) (g : Globals) (fuel : Nat) (socket : Int) (timeoutMs : Nat) :
    Nat → σ → List (Status × Option WDP) × σ
  | 0, s => ([], s)
  | k + 1, s =>
    let r := wdpRecv E g fuel socket (some emptyMessage) timeoutMs s
    let rest := recvAll E g fuel socket timeoutMs k r.state
    ((r.status, r.dst) :: rest.1, rest.2)


/-- The six ASCII bytes of the version tag, written as the text `WDP0.1`. -/
def versionTag : List Byte := ("WDP0.1".toList.map fun c => (Fin.ofNat c.toNat : Fin (255 + 1)))

/-- The frame of a payload as the wire format describes it: the 6 bytes
`WDP0.1`, the payload length as a 4-byte big-endian integer, the payload. -/
def frame (d : List Byte) : List Byte :=
  versionTag ++ htonl d.length ++ d

/-- The frames of a list of payloads, back to back. -/
def frames : List (List Byte) → List Byte
  | [] => []
  | d :: ds => frame d ++ frames ds

/-- The outcome of the header stage of `wdpRecv`: the exact read of
`WDP_HEADER_SIZE` bytes into the `header` array. -/
def headerStage {σ : Type} (E : Env σ) (fuel timeoutMs : Nat) (s : σ) : ExactOutcome σ :=
  wdpRecvExact E fuel (some (List.replicate WDP_HEADER_SIZE 0)) WDP_HEADER_SIZE timeoutMs s

/-- The message `wdpRecv` builds for a payload `d`: absent data for an empty
payload, the payload bytes otherwise. -/
def messageOf (d : List Byte) : WDP :=
  { dataLen := d.length, data := if d.length = 0 then none else some d }

/-- The five error codes `wdpRecvExact` returns from inside its loop. -/
def exactReadErrors : List Int :=
  [WDP_ERR_SOCKET_SELECT_FAILED, WDP_ERR_NETWORK_TIMEOUT, WDP_ERR_NETWORK_PEER_CLOSED,
    WDP_ERR_SOCKET_NOT_CONNECTED, WDP_ERR_NETWORK_RECV_FAILED]

/-- An event is a readiness wait or a read call. -/
def Event.isRead : Event → Prop
  | .select _ _ => True
  | .recv _ _ _ _ => True
  | _ => False

/-- What `wdpRecv` leaves in the destination after reading the whole frame of a
payload `d`: the payload when its length fits an `int`, the empty message
otherwise. -/
def received (d : List Byte) : WDP :=
  if d.length < 2147483648 then
    { dataLen := d.length, data := if d.length = 0 then none else some d }
  else emptyMessage

/-- Calling `wdpFree` on the same message object a number of times in a row:
the final value of the object and all calls issued. -/
def wdpFreeTimes : Nat → Option WDP → Option WDP × List Event
  | 0, wdp => (wdp, [])
  | n + 1, wdp =>
    ((wdpFreeTimes n (wdpFree wdp).1).1, (wdpFree wdp).2 ++ (wdpFreeTimes n (wdpFree wdp).1).2)

/-- The 18 error codes of `WDP_ERROR_CODE`. -/
def errorCodes : List Int :=
  [WDP_ERR_NETWORK_SEND_FAILED, WDP_ERR_NETWORK_RECV_FAILED, WDP_ERR_NETWORK_TIMEOUT,
    WDP_ERR_NETWORK_PEER_CLOSED, WDP_ERR_NETWORK_INCOMPLETE,
    WDP_ERR_SOCKET_INVALID, WDP_ERR_SOCKET_NOT_CONNECTED, WDP_ERR_SOCKET_SELECT_FAILED,
    WDP_ERR_MEMORY_ALLOC_FAILED, WDP_ERR_MEMORY_COPY_FAILED, WDP_ERR_MEMORY_NULL_POINTER,
    WDP_ERR_PROTOCOL_VERSION_MISMATCH, WDP_ERR_PROTOCOL_INVALID_LENGTH,
    WDP_ERR_PROTOCOL_DATA_TOO_LARGE, WDP_ERR_PROTOCOL_HEADER_INCOMPLETE,
    WDP_ERR_PARAM_INVALID, WDP_ERR_PARAM_NULL_DATA, WDP_ERR_PARAM_BUFFER_TOO_SMALL]

/-- The defined codes of `WDP_ERROR_CODE`: `WDP_SUCCESS` and the 18 error codes. -/
def definedCodes : List Int := WDP_SUCCESS :: errorCodes

/-- The Linux error number `ECONNABORTED` (connection aborted), which the POSIX
branch of `isConnectionError` does not test. -/
def ECONNABORTED : Int := 103

/-- The Linux error number `EPIPE` (broken pipe), the third code the POSIX
branch of `isConnectionError` tests. -/
def EPIPE : Int := 32

/-- The Winsock error number `WSAECONNABORTED`, the third code the `_WIN32`
branch of `isConnectionError` tests. -/
def WSAECONNABORTED : Int := 10053

/-- The result of `wdpSend` for a write that failed with platform error `e`. -/
def writeFailureCode (p : Platform) (e : Int) : Int :=
  if isConnectionError p e then WDP_ERR_SOCKET_NOT_CONNECTED else WDP_ERR_NETWORK_SEND_FAILED

/-- The contract of the write call: it returns an error (`-1`), `0`, or a count
between 1 and the number of bytes offered. -/
def SendContract {σ : Type} (E : Env σ) : Prop :=
  ∀ s offered,
    (E.send s offered).1.1 = -1 ∨ (E.send s offered).1.1 = 0 ∨
    (1 ≤ (E.send s offered).1.1 ∧ (E.send s offered).1.1 ≤ (offered.length : Int))

/-- The three error codes `wdpSend` returns from inside its send loop. -/
def sendLoopErrors : List Int :=
  [WDP_ERR_SOCKET_NOT_CONNECTED, WDP_ERR_NETWORK_SEND_FAILED, WDP_ERR_NETWORK_PEER_CLOSED]

/-- A stream on which every wait reports ready and every read delivers at least
one byte and at most the bytes requested. -/
structure Trickles {σ : Type} (E : Env σ) : Prop where
  select_ready : ∀ s t, (E.select s t).1 ≠ -1 ∧ (E.select s t).1 ≠ 0
  recv_some : ∀ s requested, 0 < requested →
    1 ≤ (E.recv s requested).1.1 ∧ (E.recv s requested).1.1 ≤ (requested : Int) ∧
    ((E.recv s requested).1.2.2.length : Int) = (E.recv s requested).1.1

/-- A slow peer: every wait reports ready and every read delivers one byte (the
state counts the bytes delivered so far and gives the byte value). -/
def trickleEnv : Env Nat where
  platform := posix
  malloc s _ := (true, s)
  send s _ := ((-1, 0), s)
  select s _ := (1, s)
  recv s requested :=
    ((((min 1 requested : Nat) : Int), 0, List.replicate (min 1 requested) (Fin.ofNat s)), s + 1)

/-- A stream whose write calls follow the picks like the link and fail with
`EPIPE` once the picks are used up (reads and waits as on the link). -/
def breakingEnv : Env Link where
  platform := posix
  malloc s _ := (true, s)
  send s offered :=
    match s.picks with
    | [] => ((-1, EPIPE), s)
    | _ :: _ =>
      (((s.chunk offered.length : Nat), 0),
        { queue := s.queue ++ offered.take (s.chunk offered.length), picks := s.picks.tail })
  select s _ := (1, s)
  recv s requested :=
    ((((s.queue.take (s.chunk requested)).length : Nat), 0, s.queue.take (s.chunk requested)),
      { queue := s.queue.drop (s.chunk requested), picks := s.picks.tail })

end Wdp

/-! # Theorems -/

namespace Wdp

/-! ## The exact-read loop: shape of the trace -/

theorem wdpRecvExactLoop_trace {σ : Type} (E : Env σ) (length timeoutMs : Nat) :
    ∀ (fuel totalRecv : Nat) (buf : List Byte) (s : σ),
      (∀ e ∈ (wdpRecvExactLoop E length timeoutMs fuel totalRecv buf s).trace, e.isRead) ∧
      (∀ t, Event.select t 0 ∈ (wdpRecvExactLoop E length timeoutMs fuel totalRecv buf s).trace →
        (wdpRecvExactLoop E length timeoutMs fuel totalRecv buf s).status
          = .returned WDP_ERR_NETWORK_TIMEOUT) ∧
      (∀ q err bs,
        Event.recv q 0 err bs ∈ (wdpRecvExactLoop E length timeoutMs fuel totalRecv buf s).trace →
        (wdpRecvExactLoop E length timeoutMs fuel totalRecv buf s).status
          = .returned WDP_ERR_NETWORK_PEER_CLOSED) := by
  intro fuel
  induction fuel with
  | zero =>
    intro totalRecv buf s
    unfold wdpRecvExactLoop
    split <;> simp
  | succ fuel ih =>
    intro totalRecv buf s
    unfold wdpRecvExactLoop
    by_cases h1 : totalRecv < length
    · simp only [h1, if_true]
      by_cases h2 : (E.select s (timeoutPtr timeoutMs)).1 = WDP_SOCKET_ERROR
      · simp [h2, Event.isRead, WDP_SOCKET_ERROR]
      · by_cases h3 : (E.select s (timeoutPtr timeoutMs)).1 = 0
        · simp [h3, Event.isRead, WDP_SOCKET_ERROR]
        · simp only [h2, h3, if_false]
          have h3s : ¬ (0 = (E.select s (timeoutPtr timeoutMs)).1) := fun h => h3 h.symm
          by_cases h4 : (E.recv (E.select s (timeoutPtr timeoutMs)).2 (length - totalRecv)).1.1
              = WDP_SOCKET_ERROR
          · have h4n : (E.recv (E.select s (timeoutPtr timeoutMs)).2 (length - totalRecv)).1.1 ≠ 0 := by
              rw [h4]; decide
            have h4s : ¬ (0 = (E.recv (E.select s (timeoutPtr timeoutMs)).2
                (length - totalRecv)).1.1) := fun h => h4n h.symm
            simp only [h4, if_true]
            split <;> simp [Event.isRead, h3s, ← h4]
            all_goals exact fun _ _ _ _ h => absurd h h4s
          · by_cases h5 : (E.recv (E.select s (timeoutPtr timeoutMs)).2 (length - totalRecv)).1.1 = 0
            · simp [h5, Event.isRead, h3s, WDP_SOCKET_ERROR]
            · simp only [h4, h5, if_false]
              have h5s : ¬ (0 = (E.recv (E.select s (timeoutPtr timeoutMs)).2
                  (length - totalRecv)).1.1) := fun h => h5 h.symm
              split
              · simp [Event.isRead, h3s, h5s]
              · rename_i buf1 _
                obtain ⟨i1, i2, i3⟩ := ih (toU32 (totalRecv +
                  (E.recv (E.select s (timeoutPtr timeoutMs)).2 (length - totalRecv)).1.1)) buf1
                  (E.recv (E.select s (timeoutPtr timeoutMs)).2 (length - totalRecv)).2
                simp only [ExactOutcome.after]
                refine ⟨?_, ?_, ?_⟩
                · intro e he
                  simp only [List.cons_append, List.nil_append, List.mem_cons] at he
                  rcases he with he | he | he
                  · subst he; trivial
                  · subst he; trivial
                  · exact i1 e he
                · intro t ht
                  simp only [List.cons_append, List.nil_append, List.mem_cons, reduceCtorEq,
                    Event.select.injEq, false_or] at ht
                  rcases ht with ht | ht
                  · exact absurd ht.2.symm h3
                  · exact i2 t ht
                · intro q err bs hq
                  simp only [List.cons_append, List.nil_append, List.mem_cons, reduceCtorEq,
                    Event.recv.injEq, false_or] at hq
                  rcases hq with hq | hq
                  · exact absurd hq.2.1.symm h5
                  · exact i3 q err bs hq
    · simp [h1]

theorem wdpRecvExact_trace {σ : Type} (E : Env σ) (fuel : Nat) (buffer : Option (List Byte))
    (length timeoutMs : Nat) (s : σ) :
    (∀ e ∈ (wdpRecvExact E fuel buffer length timeoutMs s).trace, e.isRead) ∧
    (∀ t, Event.select t 0 ∈ (wdpRecvExact E fuel buffer length timeoutMs s).trace →
      (wdpRecvExact E fuel buffer length timeoutMs s).status
        = .returned WDP_ERR_NETWORK_TIMEOUT) ∧
    (∀ q err bs, Event.recv q 0 err bs ∈ (wdpRecvExact E fuel buffer length timeoutMs s).trace →
      (wdpRecvExact E fuel buffer length timeoutMs s).status
        = .returned WDP_ERR_NETWORK_PEER_CLOSED) := by
  cases buffer with
  | none => simp [wdpRecvExact]
  | some buf => exact wdpRecvExactLoop_trace E length timeoutMs fuel 0 buf s

theorem allocations_of_isRead (tr : List Event) (h : ∀ e ∈ tr, e.isRead) :
    allocations tr = 0 ∧ releases tr = 0 := by
  induction tr with
  | nil => simp [allocations, releases]
  | cons e tr ih =>
    have he : e.isRead := h e (List.mem_cons_self _ _)
    have ht := ih (fun x hx => h x (List.mem_cons_of_mem _ hx))
    simp only [allocations, releases] at ht ⊢
    cases e <;> simp_all [Event.isRead, List.filter_cons]

theorem allocations_append (a b : List Event) :
    allocations (a ++ b) = allocations a + allocations b := by
  simp [allocations]

theorem releases_append (a b : List Event) :
    releases (a ++ b) = releases a + releases b := by
  simp [releases]

/-- What the payload stage of `wdpRecv` does when a wait expires or a read
reports end of stream. -/
theorem wdpRecvPayload_abort {σ : Type} (E : Env σ) (fuel dataLen timeoutMs : Nat) (s : σ) :
    (∀ t, Event.select t 0 ∈ (wdpRecvPayload E fuel dataLen timeoutMs s).trace →
      (wdpRecvPayload E fuel dataLen timeoutMs s).status = .returned WDP_ERR_NETWORK_TIMEOUT ∧
      (wdpRecvPayload E fuel dataLen timeoutMs s).dst = some emptyMessage ∧
      allocations (wdpRecvPayload E fuel dataLen timeoutMs s).trace = 1 ∧
      releases (wdpRecvPayload E fuel dataLen timeoutMs s).trace = 1) ∧
    (∀ q err bs, Event.recv q 0 err bs ∈ (wdpRecvPayload E fuel dataLen timeoutMs s).trace →
      (wdpRecvPayload E fuel dataLen timeoutMs s).status = .returned WDP_ERR_NETWORK_PEER_CLOSED ∧
      (wdpRecvPayload E fuel dataLen timeoutMs s).dst = some emptyMessage ∧
      allocations (wdpRecvPayload E fuel dataLen timeoutMs s).trace = 1 ∧
      releases (wdpRecvPayload E fuel dataLen timeoutMs s).trace = 1) := by
  unfold wdpRecvPayload
  by_cases hm : (E.malloc s dataLen).1 = false
  · simp [hm]
  · simp only [if_neg hm]
    obtain ⟨t1, t2, t3⟩ := wdpRecvExact_trace E fuel (some (List.replicate dataLen 0)) dataLen
      timeoutMs (E.malloc s dataLen).2
    obtain ⟨a1, a2⟩ := allocations_of_isRead _ t1
    generalize wdpRecvExact E fuel (some (List.replicate dataLen 0)) dataLen timeoutMs
      (E.malloc s dataLen).2 = r at t1 t2 t3 a1 a2
    have hl : Event.malloc dataLen true :: (r.trace ++ [Event.free])
        = [Event.malloc dataLen true] ++ r.trace ++ [Event.free] := by simp
    have hal : allocations (Event.malloc dataLen true :: (r.trace ++ [Event.free])) = 1 := by
      rw [hl, allocations_append, allocations_append, a1]; simp [allocations]
    have hre : releases (Event.malloc dataLen true :: (r.trace ++ [Event.free])) = 1 := by
      rw [hl, releases_append, releases_append, a2]; simp [releases]
    constructor
    · intro t ht
      have hin : Event.select t 0 ∈ r.trace := by
        cases hst : r.status with
        | returned v =>
          by_cases hv : v < 0 <;> by_cases hv2 : v < toInt32 dataLen <;>
            simpa [hst, hv, hv2] using ht
        | running => simpa [hst] using ht
        | undefined => simpa [hst] using ht
      have hs := t2 t hin
      simp [hs, WDP_ERR_NETWORK_TIMEOUT, hal, hre]
    · intro q err bs hq
      have hin : Event.recv q 0 err bs ∈ r.trace := by
        cases hst : r.status with
        | returned v =>
          by_cases hv : v < 0 <;> by_cases hv2 : v < toInt32 dataLen <;>
            simpa [hst, hv, hv2] using hq
        | running => simpa [hst] using hq
        | undefined => simpa [hst] using hq
      have hs := t3 q err bs hin
      simp [hs, WDP_ERR_NETWORK_PEER_CLOSED, hal, hre]

/-- What steps 2 to 8 of `wdpRecv` do when a wait expires or a read reports end
of stream. -/
theorem wdpRecvBody_abort {σ : Type} (E : Env σ) (g : Globals) (fuel timeoutMs : Nat)
    (header : Option (List Byte)) (s : σ) :
    (∀ t, Event.select t 0 ∈ (wdpRecvBody E g fuel timeoutMs header s).trace →
      (wdpRecvBody E g fuel timeoutMs header s).status = .returned WDP_ERR_NETWORK_TIMEOUT ∧
      (wdpRecvBody E g fuel timeoutMs header s).dst = some emptyMessage ∧
      allocations (wdpRecvBody E g fuel timeoutMs header s).trace = 1 ∧
      releases (wdpRecvBody E g fuel timeoutMs header s).trace = 1) ∧
    (∀ q err bs, Event.recv q 0 err bs ∈ (wdpRecvBody E g fuel timeoutMs header s).trace →
      (wdpRecvBody E g fuel timeoutMs header s).status = .returned WDP_ERR_NETWORK_PEER_CLOSED ∧
      (wdpRecvBody E g fuel timeoutMs header s).dst = some emptyMessage ∧
      allocations (wdpRecvBody E g fuel timeoutMs header s).trace = 1 ∧
      releases (wdpRecvBody E g fuel timeoutMs header s).trace = 1) := by
  unfold wdpRecvBody
  by_cases h1 : wdpStartsWith header (some WDP_VERSION_STRING) WDP_VERSION_LEN = 0
  · simp [h1]
  · simp only [if_neg h1]
    by_cases h2 : ntohl (List.take 4 (List.drop WDP_VERSION_LEN (header.getD [])))
        > g.WDP_MAX_DATA_SIZE
    · simp [h2]
    · simp only [if_neg h2]
      by_cases h3 : ntohl (List.take 4 (List.drop WDP_VERSION_LEN (header.getD []))) = 0
      · simp [h3]
      · simp only [if_neg h3]
        exact wdpRecvPayload_abort E fuel _ timeoutMs s

/-- C9: when, during `wdpRecv` on a valid handle, a readiness wait expires
(`select` gives 0) or a read reports 0 bytes, in the header stage or in the
payload stage after any number of bytes, the call returns `NetworkTimeout`
respectively `NetworkPeerClosed`, the destination message is empty, and the
buffer the call allocated, if any, is released exactly once. -/
theorem wdpRecv_no_partial_message {σ : Type} (E : Env σ) (g : Globals) (fuel : Nat)
    (socket : Int) (dst0 : WDP) (timeoutMs : Nat) (s : σ)
    (hs : socket ≠ E.platform.WDP_INVALID_SOCKET) :
    (∀ t, Event.select t 0 ∈ (wdpRecv E g fuel socket (some dst0) timeoutMs s).trace →
      (wdpRecv E g fuel socket (some dst0) timeoutMs s).status
        = .returned WDP_ERR_NETWORK_TIMEOUT ∧
      (wdpRecv E g fuel socket (some dst0) timeoutMs s).dst = some emptyMessage ∧
      releases (wdpRecv E g fuel socket (some dst0) timeoutMs s).trace
        = allocations (wdpRecv E g fuel socket (some dst0) timeoutMs s).trace ∧
      allocations (wdpRecv E g fuel socket (some dst0) timeoutMs s).trace ≤ 1) ∧
    (∀ q err bs,
      Event.recv q 0 err bs ∈ (wdpRecv E g fuel socket (some dst0) timeoutMs s).trace →
      (wdpRecv E g fuel socket (some dst0) timeoutMs s).status
        = .returned WDP_ERR_NETWORK_PEER_CLOSED ∧
      (wdpRecv E g fuel socket (some dst0) timeoutMs s).dst = some emptyMessage ∧
      releases (wdpRecv E g fuel socket (some dst0) timeoutMs s).trace
        = allocations (wdpRecv E g fuel socket (some dst0) timeoutMs s).trace ∧
      allocations (wdpRecv E g fuel socket (some dst0) timeoutMs s).trace ≤ 1) := by
  unfold wdpRecv
  simp only [if_neg hs]
  obtain ⟨t1, t2, t3⟩ := wdpRecvExact_trace E fuel (some (List.replicate WDP_HEADER_SIZE 0))
    WDP_HEADER_SIZE timeoutMs s
  obtain ⟨a1, a2⟩ := allocations_of_isRead _ t1
  generalize wdpRecvExact E fuel (some (List.replicate WDP_HEADER_SIZE 0)) WDP_HEADER_SIZE
    timeoutMs s = h at t1 t2 t3 a1 a2
  cases hst : h.status with
  | running =>
    simp only [hst]
    refine ⟨fun t ht => ?_, fun q err bs hq => ?_⟩
    · have := t2 t ht; simp [hst] at this
    · have := t3 q err bs hq; simp [hst] at this
  | undefined =>
    simp only [hst]
    refine ⟨fun t ht => ?_, fun q err bs hq => ?_⟩
    · have := t2 t ht; simp [hst] at this
    · have := t3 q err bs hq; simp [hst] at this
  | returned v =>
    simp only [hst]
    by_cases hv : v < 0
    · simp only [if_pos hv]
      refine ⟨fun t ht => ?_, fun q err bs hq => ?_⟩
      · have := t2 t ht
        rw [hst] at this
        exact ⟨this, trivial, by rw [a1, a2], by rw [a1]; exact Nat.zero_le _⟩
      · have := t3 q err bs hq
        rw [hst] at this
        exact ⟨this, trivial, by rw [a1, a2], by rw [a1]; exact Nat.zero_le _⟩
    · simp only [if_neg hv]
      have hne1 : ∀ t, Event.select t 0 ∉ h.trace := by
        intro t ht
        have := t2 t ht
        rw [hst] at this
        simp only [Status.returned.injEq] at this
        rw [this] at hv; exact hv (by decide)
      have hne2 : ∀ q err bs, Event.recv q 0 err bs ∉ h.trace := by
        intro q err bs hq
        have := t3 q err bs hq
        rw [hst] at this
        simp only [Status.returned.injEq] at this
        rw [this] at hv; exact hv (by decide)
      by_cases hv2 : v < (WDP_HEADER_SIZE : Int)
      · simp only [if_pos hv2]
        exact ⟨fun t ht => absurd ht (hne1 t), fun q err bs hq => absurd hq (hne2 q err bs)⟩
      · simp only [if_neg hv2]
        obtain ⟨b1, b2⟩ := wdpRecvBody_abort E g fuel timeoutMs h.buffer h.state
        refine ⟨fun t ht => ?_, fun q err bs hq => ?_⟩
        · rcases List.mem_append.1 ht with ht | ht
          · exact absurd ht (hne1 t)
          · obtain ⟨c1, c2, c3, c4⟩ := b1 t ht
            refine ⟨c1, c2, ?_, ?_⟩
            · rw [allocations_append, releases_append, a1, a2, c3, c4]
            · rw [allocations_append, a1, c3]
        · rcases List.mem_append.1 hq with hq | hq
          · exact absurd hq (hne2 q err bs)
          · obtain ⟨c1, c2, c3, c4⟩ := b2 q err bs hq
            refine ⟨c1, c2, ?_, ?_⟩
            · rw [allocations_append, releases_append, a1, a2, c3, c4]
            · rw [allocations_append, a1, c3]

/-! ## Validation in `wdpSend` -/

/-- C3: `wdpSend` validates before it touches the stream, in this order: an
invalid handle gives `SocketInvalid`; otherwise absent data with
`dataLen > 0` gives `ParamNullData`; otherwise `dataLen > MaxDataSize` gives
`ProtocolDataTooLarge`. In each case the call issues no call at all (empty
trace, state unchanged), so no byte is written. -/
theorem wdpSend_validation_order {σ : Type} (E : Env σ) (g : Globals) (fuel : Nat)
    (socket : Int) (m : WDP) (s : σ) :
    (socket = E.platform.WDP_INVALID_SOCKET →
      wdpSend E g fuel socket m s = ⟨.returned WDP_ERR_SOCKET_INVALID, s, []⟩) ∧
    (socket ≠ E.platform.WDP_INVALID_SOCKET → m.data = none → 0 < m.dataLen →
      wdpSend E g fuel socket m s = ⟨.returned WDP_ERR_PARAM_NULL_DATA, s, []⟩) ∧
    (socket ≠ E.platform.WDP_INVALID_SOCKET → ¬ (m.data = none ∧ 0 < m.dataLen) →
      g.WDP_MAX_DATA_SIZE < m.dataLen →
      wdpSend E g fuel socket m s = ⟨.returned WDP_ERR_PROTOCOL_DATA_TOO_LARGE, s, []⟩) := by
  refine ⟨fun h => ?_, fun h hd hl => ?_, fun h hd hl => ?_⟩
  · simp [wdpSend, h]
  · simp [wdpSend, h, hd, hl]
  · unfold wdpSend
    rw [if_neg h, if_neg (by simpa using hd), if_pos hl]

/-- C3, at concrete inputs: an invalid handle; a null payload of length 7; a
payload one byte longer than the default `MaxDataSize`. -/
theorem wdpSend_validation_order_witness :
    wdpSend scriptEnv Globals.init 5 (-1) (wdpPack none 7) ⟨[], [], [], []⟩
      = ⟨.returned (-200), ⟨[], [], [], []⟩, []⟩ ∧
    wdpSend scriptEnv Globals.init 5 3 (wdpPack none 7) ⟨[], [], [], []⟩
      = ⟨.returned (-501), ⟨[], [], [], []⟩, []⟩ ∧
    wdpSend scriptEnv Globals.init 5 3 (wdpPack (some [1]) (1048576 + 1)) ⟨[], [], [], []⟩
      = ⟨.returned (-402), ⟨[], [], [], []⟩, []⟩ :=
  ⟨(wdpSend_validation_order scriptEnv Globals.init 5 (-1) (wdpPack none 7) ⟨[], [], [], []⟩).1
      (by decide),
   (wdpSend_validation_order scriptEnv Globals.init 5 3 (wdpPack none 7) ⟨[], [], [], []⟩).2.1
      (by decide) (by decide) (by decide),
   (wdpSend_validation_order scriptEnv Globals.init 5 3 (wdpPack (some [1]) (1048576 + 1))
      ⟨[], [], [], []⟩).2.2 (by decide) (by decide) (by decide)⟩

/-! ## `wdpRecv` after the header -/

theorem versionTag_eq : versionTag = WDP_VERSION_STRING.take WDP_VERSION_LEN := by decide

theorem wdpStartsWith_version (hdr : List Byte) :
    wdpStartsWith (some hdr) (some WDP_VERSION_STRING) WDP_VERSION_LEN = 1 ↔
      hdr.take 6 = versionTag := by
  rw [versionTag_eq]
  unfold wdpStartsWith
  simp only [WDP_VERSION_LEN]
  split <;> simp_all

theorem wdpStartsWith_version_zero (hdr : List Byte) :
    wdpStartsWith (some hdr) (some WDP_VERSION_STRING) WDP_VERSION_LEN = 0 ↔
      hdr.take 6 ≠ versionTag := by
  rw [versionTag_eq]
  unfold wdpStartsWith
  simp only [WDP_VERSION_LEN]
  split <;> simp_all

/-- After a complete header, `wdpRecv` is the header stage followed by steps 2
to 8. -/
theorem wdpRecv_after_header {σ : Type} (E : Env σ) (g : Globals) (fuel : Nat) (socket : Int)
    (dst0 : WDP) (timeoutMs : Nat) (s : σ) (v : Int)
    (hs : socket ≠ E.platform.WDP_INVALID_SOCKET)
    (hst : (headerStage E fuel timeoutMs s).status = .returned v)
    (hv : (WDP_HEADER_SIZE : Int) ≤ v) :
    wdpRecv E g fuel socket (some dst0) timeoutMs s =
      { wdpRecvBody E g fuel timeoutMs (headerStage E fuel timeoutMs s).buffer
          (headerStage E fuel timeoutMs s).state with
        trace := (headerStage E fuel timeoutMs s).trace ++
          (wdpRecvBody E g fuel timeoutMs (headerStage E fuel timeoutMs s).buffer
            (headerStage E fuel timeoutMs s).state).trace } := by
  unfold wdpRecv
  unfold headerStage at hst ⊢
  have h0 : ¬ v < 0 := by
    have : (0 : Int) ≤ (WDP_HEADER_SIZE : Int) := by decide
    omega
  simp only [if_neg hs, hst, if_neg h0, if_neg (not_lt.2 hv)]

/-- C5: when the received header's first 6 bytes are not exactly `WDP0.1`,
whatever the length field and `MaxDataSize`, `wdpRecv` returns
`ProtocolVersionMismatch`, its trace is the trace of the header stage (no wait
or read follows) and the destination message is empty; and the version check
passes exactly when all 6 bytes match. -/
theorem wdpRecv_version_mismatch {σ : Type} (E : Env σ) (g : Globals) (fuel : Nat)
    (socket : Int) (dst0 : WDP) (timeoutMs : Nat) (s : σ) (hdr : List Byte) (v : Int)
    (hs : socket ≠ E.platform.WDP_INVALID_SOCKET)
    (hst : (headerStage E fuel timeoutMs s).status = .returned v)
    (hv : (WDP_HEADER_SIZE : Int) ≤ v)
    (hb : (headerStage E fuel timeoutMs s).buffer = some hdr)
    (hne : hdr.take 6 ≠ versionTag) :
    wdpRecv E g fuel socket (some dst0) timeoutMs s =
      ⟨.returned WDP_ERR_PROTOCOL_VERSION_MISMATCH, some emptyMessage,
        (headerStage E fuel timeoutMs s).state, (headerStage E fuel timeoutMs s).trace⟩ ∧
    (∀ h : List Byte,
      wdpStartsWith (some h) (some WDP_VERSION_STRING) WDP_VERSION_LEN = 1 ↔
        h.take 6 = versionTag) := by
  refine ⟨?_, wdpStartsWith_version⟩
  rw [wdpRecv_after_header E g fuel socket dst0 timeoutMs s v hs hst hv, hb]
  unfold wdpRecvBody
  rw [if_pos ((wdpStartsWith_version_zero hdr).2 hne)]
  simp

/-- C5, at a concrete input: a header whose tag starts with `X` and whose
length field is `0xFFFFFFFF`. -/
theorem wdpRecv_version_mismatch_witness :
    wdpRecv linkEnv Globals.init 10 3 (some emptyMessage) 0
        ⟨[88, 68, 80, 48, 46, 49, 255, 255, 255, 255, 7], []⟩ =
      ⟨.returned (-400), some emptyMessage, ⟨[7], []⟩,
        [.select none 1, .recv 10 10 0 [88, 68, 80, 48, 46, 49, 255, 255, 255, 255]]⟩ :=
  (wdpRecv_version_mismatch linkEnv Globals.init 10 3 emptyMessage 0
    ⟨[88, 68, 80, 48, 46, 49, 255, 255, 255, 255, 7], []⟩
    [88, 68, 80, 48, 46, 49, 255, 255, 255, 255] 10 (by decide) (by decide) (by decide)
    (by decide) (by decide)).1

/-- A successful payload stage leaves a message of the length it was asked for. -/
theorem wdpRecvPayload_dataLen {σ : Type} (E : Env σ) (fuel dataLen timeoutMs : Nat) (s : σ)
    (v : Int) (m : WDP)
    (hst : (wdpRecvPayload E fuel dataLen timeoutMs s).status = .returned v) (hv : 0 ≤ v)
    (hd : (wdpRecvPayload E fuel dataLen timeoutMs s).dst = some m) :
    m.dataLen = dataLen := by
  unfold wdpRecvPayload at hst hd
  by_cases hm : (E.malloc s dataLen).1 = false
  · simp only [if_pos hm, Status.returned.injEq] at hst
    rw [← hst] at hv; exact absurd hv (by decide)
  · simp only [if_neg hm] at hst hd
    cases hr : (wdpRecvExact E fuel (some (List.replicate dataLen 0)) dataLen timeoutMs
        (E.malloc s dataLen).2).status with
    | running => simp [hr] at hst
    | undefined => simp [hr] at hst
    | returned w =>
      simp only [hr] at hst hd
      by_cases hw : w < 0
      · simp only [if_pos hw, Status.returned.injEq] at hst
        omega
      · simp only [if_neg hw] at hst hd
        by_cases hw2 : w < toInt32 dataLen
        · simp only [if_pos hw2, Status.returned.injEq] at hst
          rw [← hst] at hv; exact absurd hv (by decide)
        · simp only [if_neg hw2, Option.some.injEq] at hd
          rw [← hd]

/-- Steps 2 to 8 of `wdpRecv`, when they succeed, leave a message no longer
than `MaxDataSize`. -/
theorem wdpRecvBody_dataLen_le {σ : Type} (E : Env σ) (g : Globals) (fuel timeoutMs : Nat)
    (header : Option (List Byte)) (s : σ) (v : Int) (m : WDP)
    (hst : (wdpRecvBody E g fuel timeoutMs header s).status = .returned v) (hv : 0 ≤ v)
    (hd : (wdpRecvBody E g fuel timeoutMs header s).dst = some m) :
    m.dataLen ≤ g.WDP_MAX_DATA_SIZE := by
  unfold wdpRecvBody at hst hd
  by_cases h1 : wdpStartsWith header (some WDP_VERSION_STRING) WDP_VERSION_LEN = 0
  · simp only [if_pos h1, Status.returned.injEq] at hst
    rw [← hst] at hv; exact absurd hv (by decide)
  · simp only [if_neg h1] at hst hd
    by_cases h2 : ntohl (List.take 4 (List.drop WDP_VERSION_LEN (header.getD [])))
        > g.WDP_MAX_DATA_SIZE
    · simp only [if_pos h2, Status.returned.injEq] at hst
      rw [← hst] at hv; exact absurd hv (by decide)
    · simp only [if_neg h2] at hst hd
      by_cases h3 : ntohl (List.take 4 (List.drop WDP_VERSION_LEN (header.getD []))) = 0
      · simp only [if_pos h3, Option.some.injEq] at hd
        rw [← hd]; exact Nat.zero_le _
      · simp only [if_neg h3] at hst hd
        have := wdpRecvPayload_dataLen E fuel _ timeoutMs _ v m hst hv hd
        omega

/-- A successful `wdpRecv` leaves a message no longer than `MaxDataSize`. -/
theorem wdpRecv_dataLen_le {σ : Type} (E : Env σ) (g : Globals) (fuel : Nat) (socket : Int)
    (dst : Option WDP) (timeoutMs : Nat) (s : σ) (v : Int) (m : WDP)
    (hst : (wdpRecv E g fuel socket dst timeoutMs s).status = .returned v) (hv : 0 ≤ v)
    (hd : (wdpRecv E g fuel socket dst timeoutMs s).dst = some m) :
    m.dataLen ≤ g.WDP_MAX_DATA_SIZE := by
  unfold wdpRecv at hst hd
  by_cases hs : socket = E.platform.WDP_INVALID_SOCKET
  · simp only [if_pos hs, Status.returned.injEq] at hst
    rw [← hst] at hv; exact absurd hv (by decide)
  · simp only [if_neg hs] at hst hd
    cases dst with
    | none =>
      simp only [Status.returned.injEq] at hst
      rw [← hst] at hv; exact absurd hv (by decide)
    | some d0 =>
      simp only at hst hd
      cases hh : (wdpRecvExact E fuel (some (List.replicate WDP_HEADER_SIZE 0)) WDP_HEADER_SIZE
          timeoutMs s).status with
      | running => simp [hh] at hst
      | undefined => simp [hh] at hst
      | returned w =>
        simp only [hh] at hst hd
        by_cases hw : w < 0
        · simp only [if_pos hw, Status.returned.injEq] at hst
          omega
        · simp only [if_neg hw] at hst hd
          by_cases hw2 : w < (WDP_HEADER_SIZE : Int)
          · simp only [if_pos hw2, Status.returned.injEq] at hst
            rw [← hst] at hv; exact absurd hv (by decide)
          · simp only [if_neg hw2] at hst hd
            exact wdpRecvBody_dataLen_le E g fuel timeoutMs _ _ v m hst hv hd

theorem headerStage_allocations {σ : Type} (E : Env σ) (fuel timeoutMs : Nat) (s : σ) :
    allocations (headerStage E fuel timeoutMs s).trace = 0 :=
  (allocations_of_isRead _ (wdpRecvExact_trace E fuel _ _ timeoutMs s).1).1

/-- C6: when the received header has the correct version tag and its
big-endian length exceeds the `MaxDataSize` in force, `wdpRecv` returns
`ProtocolDataTooLarge`, its trace is the trace of the header stage (no
allocation, no read beyond the header) and the destination message is empty;
and every message a successful `wdpRecv` leaves has `dataLen ≤ MaxDataSize`. -/
theorem wdpRecv_data_too_large {σ : Type} (E : Env σ) (g : Globals) (fuel : Nat)
    (socket : Int) (timeoutMs : Nat) (s : σ) :
    (∀ (dst0 : WDP) (hdr : List Byte) (v : Int),
      socket ≠ E.platform.WDP_INVALID_SOCKET →
      (headerStage E fuel timeoutMs s).status = .returned v →
      (WDP_HEADER_SIZE : Int) ≤ v →
      (headerStage E fuel timeoutMs s).buffer = some hdr →
      hdr.take 6 = versionTag →
      g.WDP_MAX_DATA_SIZE < ntohl ((hdr.drop 6).take 4) →
      wdpRecv E g fuel socket (some dst0) timeoutMs s =
        ⟨.returned WDP_ERR_PROTOCOL_DATA_TOO_LARGE, some emptyMessage,
          (headerStage E fuel timeoutMs s).state, (headerStage E fuel timeoutMs s).trace⟩ ∧
      allocations (wdpRecv E g fuel socket (some dst0) timeoutMs s).trace = 0) ∧
    (∀ (dst : Option WDP) (v : Int) (m : WDP),
      (wdpRecv E g fuel socket dst timeoutMs s).status = .returned v → 0 ≤ v →
      (wdpRecv E g fuel socket dst timeoutMs s).dst = some m →
      m.dataLen ≤ g.WDP_MAX_DATA_SIZE) := by
  refine ⟨fun dst0 hdr v hs hst hv hb htag hbig => ?_, fun dst v m hst hv hd =>
    wdpRecv_dataLen_le E g fuel socket dst timeoutMs s v m hst hv hd⟩
  have key : wdpRecv E g fuel socket (some dst0) timeoutMs s =
      ⟨.returned WDP_ERR_PROTOCOL_DATA_TOO_LARGE, some emptyMessage,
        (headerStage E fuel timeoutMs s).state, (headerStage E fuel timeoutMs s).trace⟩ := by
    rw [wdpRecv_after_header E g fuel socket dst0 timeoutMs s v hs hst hv, hb]
    unfold wdpRecvBody
    have h1 : ¬ wdpStartsWith (some hdr) (some WDP_VERSION_STRING) WDP_VERSION_LEN = 0 := by
      rw [wdpStartsWith_version_zero]; exact not_not.2 htag
    have h2 : ntohl (List.take 4 (List.drop WDP_VERSION_LEN ((some hdr).getD [])))
        > g.WDP_MAX_DATA_SIZE := hbig
    simp only [if_neg h1, if_pos h2, List.append_nil]
  refine ⟨key, ?_⟩
  rw [key]
  exact headerStage_allocations E fuel timeoutMs s

/-- C6, at concrete inputs: `MaxDataSize` 4 and a length field of 5; and a
successful receive of 3 bytes under the default `MaxDataSize`. -/
theorem wdpRecv_data_too_large_witness :
    (wdpRecv linkEnv ⟨4⟩ 10 3 (some emptyMessage) 0
        ⟨[87, 68, 80, 48, 46, 49, 0, 0, 0, 5, 1, 2, 3, 4, 5], [3]⟩ =
      ⟨.returned (-402), some emptyMessage, ⟨[1, 2, 3, 4, 5], []⟩,
        [.select none 1, .recv 10 3 0 [87, 68, 80], .select none 1,
          .recv 7 7 0 [48, 46, 49, 0, 0, 0, 5]]⟩ ∧
      allocations (wdpRecv linkEnv ⟨4⟩ 10 3 (some emptyMessage) 0
        ⟨[87, 68, 80, 48, 46, 49, 0, 0, 0, 5, 1, 2, 3, 4, 5], [3]⟩).trace = 0) ∧
    (⟨3, some [1, 2, 3]⟩ : WDP).dataLen ≤ Globals.init.WDP_MAX_DATA_SIZE :=
  ⟨(wdpRecv_data_too_large linkEnv ⟨4⟩ 10 3 0
      ⟨[87, 68, 80, 48, 46, 49, 0, 0, 0, 5, 1, 2, 3, 4, 5], [3]⟩).1 emptyMessage
      [87, 68, 80, 48, 46, 49, 0, 0, 0, 5] 10 (by decide) (by decide) (by decide) (by decide)
      (by decide) (by decide),
   (wdpRecv_data_too_large linkEnv Globals.init 10 3 0
      ⟨[87, 68, 80, 48, 46, 49, 0, 0, 0, 3, 1, 2, 3], []⟩).2 (some emptyMessage) 3
      ⟨3, some [1, 2, 3]⟩ (by decide) (by decide) (by decide)⟩

/-- C7: when the received header has the correct version tag and a length field
of 0, `wdpRecv` returns success (0) with `dataLen == 0` and no data reference,
allocates nothing, and its trace is the trace of the header stage (no wait or
read follows), whatever `MaxDataSize` is. -/
theorem wdpRecv_zero_length {σ : Type} (E : Env σ) (g : Globals) (fuel : Nat)
    (socket : Int) (dst0 : WDP) (timeoutMs : Nat) (s : σ) (hdr : List Byte) (v : Int)
    (hs : socket ≠ E.platform.WDP_INVALID_SOCKET)
    (hst : (headerStage E fuel timeoutMs s).status = .returned v)
    (hv : (WDP_HEADER_SIZE : Int) ≤ v)
    (hb : (headerStage E fuel timeoutMs s).buffer = some hdr)
    (htag : hdr.take 6 = versionTag)
    (hlen : (hdr.drop 6).take 4 = [0, 0, 0, 0]) :
    wdpRecv E g fuel socket (some dst0) timeoutMs s =
      ⟨.returned 0, some { dataLen := 0, data := none },
        (headerStage E fuel timeoutMs s).state, (headerStage E fuel timeoutMs s).trace⟩ ∧
    allocations (wdpRecv E g fuel socket (some dst0) timeoutMs s).trace = 0 := by
  have key : wdpRecv E g fuel socket (some dst0) timeoutMs s =
      ⟨.returned 0, some { dataLen := 0, data := none },
        (headerStage E fuel timeoutMs s).state, (headerStage E fuel timeoutMs s).trace⟩ := by
    rw [wdpRecv_after_header E g fuel socket dst0 timeoutMs s v hs hst hv, hb]
    unfold wdpRecvBody
    have h1 : ¬ wdpStartsWith (some hdr) (some WDP_VERSION_STRING) WDP_VERSION_LEN = 0 := by
      rw [wdpStartsWith_version_zero]; exact not_not.2 htag
    have h3 : ntohl (List.take 4 (List.drop WDP_VERSION_LEN ((some hdr).getD []))) = 0 := by
      show ntohl (List.take 4 (List.drop 6 hdr)) = 0
      rw [hlen]; rfl
    have h2 : ¬ ntohl (List.take 4 (List.drop WDP_VERSION_LEN ((some hdr).getD [])))
        > g.WDP_MAX_DATA_SIZE := by
      rw [h3]; exact Nat.not_lt_zero _
    simp only [if_neg h1, if_neg h2, if_pos h3, List.append_nil, WDP_SUCCESS]
  refine ⟨key, ?_⟩
  rw [key]
  exact headerStage_allocations E fuel timeoutMs s

/-- C7, at a concrete input: `MaxDataSize` 0 and an empty frame followed by
other bytes, delivered in chunks of 4, 4 and 2 bytes. -/
theorem wdpRecv_zero_length_witness :
    wdpRecv linkEnv ⟨0⟩ 10 3 (some ⟨5, some [1]⟩) 250
        ⟨[87, 68, 80, 48, 46, 49, 0, 0, 0, 0, 9, 9], [4, 4]⟩ =
      ⟨.returned 0, some { dataLen := 0, data := none }, ⟨[9, 9], []⟩,
        [.select (some (0, 250000)) 1, .recv 10 4 0 [87, 68, 80, 48],
          .select (some (0, 250000)) 1, .recv 6 4 0 [46, 49, 0, 0],
          .select (some (0, 250000)) 1, .recv 2 2 0 [0, 0]]⟩ ∧
    allocations (wdpRecv linkEnv ⟨0⟩ 10 3 (some ⟨5, some [1]⟩) 250
        ⟨[87, 68, 80, 48, 46, 49, 0, 0, 0, 0, 9, 9], [4, 4]⟩).trace = 0 :=
  wdpRecv_zero_length linkEnv ⟨0⟩ 10 3 ⟨5, some [1]⟩ 250
    ⟨[87, 68, 80, 48, 46, 49, 0, 0, 0, 0, 9, 9], [4, 4]⟩ [87, 68, 80, 48, 46, 49, 0, 0, 0, 0] 10
    (by decide) (by decide) (by decide) (by decide) (by decide) (by decide)

/-- C9, at concrete inputs: the header and 2 of 5 payload bytes arrive and the
next wait expires; and the header and 2 of 5 payload bytes arrive and the next
read reports end of stream. In both runs one buffer is allocated and one
released. -/
theorem wdpRecv_no_partial_message_witness :
    ((wdpRecv scriptEnv Globals.init 10 3 (some ⟨9, some [1]⟩) 250
        ⟨[], [], [1, 1, 0], [(10, 0, [87, 68, 80, 48, 46, 49, 0, 0, 0, 5]), (2, 0, [1, 2])]⟩).status
        = .returned (-102) ∧
      (wdpRecv scriptEnv Globals.init 10 3 (some ⟨9, some [1]⟩) 250
        ⟨[], [], [1, 1, 0], [(10, 0, [87, 68, 80, 48, 46, 49, 0, 0, 0, 5]), (2, 0, [1, 2])]⟩).dst
        = some emptyMessage ∧
      releases (wdpRecv scriptEnv Globals.init 10 3 (some ⟨9, some [1]⟩) 250
        ⟨[], [], [1, 1, 0], [(10, 0, [87, 68, 80, 48, 46, 49, 0, 0, 0, 5]), (2, 0, [1, 2])]⟩).trace
        = allocations (wdpRecv scriptEnv Globals.init 10 3 (some ⟨9, some [1]⟩) 250
        ⟨[], [], [1, 1, 0], [(10, 0, [87, 68, 80, 48, 46, 49, 0, 0, 0, 5]), (2, 0, [1, 2])]⟩).trace ∧
      allocations (wdpRecv scriptEnv Globals.init 10 3 (some ⟨9, some [1]⟩) 250
        ⟨[], [], [1, 1, 0], [(10, 0, [87, 68, 80, 48, 46, 49, 0, 0, 0, 5]), (2, 0, [1, 2])]⟩).trace
        ≤ 1) ∧
    ((wdpRecv linkEnv Globals.init 10 3 (some ⟨9, some [1]⟩) 0
        ⟨[87, 68, 80, 48, 46, 49, 0, 0, 0, 5, 1, 2], []⟩).status = .returned (-103) ∧
      (wdpRecv linkEnv Globals.init 10 3 (some ⟨9, some [1]⟩) 0
        ⟨[87, 68, 80, 48, 46, 49, 0, 0, 0, 5, 1, 2], []⟩).dst = some emptyMessage ∧
      releases (wdpRecv linkEnv Globals.init 10 3 (some ⟨9, some [1]⟩) 0
        ⟨[87, 68, 80, 48, 46, 49, 0, 0, 0, 5, 1, 2], []⟩).trace
        = allocations (wdpRecv linkEnv Globals.init 10 3 (some ⟨9, some [1]⟩) 0
        ⟨[87, 68, 80, 48, 46, 49, 0, 0, 0, 5, 1, 2], []⟩).trace ∧
      allocations (wdpRecv linkEnv Globals.init 10 3 (some ⟨9, some [1]⟩) 0
        ⟨[87, 68, 80, 48, 46, 49, 0, 0, 0, 5, 1, 2], []⟩).trace ≤ 1) ∧
    allocations (wdpRecv linkEnv Globals.init 10 3 (some ⟨9, some [1]⟩) 0
        ⟨[87, 68, 80, 48, 46, 49, 0, 0, 0, 5, 1, 2], []⟩).trace = 1 :=
  ⟨(wdpRecv_no_partial_message scriptEnv Globals.init 10 3 ⟨9, some [1]⟩ 250
      ⟨[], [], [1, 1, 0], [(10, 0, [87, 68, 80, 48, 46, 49, 0, 0, 0, 5]), (2, 0, [1, 2])]⟩
      (by decide)).1 (some (0, 250000)) (by decide),
   (wdpRecv_no_partial_message linkEnv Globals.init 10 3 ⟨9, some [1]⟩ 0
      ⟨[87, 68, 80, 48, 46, 49, 0, 0, 0, 5, 1, 2], []⟩ (by decide)).2 3 0 [] (by decide),
   by decide⟩

/-! ## The frame codec -/

theorem ntohl_htonl (x : Nat) (hx : x < 4294967296) : ntohl (htonl x) = x := by
  simp only [htonl, ntohl, Fin.ofNat, Fin.val_mk]
  omega

theorem htonl_length (x : Nat) : (htonl x).length = 4 := rfl

/-- A copy that overwrites the middle part of an object. -/
theorem memcpy_mid (pre mid post src : List Byte) (n : Nat) (hmid : mid.length = n)
    (hsrc : n ≤ src.length) :
    memcpy (pre ++ mid ++ post) pre.length src n = some (pre ++ src.take n ++ post) := by
  unfold memcpy
  have hle : pre.length + n ≤ (pre ++ mid ++ post).length := by
    simp only [List.length_append]; omega
  rw [if_pos ⟨hle, hsrc⟩]
  have h1 : List.take pre.length (pre ++ mid ++ post) = pre := by
    rw [List.append_assoc, List.take_left]
  have h2 : List.drop (pre.length + n) (pre ++ mid ++ post) = post := by
    have : pre.length + n = (pre ++ mid).length := by simp [hmid]
    rw [this, List.drop_left]
  rw [h1, h2]

theorem versionTag_length : versionTag.length = 6 := by decide

/-- With room for header and payload, the three copies of `wdpSend` build the
frame: version tag, big-endian length, payload. -/
theorem fillSendBuffer_eq (d : List Byte) (L : Nat) (hL : L ≤ d.length) :
    fillSendBuffer (WDP_HEADER_SIZE + L) ⟨L, some d⟩
      = some (versionTag ++ htonl L ++ d.take L) := by
  unfold fillSendBuffer
  have hrep : List.replicate (WDP_HEADER_SIZE + L) (0 : Byte)
      = ([] ++ List.replicate 6 0) ++ (List.replicate 4 0 ++ List.replicate L 0) := by
    rw [List.nil_append, ← List.replicate_add, ← List.replicate_add]
    congr 1
    simp only [WDP_HEADER_SIZE, WDP_VERSION_LEN]; omega
  have c1 : memcpy (List.replicate (WDP_HEADER_SIZE + L) 0) 0 WDP_VERSION_STRING WDP_VERSION_LEN
      = some (versionTag ++ (List.replicate 4 0 ++ List.replicate L 0)) := by
    rw [hrep]
    have := memcpy_mid [] (List.replicate 6 0) (List.replicate 4 0 ++ List.replicate L 0)
      WDP_VERSION_STRING WDP_VERSION_LEN (by simp [WDP_VERSION_LEN]) (by decide)
    rw [versionTag_eq]
    simpa using this
  have c2 : memcpy (versionTag ++ (List.replicate 4 0 ++ List.replicate L 0)) WDP_VERSION_LEN
      (htonl L) 4 = some (versionTag ++ htonl L ++ List.replicate L 0) := by
    have := memcpy_mid versionTag (List.replicate 4 0) (List.replicate L 0) (htonl L) 4
      (by simp) (by simp [htonl_length])
    rw [versionTag_length, List.take_of_length_le (by simp [htonl_length])] at this
    rw [← List.append_assoc]
    exact this
  have c3 : memcpy (versionTag ++ htonl L ++ List.replicate L 0) (WDP_VERSION_LEN + 4) d L
      = some (versionTag ++ htonl L ++ d.take L) := by
    have := memcpy_mid (versionTag ++ htonl L) (List.replicate L 0) [] d L (by simp) hL
    simp only [List.append_nil, List.length_append, versionTag_length, htonl_length] at this
    exact this
  rw [c1]
  simp only [Option.bind_eq_bind, Option.some_bind, c2]
  by_cases h0 : L > 0
  · simp only [if_pos h0, c3]
  · have hz : L = 0 := by omega
    subst hz
    simp

theorem fillSendBuffer_empty :
    fillSendBuffer (WDP_HEADER_SIZE + 0) ⟨0, none⟩ = some (versionTag ++ htonl 0) := by decide

/-! ## The send loop on a stream that accepts every write -/

theorem toU32_add (a k : Nat) (h : a + k < 4294967296) : toU32 ((a : Int) + (k : Int)) = a + k := by
  unfold toU32; omega

theorem toInt32_of_lt (n : Nat) (h : n < 2147483648) : toInt32 n = (n : Int) := by
  unfold toInt32; split <;> omega

theorem toInt32_of_ge (n : Nat) (h1 : 2147483648 ≤ n) (h2 : n < 4294967296) :
    toInt32 n = (n : Int) - 4294967296 := by
  unfold toInt32; split <;> omega

theorem wdpSendLoop_accepts {σ : Type} (E : Env σ) (hE : AcceptsWrites E) (buf : List Byte)
    (totalLen : Nat) (hlen : buf.length = totalLen) (h32 : totalLen < 4294967296) :
    ∀ (fuel totalSent : Nat) (s : σ), totalSent ≤ totalLen → totalLen - totalSent ≤ fuel →
      (wdpSendLoop E buf totalLen fuel totalSent s).status = .returned (toInt32 totalLen) ∧
      sentBytes (wdpSendLoop E buf totalLen fuel totalSent s).trace = buf.drop totalSent ∧
      sendCalls (wdpSendLoop E buf totalLen fuel totalSent s).trace ≤ totalLen - totalSent ∧
      allocations (wdpSendLoop E buf totalLen fuel totalSent s).trace = 0 ∧
      releases (wdpSendLoop E buf totalLen fuel totalSent s).trace = 1 := by
  intro fuel
  induction fuel with
  | zero =>
    intro totalSent s h1 h2
    have he : totalSent = totalLen := by omega
    subst he
    unfold wdpSendLoop
    simp [sentBytes, sendCalls, allocations, releases, ← hlen]
  | succ fuel ih =>
    intro totalSent s h1 h2
    unfold wdpSendLoop
    by_cases hlt : totalSent < totalLen
    · simp only [if_pos hlt]
      have hoff : List.take (totalLen - totalSent) (List.drop totalSent buf)
          = List.drop totalSent buf := by
        apply List.take_of_length_le
        simp only [List.length_drop]; omega
      rw [hoff]
      have hne : List.drop totalSent buf ≠ [] := by
        intro h
        have := congrArg List.length h
        simp only [List.length_drop, List.length_nil] at this
        omega
      obtain ⟨s1, s2⟩ := hE.send_ok s (List.drop totalSent buf) hne
      simp only [List.length_drop, hlen] at s2
      generalize E.send s (List.drop totalSent buf) = reply at s1 s2
      obtain ⟨k, hk⟩ := Int.eq_ofNat_of_zero_le (by omega : 0 ≤ reply.1.1)
      have hk1 : 1 ≤ k := by omega
      have hk2 : k ≤ totalLen - totalSent := by omega
      have e1 : ¬ reply.1.1 = WDP_SOCKET_ERROR := by
        simp only [WDP_SOCKET_ERROR]; omega
      have e2 : ¬ reply.1.1 = 0 := by omega
      simp only [if_neg e1, if_neg e2, SendOutcome.after]
      rw [hk, toU32_add totalSent k (by omega)]
      obtain ⟨i1, i2, i3, i4, i5⟩ := ih (totalSent + k) reply.2 (by omega) (by omega)
      refine ⟨i1, ?_, ?_, ?_, ?_⟩
      · have hpos : (0 : Int) < (k : Int) := by omega
        show sentBytes (Event.send (List.drop totalSent buf) (↑k) reply.1.2 ::
          (wdpSendLoop E buf totalLen fuel (totalSent + k) reply.2).trace) = _
        rw [sentBytes, i2, if_pos hpos, Int.toNat_ofNat, ← List.drop_drop, List.take_append_drop]
      · have : sendCalls ([Event.send (List.drop totalSent buf) (↑k) reply.1.2] ++
            (wdpSendLoop E buf totalLen fuel (totalSent + k) reply.2).trace)
            = 1 + sendCalls (wdpSendLoop E buf totalLen fuel (totalSent + k) reply.2).trace := by
          simp [sendCalls, List.filter_cons, Nat.add_comm]
        rw [this]; omega
      · have : allocations ([Event.send (List.drop totalSent buf) (↑k) reply.1.2] ++
            (wdpSendLoop E buf totalLen fuel (totalSent + k) reply.2).trace)
            = allocations (wdpSendLoop E buf totalLen fuel (totalSent + k) reply.2).trace := by
          simp [allocations, List.filter_cons]
        rw [this]; exact i4
      · have : releases ([Event.send (List.drop totalSent buf) (↑k) reply.1.2] ++
            (wdpSendLoop E buf totalLen fuel (totalSent + k) reply.2).trace)
            = releases (wdpSendLoop E buf totalLen fuel (totalSent + k) reply.2).trace := by
          simp [releases, List.filter_cons]
        rw [this]; exact i5
    · have he : totalSent = totalLen := by omega
      subst he
      simp [sentBytes, sendCalls, allocations, releases, ← hlen]

/-- Where `10 + dataLen` does not wrap, `wdpSend` on a stream that accepts
every write puts the frame on the wire, in at most `10 + dataLen` write calls,
releases its buffer once and returns `10 + dataLen` converted to `int`. -/
theorem wdpSend_accepts {σ : Type} (E : Env σ) (hE : AcceptsWrites E) (g : Globals)
    (fuel : Nat) (socket : Int) (d : List Byte) (L : Nat) (s : σ)
    (hs : socket ≠ E.platform.WDP_INVALID_SOCKET) (hL : L ≤ d.length)
    (hmax : L ≤ g.WDP_MAX_DATA_SIZE) (h32 : WDP_HEADER_SIZE + L < 4294967296)
    (hfuel : WDP_HEADER_SIZE + L ≤ fuel) :
    (wdpSend E g fuel socket (wdpPack (some d) L) s).status
      = .returned (toInt32 (WDP_HEADER_SIZE + L)) ∧
    sentBytes (wdpSend E g fuel socket (wdpPack (some d) L) s).trace
      = versionTag ++ htonl L ++ d.take L ∧
    sendCalls (wdpSend E g fuel socket (wdpPack (some d) L) s).trace ≤ WDP_HEADER_SIZE + L ∧
    allocations (wdpSend E g fuel socket (wdpPack (some d) L) s).trace = 1 ∧
    releases (wdpSend E g fuel socket (wdpPack (some d) L) s).trace = 1 := by
  unfold wdpSend
  have hmod : (WDP_HEADER_SIZE + L) % 4294967296 = WDP_HEADER_SIZE + L := Nat.mod_eq_of_lt h32
  have c2 : ¬ ((wdpPack (some d) L).data = none ∧ (wdpPack (some d) L).dataLen > 0) := by
    simp [wdpPack]
  have c3 : ¬ (wdpPack (some d) L).dataLen > g.WDP_MAX_DATA_SIZE := by
    simp only [wdpPack]; omega
  have c4 : ¬ (E.malloc s (WDP_HEADER_SIZE + L)).1 = false := by
    rw [hE.malloc_ok]; decide
  simp only [if_neg hs, if_neg c2, if_neg c3]
  simp only [wdpPack, hmod, if_neg c4, fillSendBuffer_eq d L hL]
  have hbl : (versionTag ++ htonl L ++ d.take L).length = WDP_HEADER_SIZE + L := by
    simp only [List.length_append, versionTag_length, htonl_length, List.length_take,
      WDP_HEADER_SIZE, WDP_VERSION_LEN]
    omega
  obtain ⟨i1, i2, i3, i4, i5⟩ := wdpSendLoop_accepts E hE (versionTag ++ htonl L ++ d.take L)
    (WDP_HEADER_SIZE + L) hbl h32 fuel 0 (E.malloc s (WDP_HEADER_SIZE + L)).2 (Nat.zero_le _)
    (by omega)
  simp only [SendOutcome.after]
  refine ⟨i1, ?_, ?_, ?_, ?_⟩
  · exact i2
  · have : ∀ tr, sendCalls ([Event.malloc (WDP_HEADER_SIZE + L) true] ++ tr) = sendCalls tr := by
      intro tr; simp [sendCalls, List.filter_cons]
    rw [this]; omega
  · have : ∀ tr, allocations ([Event.malloc (WDP_HEADER_SIZE + L) true] ++ tr)
        = 1 + allocations tr := by
      intro tr; simp [allocations, List.filter_cons, Nat.add_comm]
    rw [this, i4]
  · have : ∀ tr, releases ([Event.malloc (WDP_HEADER_SIZE + L) true] ++ tr) = releases tr := by
      intro tr; simp [releases, List.filter_cons]
    rw [this, i5]

/-! ## The exact-read loop on a stream that delivers its bytes -/

theorem recvBytes_select (t : Option (Nat × Nat)) (v : Int) (tr : List Event) :
    recvBytes (.select t v :: tr) = recvBytes tr := rfl

theorem recvBytes_recv (q : Nat) (v e : Int) (bs : List Byte) (tr : List Event) :
    recvBytes (.recv q v e bs :: tr) = (if 0 < v then bs else []) ++ recvBytes tr := rfl

/-- Storing received bytes inside the buffer keeps its size and extends the
filled prefix. -/
theorem memcpy_store (buf bytes : List Byte) (off : Nat) (h : off + bytes.length ≤ buf.length) :
    ∃ buf1, memcpy buf off bytes bytes.length = some buf1 ∧ buf1.length = buf.length ∧
      buf1.take (off + bytes.length) = buf.take off ++ bytes := by
  refine ⟨buf.take off ++ bytes.take bytes.length ++ buf.drop (off + bytes.length), ?_, ?_, ?_⟩
  · unfold memcpy
    rw [if_pos ⟨h, le_refl _⟩]
  · simp only [List.length_append, List.length_take, List.length_drop, List.take_length]
    omega
  · rw [List.take_length]
    have hl : (buf.take off ++ bytes).length = off + bytes.length := by
      simp only [List.length_append, List.length_take]; omega
    rw [← hl, List.take_left]

theorem wdpRecvExactLoop_feeds {σ : Type} (E : Env σ) (holds : σ → List Byte → Prop)
    (hE : Feeds E holds) (length timeoutMs : Nat) (h32 : length < 4294967296) :
    ∀ (fuel totalRecv : Nat) (buf : List Byte) (s : σ) (q : List Byte),
      holds s q → totalRecv ≤ length → buf.length = length →
      length - totalRecv ≤ q.length → length - totalRecv ≤ fuel →
      (wdpRecvExactLoop E length timeoutMs fuel totalRecv buf s).status
        = .returned (toInt32 length) ∧
      (wdpRecvExactLoop E length timeoutMs fuel totalRecv buf s).buffer
        = some (buf.take totalRecv ++ q.take (length - totalRecv)) ∧
      holds (wdpRecvExactLoop E length timeoutMs fuel totalRecv buf s).state
        (q.drop (length - totalRecv)) ∧
      recvBytes (wdpRecvExactLoop E length timeoutMs fuel totalRecv buf s).trace
        = q.take (length - totalRecv) := by
  intro fuel
  induction fuel with
  | zero =>
    intro totalRecv buf s q hq h1 hb h2 h3
    have he : totalRecv = length := by omega
    subst he
    unfold wdpRecvExactLoop
    simp [recvBytes, ← hb, hq]
  | succ fuel ih =>
    intro totalRecv buf s q hq h1 hb h2 h3
    unfold wdpRecvExactLoop
    by_cases hlt : totalRecv < length
    · simp only [if_pos hlt]
      obtain ⟨w1, w2, w3⟩ := hE.select_ready s q (timeoutPtr timeoutMs) hq
      generalize E.select s (timeoutPtr timeoutMs) = w at w1 w2 w3
      have hqne : q ≠ [] := by
        intro h; rw [h] at h2; simp only [List.length_nil] at h2; omega
      obtain ⟨n, n1, n2, n3, n4, n5, n6⟩ := hE.recv_chunk w.2 q (length - totalRecv) w3
        (by omega) hqne
      generalize E.recv w.2 (length - totalRecv) = reply at n4 n5 n6
      have e1 : ¬ w.1 = WDP_SOCKET_ERROR := w1
      have e3 : ¬ reply.1.1 = WDP_SOCKET_ERROR := by
        simp only [WDP_SOCKET_ERROR]; omega
      have e4 : ¬ reply.1.1 = 0 := by omega
      simp only [if_neg e1, if_neg w2, if_neg e3, if_neg e4]
      have hbl : reply.1.2.2.length = n := by
        rw [n5, List.length_take]; omega
      obtain ⟨buf1, m1, m2, m3⟩ := memcpy_store buf reply.1.2.2 totalRecv (by omega)
      rw [m1]
      simp only [ExactOutcome.after]
      rw [n4, toU32_add totalRecv n (by omega)]
      obtain ⟨i1, i2, i3, i4⟩ := ih (totalRecv + n) buf1 reply.2 (q.drop n) n6 (by omega)
        (by omega) (by simp only [List.length_drop]; omega) (by omega)
      have hsub : length - (totalRecv + n) = (length - totalRecv) - n := by omega
      have hsplit : q.take (length - totalRecv)
          = q.take n ++ (q.drop n).take ((length - totalRecv) - n) := by
        have : length - totalRecv = n + ((length - totalRecv) - n) := by omega
        conv_lhs => rw [this]
        exact List.take_add q n _
      refine ⟨i1, ?_, ?_, ?_⟩
      · rw [i2, hsub, hsplit, ← hbl, m3, n5, List.append_assoc]
        simp only [List.length_take]
        rw [Nat.min_eq_left n3]
      · rw [hsub, List.drop_drop] at i3
        have : n + (length - totalRecv - n) = length - totalRecv := by omega
        rw [this] at i3
        exact i3
      · simp only [List.cons_append, List.nil_append]
        have hpos : (0 : Int) < (n : Int) := by omega
        rw [recvBytes_select, recvBytes_recv, if_pos hpos, i4, hsub, hsplit, n5]
    · have he : totalRecv = length := by omega
      subst he
      simp [recvBytes, ← hb, hq]

theorem wdpRecvPayload_feeds {σ : Type} (E : Env σ) (holds : σ → List Byte → Prop)
    (hE : Feeds E holds) (fuel timeoutMs : Nat) (s : σ) (d rest : List Byte)
    (hq : holds s (d ++ rest)) (h0 : d.length ≠ 0) (h32 : d.length < 4294967296)
    (hfuel : d.length ≤ fuel) :
    (wdpRecvPayload E fuel d.length timeoutMs s).status = .returned (toInt32 d.length) ∧
    (wdpRecvPayload E fuel d.length timeoutMs s).dst = some (received d) ∧
    holds (wdpRecvPayload E fuel d.length timeoutMs s).state rest ∧
    recvBytes (wdpRecvPayload E fuel d.length timeoutMs s).trace = d := by
  unfold wdpRecvPayload
  obtain ⟨m1, m2⟩ := hE.malloc_ok s (d ++ rest) d.length hq
  have c1 : ¬ (E.malloc s d.length).1 = false := by rw [m1]; decide
  simp only [if_neg c1]
  obtain ⟨i1, i2, i3, i4⟩ := wdpRecvExactLoop_feeds E holds hE d.length timeoutMs h32 fuel 0
    (List.replicate d.length 0) (E.malloc s d.length).2 (d ++ rest) m2 (Nat.zero_le _)
    (by simp) (by simp) (by simpa using hfuel)
  simp only [Nat.sub_zero, List.take_zero, List.nil_append, List.take_left, List.drop_left]
    at i2 i3 i4
  have hx : wdpRecvExact E fuel (some (List.replicate d.length 0)) d.length timeoutMs
      (E.malloc s d.length).2 = wdpRecvExactLoop E d.length timeoutMs fuel 0
        (List.replicate d.length 0) (E.malloc s d.length).2 := rfl
  rw [hx]
  generalize wdpRecvExactLoop E d.length timeoutMs fuel 0 (List.replicate d.length 0)
    (E.malloc s d.length).2 = r at i1 i2 i3 i4
  simp only [i1]
  by_cases hbig : d.length < 2147483648
  · have hv : toInt32 d.length = (d.length : Int) := toInt32_of_lt _ hbig
    have n1 : ¬ toInt32 d.length < 0 := by rw [hv]; omega
    have n2 : ¬ toInt32 d.length < toInt32 d.length := lt_irrefl _
    simp only [if_neg n1, if_neg n2, received, if_pos hbig, if_neg h0, i2]
    refine ⟨trivial, trivial, i3, ?_⟩
    show recvBytes r.trace = d
    exact i4
  · have hv : toInt32 d.length = (d.length : Int) - 4294967296 :=
      toInt32_of_ge _ (by omega) h32
    have n1 : toInt32 d.length < 0 := by rw [hv]; omega
    simp only [if_pos n1, received, if_neg hbig]
    refine ⟨trivial, trivial, i3, ?_⟩
    show recvBytes (Event.malloc d.length true :: (r.trace ++ [Event.free])) = d
    have : ∀ tr : List Event, recvBytes (tr ++ [Event.free]) = recvBytes tr := by
      intro tr
      induction tr with
      | nil => rfl
      | cons e tr ih => cases e <;> simp [recvBytes, ih]
    show recvBytes (r.trace ++ [Event.free]) = d
    rw [this, i4]

theorem frame_length (d : List Byte) : (frame d).length = WDP_HEADER_SIZE + d.length := by
  simp only [frame, List.length_append, versionTag_length, htonl_length, WDP_HEADER_SIZE,
    WDP_VERSION_LEN]

/-- Receiving with `wdpRecv` from a stream that delivers the frame of `d` and then `rest`: it
reads exactly the frame, returns `d.length` converted to `int`, and leaves
`received d` in the destination. -/
theorem wdpRecv_feeds {σ : Type} (E : Env σ) (holds : σ → List Byte → Prop)
    (hE : Feeds E holds) (g : Globals) (fuel : Nat) (socket : Int) (dst0 : WDP)
    (timeoutMs : Nat) (s : σ) (d rest : List Byte)
    (hs : socket ≠ E.platform.WDP_INVALID_SOCKET) (hq : holds s (frame d ++ rest))
    (hmax : d.length ≤ g.WDP_MAX_DATA_SIZE) (h32 : d.length < 4294967296)
    (hf1 : WDP_HEADER_SIZE ≤ fuel) (hf2 : d.length ≤ fuel) :
    (wdpRecv E g fuel socket (some dst0) timeoutMs s).status = .returned (toInt32 d.length) ∧
    (wdpRecv E g fuel socket (some dst0) timeoutMs s).dst = some (received d) ∧
    holds (wdpRecv E g fuel socket (some dst0) timeoutMs s).state rest ∧
    recvBytes (wdpRecv E g fuel socket (some dst0) timeoutMs s).trace = frame d := by
  have hq2 : holds s ((versionTag ++ htonl d.length) ++ (d ++ rest)) := by
    simpa [frame, List.append_assoc] using hq
  have hl10 : (versionTag ++ htonl d.length).length = WDP_HEADER_SIZE := by
    simp [versionTag_length, htonl_length, WDP_HEADER_SIZE, WDP_VERSION_LEN]
  have hT : List.take WDP_HEADER_SIZE (versionTag ++ htonl d.length ++ (d ++ rest))
      = versionTag ++ htonl d.length := by
    rw [← hl10, List.take_left]
  have hD : List.drop WDP_HEADER_SIZE (versionTag ++ htonl d.length ++ (d ++ rest))
      = d ++ rest := by
    rw [← hl10, List.drop_left]
  obtain ⟨i1, i2, i3, i4⟩ := wdpRecvExactLoop_feeds E holds hE WDP_HEADER_SIZE timeoutMs
    (by decide) fuel 0 (List.replicate WDP_HEADER_SIZE 0) s _ hq2 (Nat.zero_le _) (by simp)
    (by rw [List.length_append, hl10]; omega) (by simpa using hf1)
  rw [Nat.sub_zero, hT] at i2 i4
  rw [Nat.sub_zero, hD] at i3
  simp only [List.take_zero, List.nil_append] at i2
  have hx : headerStage E fuel timeoutMs s = wdpRecvExactLoop E WDP_HEADER_SIZE timeoutMs fuel 0
      (List.replicate WDP_HEADER_SIZE 0) s := rfl
  rw [← hx] at i1 i2 i3 i4
  have hst : (headerStage E fuel timeoutMs s).status = .returned (WDP_HEADER_SIZE : Int) := by
    rw [i1]; rfl
  rw [wdpRecv_after_header E g fuel socket dst0 timeoutMs s _ hs hst (le_refl _), i2]
  generalize (headerStage E fuel timeoutMs s).state = s1 at i3
  generalize (headerStage E fuel timeoutMs s).trace = tr1 at i4
  have hrb : ∀ a b : List Event, recvBytes (a ++ b) = recvBytes a ++ recvBytes b := by
    intro a b
    induction a with
    | nil => rfl
    | cons e a ih => cases e <;> simp [recvBytes, ih]
  unfold wdpRecvBody
  have h1 : ¬ wdpStartsWith (some (versionTag ++ htonl d.length)) (some WDP_VERSION_STRING)
      WDP_VERSION_LEN = 0 := by
    rw [wdpStartsWith_version_zero, ← versionTag_length, List.take_left]
    exact not_not.2 rfl
  have hlen : ntohl (List.take 4 (List.drop WDP_VERSION_LEN
      ((some (versionTag ++ htonl d.length)).getD []))) = d.length := by
    show ntohl (List.take 4 (List.drop 6 (versionTag ++ htonl d.length))) = d.length
    rw [← versionTag_length, List.drop_left, List.take_of_length_le (by simp [htonl_length])]
    exact ntohl_htonl _ h32
  have h2 : ¬ d.length > g.WDP_MAX_DATA_SIZE := by omega
  simp only [if_neg h1, hlen, if_neg h2]
  by_cases h0 : d.length = 0
  · have hd : d = [] := List.length_eq_zero.1 h0
    subst hd
    simp only [if_pos h0, List.length_nil, List.append_nil]
    refine ⟨rfl, rfl, ?_, ?_⟩
    · simpa using i3
    · simpa [frame] using i4
  · simp only [if_neg h0]
    obtain ⟨p1, p2, p3, p4⟩ := wdpRecvPayload_feeds E holds hE fuel timeoutMs s1 d rest i3 h0
      h32 hf2
    refine ⟨p1, p2, p3, ?_⟩
    show recvBytes (tr1 ++ _) = _
    rw [hrb, i4, p4, frame]

/-! ## The exact-read loop under the contract of the read call -/

theorem selectCalls_cons_select (t : Option (Nat × Nat)) (v : Int) (tr : List Event) :
    selectCalls (.select t v :: tr) = selectCalls tr + 1 := by
  simp [selectCalls, List.filter_cons]

theorem selectCalls_cons_recv (q : Nat) (v e : Int) (bs : List Byte) (tr : List Event) :
    selectCalls (.recv q v e bs :: tr) = selectCalls tr := by
  simp [selectCalls, List.filter_cons]

theorem recvCalls_cons_select (t : Option (Nat × Nat)) (v : Int) (tr : List Event) :
    recvCalls (.select t v :: tr) = recvCalls tr := by
  simp [recvCalls, List.filter_cons]

theorem recvCalls_cons_recv (q : Nat) (v e : Int) (bs : List Byte) (tr : List Event) :
    recvCalls (.recv q v e bs :: tr) = recvCalls tr + 1 := by
  simp [recvCalls, List.filter_cons]

/-- Under the contract of the read call, with fuel for the bytes still missing,
the loop of `wdpRecvExact` ends in one of two ways: it returns `length`
converted to `int` with the buffer filled by the bytes read, in order, or it
returns one of its five error codes; it issues at most one wait and one read
per missing byte. -/
theorem wdpRecvExactLoop_contract {σ : Type} (E : Env σ) (hE : RecvContract E)
    (length timeoutMs : Nat) (h32 : length < 4294967296) :
    ∀ (fuel totalRecv : Nat) (buf : List Byte) (s : σ),
      totalRecv ≤ length → buf.length = length → length - totalRecv ≤ fuel →
      (((wdpRecvExactLoop E length timeoutMs fuel totalRecv buf s).status
          = .returned (toInt32 length) ∧
        (wdpRecvExactLoop E length timeoutMs fuel totalRecv buf s).buffer
          = some (buf.take totalRecv ++
              recvBytes (wdpRecvExactLoop E length timeoutMs fuel totalRecv buf s).trace) ∧
        (recvBytes (wdpRecvExactLoop E length timeoutMs fuel totalRecv buf s).trace).length
          = length - totalRecv) ∨
       (∃ e ∈ exactReadErrors,
        (wdpRecvExactLoop E length timeoutMs fuel totalRecv buf s).status = .returned e)) ∧
      selectCalls (wdpRecvExactLoop E length timeoutMs fuel totalRecv buf s).trace
        ≤ length - totalRecv ∧
      recvCalls (wdpRecvExactLoop E length timeoutMs fuel totalRecv buf s).trace
        ≤ length - totalRecv := by
  intro fuel
  induction fuel with
  | zero =>
    intro totalRecv buf s h1 hb h3
    have he : totalRecv = length := by omega
    subst he
    unfold wdpRecvExactLoop
    simp [recvBytes, selectCalls, recvCalls, ← hb]
  | succ fuel ih =>
    intro totalRecv buf s h1 hb h3
    unfold wdpRecvExactLoop
    by_cases hlt : totalRecv < length
    · simp only [if_pos hlt]
      generalize E.select s (timeoutPtr timeoutMs) = w
      by_cases e1 : w.1 = WDP_SOCKET_ERROR
      · simp only [if_pos e1]
        refine ⟨Or.inr ⟨_, by simp [exactReadErrors], rfl⟩, ?_, ?_⟩
        · rw [selectCalls_cons_select]; simp only [selectCalls, List.filter_nil, List.length_nil]
          omega
        · rw [recvCalls_cons_select]; simp [recvCalls]
      · simp only [if_neg e1]
        by_cases e2 : w.1 = 0
        · simp only [if_pos e2]
          refine ⟨Or.inr ⟨_, by simp [exactReadErrors], rfl⟩, ?_, ?_⟩
          · rw [selectCalls_cons_select]
            simp only [selectCalls, List.filter_nil, List.length_nil]
            omega
          · rw [recvCalls_cons_select]; simp [recvCalls]
        · simp only [if_neg e2]
          have hc := hE w.2 (length - totalRecv)
          generalize E.recv w.2 (length - totalRecv) = reply at hc
          have hcnt1 : selectCalls [Event.select (timeoutPtr timeoutMs) w.1,
              Event.recv (length - totalRecv) reply.1.1 reply.1.2.1 reply.1.2.2]
              ≤ length - totalRecv := by
            rw [selectCalls_cons_select, selectCalls_cons_recv]
            simp only [selectCalls, List.filter_nil, List.length_nil]
            omega
          have hcnt2 : recvCalls [Event.select (timeoutPtr timeoutMs) w.1,
              Event.recv (length - totalRecv) reply.1.1 reply.1.2.1 reply.1.2.2]
              ≤ length - totalRecv := by
            rw [recvCalls_cons_select, recvCalls_cons_recv]
            simp only [recvCalls, List.filter_nil, List.length_nil]
            omega
          by_cases e3 : reply.1.1 = WDP_SOCKET_ERROR
          · simp only [if_pos e3]
            by_cases e5 : isConnectionError E.platform reply.1.2.1 = true
            · simp only [e5, if_true]
              exact ⟨Or.inr ⟨_, by simp [exactReadErrors], rfl⟩, hcnt1, hcnt2⟩
            · simp only [e5]
              exact ⟨Or.inr ⟨_, by simp [exactReadErrors], rfl⟩, hcnt1, hcnt2⟩
          · simp only [if_neg e3]
            by_cases e4 : reply.1.1 = 0
            · simp only [if_pos e4]
              exact ⟨Or.inr ⟨_, by simp [exactReadErrors], rfl⟩, hcnt1, hcnt2⟩
            · simp only [if_neg e4]
              have hc3 : 1 ≤ reply.1.1 ∧ reply.1.1 ≤ ((length - totalRecv : Nat) : Int) ∧
                  (reply.1.2.2.length : Int) = reply.1.1 := by
                rcases hc with hc | hc | hc
                · exact absurd hc e3
                · exact absurd hc e4
                · exact hc
              obtain ⟨c1, c2, c3⟩ := hc3
              obtain ⟨buf1, m1, m2, m3⟩ := memcpy_store buf reply.1.2.2 totalRecv (by omega)
              rw [m1]
              simp only [ExactOutcome.after, List.cons_append, List.nil_append]
              have hn : reply.1.1 = ((reply.1.2.2.length : Nat) : Int) := c3.symm
              rw [hn, toU32_add totalRecv reply.1.2.2.length (by omega)]
              obtain ⟨i1, i2, i3⟩ := ih (totalRecv + reply.1.2.2.length) buf1 reply.2 (by omega)
                (by omega) (by omega)
              have hpos : (0 : Int) < ((reply.1.2.2.length : Nat) : Int) := by omega
              refine ⟨?_, ?_, ?_⟩
              · rcases i1 with ⟨j1, j2, j3⟩ | ⟨e, he, j1⟩
                · refine Or.inl ⟨j1, ?_, ?_⟩
                  · rw [j2, m3, recvBytes_select, recvBytes_recv, if_pos hpos, List.append_assoc]
                  · rw [recvBytes_select, recvBytes_recv, if_pos hpos, List.length_append, j3]
                    omega
                · exact Or.inr ⟨e, he, j1⟩
              · rw [selectCalls_cons_select, selectCalls_cons_recv]; omega
              · rw [recvCalls_cons_select, recvCalls_cons_recv]; omega
    · have he : totalRecv = length := by omega
      subst he
      simp [recvBytes, selectCalls, recvCalls, ← hb]

/-! ## The link stream -/

theorem Link.chunk_pos (l : Link) (bound : Nat) (h : 0 < bound) : 0 < l.chunk bound := by
  unfold Link.chunk; omega

theorem Link.chunk_le (l : Link) (bound : Nat) : l.chunk bound ≤ bound := by
  unfold Link.chunk; omega

theorem linkEnv_accepts : AcceptsWrites linkEnv where
  malloc_ok := fun _ _ => rfl
  send_ok := by
    intro s offered hne
    have hpos : 0 < offered.length := List.length_pos.2 hne
    have h1 := Link.chunk_pos s offered.length hpos
    have h2 := Link.chunk_le s offered.length
    show (1 : Int) ≤ ((s.chunk offered.length : Nat) : Int) ∧
      ((s.chunk offered.length : Nat) : Int) ≤ (offered.length : Int)
    omega

theorem linkEnv_feeds : Feeds linkEnv (fun s q => s.queue = q) where
  malloc_ok := fun _ _ _ h => ⟨rfl, h⟩
  select_ready := fun _ _ _ h =>
    ⟨show (1 : Int) ≠ -1 by decide, show (1 : Int) ≠ 0 by decide, h⟩
  recv_chunk := by
    intro s q requested hq hreq hne
    have hpos : 0 < q.length := List.length_pos.2 hne
    have h1 := Link.chunk_pos s requested hreq
    have h2 := Link.chunk_le s requested
    subst hq
    by_cases hc : s.chunk requested ≤ s.queue.length
    · refine ⟨s.chunk requested, h1, h2, hc, ?_, rfl, rfl⟩
      show (((s.queue.take (s.chunk requested)).length : Nat) : Int) = _
      rw [List.length_take, Nat.min_eq_left hc]
    · have hc2 : s.queue.length ≤ s.chunk requested := by omega
      refine ⟨s.queue.length, hpos, by omega, le_refl _, ?_, ?_, ?_⟩
      · show (((s.queue.take (s.chunk requested)).length : Nat) : Int) = _
        rw [List.take_of_length_le hc2]
      · show s.queue.take (s.chunk requested) = _
        rw [List.take_of_length_le hc2, List.take_length]
      · show s.queue.drop (s.chunk requested) = _
        rw [List.drop_of_length_le hc2, List.drop_length]

theorem sentBytes_send (o : List Byte) (v e : Int) (tr : List Event) :
    sentBytes (.send o v e :: tr) = (if 0 < v then o.take v.toNat else []) ++ sentBytes tr := rfl

/-- On the link, the bytes a send loop gets accepted are appended to the queue. -/
theorem wdpSendLoop_link_queue (buf : List Byte) (totalLen : Nat) :
    ∀ (fuel totalSent : Nat) (s : Link),
      (wdpSendLoop linkEnv buf totalLen fuel totalSent s).state.queue
        = s.queue ++ sentBytes (wdpSendLoop linkEnv buf totalLen fuel totalSent s).trace := by
  intro fuel
  induction fuel with
  | zero =>
    intro totalSent s
    unfold wdpSendLoop
    split <;> simp [sentBytes]
  | succ fuel ih =>
    intro totalSent s
    unfold wdpSendLoop
    by_cases hlt : totalSent < totalLen
    · simp only [if_pos hlt]
      generalize List.take (totalLen - totalSent) (List.drop totalSent buf) = offered
      have hr : linkEnv.send s offered = ((((s.chunk offered.length : Nat) : Int), (0 : Int)),
          (⟨s.queue ++ offered.take (s.chunk offered.length), s.picks.tail⟩ : Link)) :=
        rfl
      rw [hr]
      simp only
      have e1 : ¬ ((s.chunk offered.length : Nat) : Int) = WDP_SOCKET_ERROR := by
        simp only [WDP_SOCKET_ERROR]; omega
      rw [if_neg e1]
      by_cases h0 : ((s.chunk offered.length : Nat) : Int) = 0
      · rw [if_pos h0]
        have hz : s.chunk offered.length = 0 := by omega
        simp [sentBytes, hz]
      · rw [if_neg h0]
        simp only [SendOutcome.after, List.cons_append, List.nil_append]
        have hpos : (0 : Int) < ((s.chunk offered.length : Nat) : Int) := by omega
        rw [ih, sentBytes_send, if_pos hpos, Int.toNat_ofNat, List.append_assoc]
    · simp [hlt, sentBytes]

/-- On the link, the bytes `wdpSend` gets accepted are appended to the queue. -/
theorem wdpSend_link_queue (g : Globals) (fuel : Nat) (socket : Int) (m : WDP) (s : Link) :
    (wdpSend linkEnv g fuel socket m s).state.queue
      = s.queue ++ sentBytes (wdpSend linkEnv g fuel socket m s).trace := by
  unfold wdpSend
  by_cases c1 : socket = linkEnv.platform.WDP_INVALID_SOCKET
  · simp [c1, sentBytes]
  · rw [if_neg c1]
    by_cases c2 : m.data = none ∧ m.dataLen > 0
    · simp [c2, sentBytes]
    · rw [if_neg c2]
      by_cases c3 : m.dataLen > g.WDP_MAX_DATA_SIZE
      · simp [c3, sentBytes]
      · rw [if_neg c3]
        have c4 : ¬ (linkEnv.malloc s ((WDP_HEADER_SIZE + m.dataLen) % 4294967296)).1 = false := by
          show ¬ true = false
          decide
        simp only [if_neg c4]
        have hm : (linkEnv.malloc s ((WDP_HEADER_SIZE + m.dataLen) % 4294967296)).2 = s := rfl
        rw [hm]
        cases fillSendBuffer ((WDP_HEADER_SIZE + m.dataLen) % 4294967296) m with
        | none => simp [sentBytes]
        | some b =>
          simp only [SendOutcome.after]
          rw [wdpSendLoop_link_queue]
          rfl

/-- Sending payloads back to back over the link appends their frames to the
queue; each call returns `10 + dataLen` converted to `int`. -/
theorem sendAll_link (g : Globals) (fuel : Nat) (socket : Int)
    (hs : socket ≠ linkEnv.platform.WDP_INVALID_SOCKET) :
    ∀ (ds : List (List Byte)) (s : Link),
      (∀ d ∈ ds, d.length ≤ g.WDP_MAX_DATA_SIZE ∧ WDP_HEADER_SIZE + d.length < 4294967296 ∧
        WDP_HEADER_SIZE + d.length ≤ fuel) →
      (sendAll linkEnv g fuel socket ds s).2.queue = s.queue ++ frames ds ∧
      (sendAll linkEnv g fuel socket ds s).1
        = ds.map fun d => Status.returned (toInt32 (WDP_HEADER_SIZE + d.length)) := by
  intro ds
  induction ds with
  | nil => intro s _; simp [sendAll, frames]
  | cons d ds ih =>
    intro s h
    obtain ⟨h1, h2, h3⟩ := h d (List.mem_cons_self _ _)
    obtain ⟨a1, a2, -⟩ := wdpSend_accepts linkEnv linkEnv_accepts g fuel socket d d.length s hs
      (le_refl _) h1 h2 h3
    have hq := wdpSend_link_queue g fuel socket (wdpPack (some d) d.length) s
    rw [a2, List.take_length] at hq
    obtain ⟨i1, i2⟩ := ih (wdpSend linkEnv g fuel socket (wdpPack (some d) d.length) s).state
      (fun x hx => h x (List.mem_cons_of_mem _ hx))
    simp only [sendAll, List.map_cons]
    refine ⟨?_, ?_⟩
    · rw [i1, hq, frames, frame, List.append_assoc]
    · rw [i2, a1]

/-- Calling `wdpRecv` once per frame on a stream that delivers the frames of
the payloads `ds` back to back: each call reads exactly one frame. -/
theorem recvAll_feeds {σ : Type} (E : Env σ) (holds : σ → List Byte → Prop)
    (hE : Feeds E holds) (g : Globals) (fuel : Nat) (socket : Int) (timeoutMs : Nat)
    (hs : socket ≠ E.platform.WDP_INVALID_SOCKET) (hf : WDP_HEADER_SIZE ≤ fuel) :
    ∀ (ds : List (List Byte)) (s : σ) (rest : List Byte),
      holds s (frames ds ++ rest) →
      (∀ d ∈ ds, d.length ≤ g.WDP_MAX_DATA_SIZE ∧ d.length < 4294967296 ∧ d.length ≤ fuel) →
      (recvAll E g fuel socket timeoutMs ds.length s).1
        = (ds.map fun d => (Status.returned (toInt32 d.length), some (received d))) ∧
      holds (recvAll E g fuel socket timeoutMs ds.length s).2 rest := by
  intro ds
  induction ds with
  | nil => intro s rest hq _; simpa [recvAll, frames] using hq
  | cons d ds ih =>
    intro s rest hq h
    obtain ⟨h1, h2, h3⟩ := h d (List.mem_cons_self _ _)
    rw [frames, List.append_assoc] at hq
    obtain ⟨r1, r2, r3, -⟩ := wdpRecv_feeds E holds hE g fuel socket emptyMessage timeoutMs s d
      (frames ds ++ rest) hs hq h1 h2 hf h3
    obtain ⟨i1, i2⟩ := ih (wdpRecv E g fuel socket (some emptyMessage) timeoutMs s).state rest r3
      (fun x hx => h x (List.mem_cons_of_mem _ hx))
    simp only [List.length_cons, recvAll, List.map_cons]
    exact ⟨by rw [i1, r1, r2], i2⟩

/-- Sending a payload over the link and receiving from it: the receive reads
exactly the frame, returns the payload length converted to `int` and leaves
`received d` in the destination. -/
theorem link_round_trip (g : Globals) (fuel : Nat) (socket : Int) (timeoutMs : Nat) (dst0 : WDP)
    (d : List Byte) (picks : List Nat)
    (hs : socket ≠ linkEnv.platform.WDP_INVALID_SOCKET)
    (hmax : d.length ≤ g.WDP_MAX_DATA_SIZE) (h32 : WDP_HEADER_SIZE + d.length < 4294967296)
    (hfuel : WDP_HEADER_SIZE + d.length ≤ fuel) :
    (wdpRecv linkEnv g fuel socket (some dst0) timeoutMs
      (wdpSend linkEnv g fuel socket (wdpPack (some d) d.length) ⟨[], picks⟩).state).status
      = .returned (toInt32 d.length) ∧
    (wdpRecv linkEnv g fuel socket (some dst0) timeoutMs
      (wdpSend linkEnv g fuel socket (wdpPack (some d) d.length) ⟨[], picks⟩).state).dst
      = some (received d) ∧
    (wdpRecv linkEnv g fuel socket (some dst0) timeoutMs
      (wdpSend linkEnv g fuel socket (wdpPack (some d) d.length) ⟨[], picks⟩).state).state.queue
      = [] := by
  obtain ⟨-, a2, -⟩ := wdpSend_accepts linkEnv linkEnv_accepts g fuel socket d d.length
    ⟨[], picks⟩ hs (le_refl _) hmax h32 hfuel
  have hq := wdpSend_link_queue g fuel socket (wdpPack (some d) d.length) ⟨[], picks⟩
  rw [a2, List.take_length, List.nil_append] at hq
  have hq2 : (wdpSend linkEnv g fuel socket (wdpPack (some d) d.length) ⟨[], picks⟩).state.queue
      = frame d ++ [] := by rw [hq, List.append_nil, frame]
  obtain ⟨r1, r2, r3, -⟩ := wdpRecv_feeds linkEnv (fun s q => s.queue = q) linkEnv_feeds g fuel
    socket dst0 timeoutMs _ d [] hs hq2 hmax (by omega) (by omega) (by omega)
  exact ⟨r1, r2, r3⟩

/-! ## Within the range of `int` -/

theorem received_of_lt (d : List Byte) (h : d.length < 2147483648) : received d = messageOf d := by
  unfold received messageOf
  rw [if_pos h]

/-- Where `10 + dataLen` fits an `int`, `wdpSend` on a stream that accepts every
write returns `10 + dataLen` and the wire carries `WDP0.1`, the big-endian
length and the payload. -/
theorem wdpSend_within_int_range {σ : Type} (E : Env σ) (hE : AcceptsWrites E) (g : Globals)
    (fuel : Nat) (socket : Int) (d : List Byte) (s : σ)
    (hs : socket ≠ E.platform.WDP_INVALID_SOCKET) (hmax : d.length ≤ g.WDP_MAX_DATA_SIZE)
    (h31 : WDP_HEADER_SIZE + d.length < 2147483648) (hfuel : WDP_HEADER_SIZE + d.length ≤ fuel) :
    (wdpSend E g fuel socket (wdpPack (some d) d.length) s).status
      = .returned ((WDP_HEADER_SIZE + d.length : Nat) : Int) ∧
    sentBytes (wdpSend E g fuel socket (wdpPack (some d) d.length) s).trace = frame d := by
  obtain ⟨h1, h2, -⟩ := wdpSend_accepts E hE g fuel socket d d.length s hs (le_refl _) hmax
    (by omega) hfuel
  rw [toInt32_of_lt _ h31] at h1
  rw [List.take_length] at h2
  exact ⟨h1, h2⟩

/-- Round trip where `10 + L` fits an `int`: receiving, from a stream that
delivers the bytes `wdpSend` wrote in any non-empty chunks, yields the payload
sent. -/
theorem round_trip_within_int_range {σ τ : Type} (E1 : Env σ) (hE1 : AcceptsWrites E1)
    (E2 : Env τ) (holds : τ → List Byte → Prop) (hE2 : Feeds E2 holds) (g : Globals)
    (fuel : Nat) (socket1 socket2 : Int) (timeoutMs : Nat) (dst0 : WDP) (d rest : List Byte)
    (s1 : σ) (s2 : τ)
    (hs1 : socket1 ≠ E1.platform.WDP_INVALID_SOCKET)
    (hs2 : socket2 ≠ E2.platform.WDP_INVALID_SOCKET)
    (hmax : d.length ≤ g.WDP_MAX_DATA_SIZE)
    (h31 : WDP_HEADER_SIZE + d.length < 2147483648) (hfuel : WDP_HEADER_SIZE + d.length ≤ fuel)
    (hq : holds s2
      (sentBytes (wdpSend E1 g fuel socket1 (wdpPack (some d) d.length) s1).trace ++ rest)) :
    (wdpRecv E2 g fuel socket2 (some dst0) timeoutMs s2).status = .returned (d.length : Int) ∧
    (wdpRecv E2 g fuel socket2 (some dst0) timeoutMs s2).dst = some (messageOf d) ∧
    holds (wdpRecv E2 g fuel socket2 (some dst0) timeoutMs s2).state rest := by
  rw [(wdpSend_within_int_range E1 hE1 g fuel socket1 d s1 hs1 hmax h31 hfuel).2] at hq
  obtain ⟨r1, r2, r3, -⟩ := wdpRecv_feeds E2 holds hE2 g fuel socket2 dst0 timeoutMs s2 d rest
    hs2 hq hmax (by omega) (by omega) (by omega)
  rw [toInt32_of_lt _ (by omega)] at r1
  rw [received_of_lt _ (by omega)] at r2
  exact ⟨r1, r2, r3⟩

/-- Exact read where `length` fits an `int`: under the contract of the read
call, `wdpRecvExact` returns `length` with the buffer holding the bytes read,
in order, or one of its five error codes. -/
theorem wdpRecvExact_within_int_range {σ : Type} (E : Env σ) (hE : RecvContract E)
    (fuel : Nat) (buf : List Byte) (length timeoutMs : Nat) (s : σ)
    (hb : buf.length = length) (h31 : length < 2147483648) (hfuel : length ≤ fuel) :
    ((wdpRecvExact E fuel (some buf) length timeoutMs s).status = .returned (length : Int) ∧
      (wdpRecvExact E fuel (some buf) length timeoutMs s).buffer
        = some (recvBytes (wdpRecvExact E fuel (some buf) length timeoutMs s).trace) ∧
      (recvBytes (wdpRecvExact E fuel (some buf) length timeoutMs s).trace).length = length) ∨
    (∃ e ∈ exactReadErrors,
      (wdpRecvExact E fuel (some buf) length timeoutMs s).status = .returned e) := by
  obtain ⟨h, -⟩ := wdpRecvExactLoop_contract E hE length timeoutMs (by omega) fuel 0 buf s
    (Nat.zero_le _) hb (by omega)
  rw [toInt32_of_lt _ h31, List.take_zero, List.nil_append, Nat.sub_zero] at h
  exact h

/-- Framing where every `10 + L` fits an `int`: payloads sent back to back over
the link come out of as many `wdpRecv` calls, one per call, in order. -/
theorem framing_within_int_range (g : Globals) (fuel : Nat) (socket : Int) (timeoutMs : Nat)
    (ds : List (List Byte)) (picks : List Nat)
    (hs : socket ≠ linkEnv.platform.WDP_INVALID_SOCKET)
    (hds : ∀ d ∈ ds, d.length ≤ g.WDP_MAX_DATA_SIZE ∧ WDP_HEADER_SIZE + d.length < 2147483648 ∧
      WDP_HEADER_SIZE + d.length ≤ fuel)
    (hf : WDP_HEADER_SIZE ≤ fuel) :
    (recvAll linkEnv g fuel socket timeoutMs ds.length
      (sendAll linkEnv g fuel socket ds ⟨[], picks⟩).2).1
      = ds.map fun d => (Status.returned (d.length : Int), some (messageOf d)) := by
  obtain ⟨s1, -⟩ := sendAll_link g fuel socket hs ds ⟨[], picks⟩
    (fun d hd => ⟨(hds d hd).1, by have := (hds d hd).2.1; omega, (hds d hd).2.2⟩)
  have hq : (sendAll linkEnv g fuel socket ds ⟨[], picks⟩).2.queue = frames ds ++ [] := by
    rw [s1, List.nil_append, List.append_nil]
  obtain ⟨r1, -⟩ := recvAll_feeds linkEnv (fun s q => s.queue = q) linkEnv_feeds g fuel socket
    timeoutMs hs hf ds _ [] hq
    (fun d hd => ⟨(hds d hd).1, by have := (hds d hd).2.1; omega, by have := (hds d hd).2.2; omega⟩)
  rw [r1]
  apply List.map_congr_left
  intro d hd
  have := (hds d hd).2.1
  rw [toInt32_of_lt _ (by omega), received_of_lt _ (by omega)]

/-! ## Payload lengths beyond the range of `int` and of `10 + dataLen` -/

/-- C4, evaluated where the claim fails: with `MaxDataSize` set to 2147483638
and a payload of exactly that length (`dataLen == MaxDataSize`) on a valid
handle whose stream accepts every write, `wdpSend` puts the whole frame of
`10 + dataLen = 2147483648` bytes on the wire and returns `-2147483648`, not
`10 + dataLen`: the `unsigned int` count is returned through `int`. -/
theorem wdpSend_count_overflows_int :
    (wdpSend linkEnv (wdpSetMaxDataSize 2147483638 Globals.init) 2147483648 3
      (wdpPack (some (List.replicate 2147483638 0)) 2147483638) ⟨[], []⟩).status
      = .returned (-2147483648) ∧
    sentBytes (wdpSend linkEnv (wdpSetMaxDataSize 2147483638 Globals.init) 2147483648 3
      (wdpPack (some (List.replicate 2147483638 0)) 2147483638) ⟨[], []⟩).trace
      = versionTag ++ htonl 2147483638 ++ List.replicate 2147483638 0 ∧
    ((10 + 2147483638 : Nat) : Int) ≠ -2147483648 := by
  obtain ⟨h1, h2, -⟩ := wdpSend_accepts linkEnv linkEnv_accepts
    (wdpSetMaxDataSize 2147483638 Globals.init) 2147483648 3 (List.replicate 2147483638 0)
    2147483638 ⟨[], []⟩ (by decide) (by rw [List.length_replicate]) (le_refl _) (by decide)
    (by decide)
  refine ⟨?_, ?_, by decide⟩
  · rw [h1]; rfl
  · rw [h2, List.take_of_length_le (by rw [List.length_replicate])]

/-- C2, evaluated where the claim fails: with `MaxDataSize` set to 4294967295
a payload of 4294967295 bytes passes the validation of `wdpSend`; `10 + dataLen` wraps to 9, a 9-byte
buffer is allocated, and the copy of the 4 length bytes at offset 6 leaves it
(undefined behaviour). No write call is issued, so the wire does not carry the
frame. -/
theorem wdpSend_total_length_wraps :
    (wdpSend linkEnv (wdpSetMaxDataSize 4294967295 Globals.init) 20 3
      (wdpPack (some (List.replicate 4294967295 0)) 4294967295) ⟨[], []⟩).status = .undefined ∧
    (wdpSend linkEnv (wdpSetMaxDataSize 4294967295 Globals.init) 20 3
      (wdpPack (some (List.replicate 4294967295 0)) 4294967295) ⟨[], []⟩).trace
      = [.malloc 9 true] := by
  constructor <;> decide

/-- C1, evaluated where the claim fails: with `MaxDataSize` set to 4294967295,
a payload of 2147483648 zero bytes is sent over the link and all its bytes are
written; `wdpRecv` on those bytes reads the whole frame (the queue is left
empty) and then returns `-2147483648` with an empty destination message
instead of the payload. -/
theorem round_trip_fails_beyond_int_range :
    (wdpRecv linkEnv (wdpSetMaxDataSize 4294967295 Globals.init) 2147483658 3
      (some emptyMessage) 0
      (wdpSend linkEnv (wdpSetMaxDataSize 4294967295 Globals.init) 2147483658 3
        (wdpPack (some (List.replicate 2147483648 0)) 2147483648) ⟨[], []⟩).state).status
      = .returned (-2147483648) ∧
    (wdpRecv linkEnv (wdpSetMaxDataSize 4294967295 Globals.init) 2147483658 3
      (some emptyMessage) 0
      (wdpSend linkEnv (wdpSetMaxDataSize 4294967295 Globals.init) 2147483658 3
        (wdpPack (some (List.replicate 2147483648 0)) 2147483648) ⟨[], []⟩).state).dst
      = some emptyMessage ∧
    (wdpRecv linkEnv (wdpSetMaxDataSize 4294967295 Globals.init) 2147483658 3
      (some emptyMessage) 0
      (wdpSend linkEnv (wdpSetMaxDataSize 4294967295 Globals.init) 2147483658 3
        (wdpPack (some (List.replicate 2147483648 0)) 2147483648) ⟨[], []⟩).state).state.queue
      = [] := by
  have h := link_round_trip (wdpSetMaxDataSize 4294967295 Globals.init) 2147483658 3 0
    emptyMessage (List.replicate 2147483648 0) [] (by decide)
    (by rw [List.length_replicate]; decide) (by rw [List.length_replicate]; decide)
    (by rw [List.length_replicate]; decide)
  have hr : received (List.replicate 2147483648 (0 : Byte)) = emptyMessage := by
    unfold received
    rw [List.length_replicate, if_neg (by decide)]
  rw [hr, List.length_replicate] at h
  exact h

/-- C10, evaluated where the claim fails: asked for 2147483648 bytes into a
buffer of that size, on a stream that delivers them without error,
`wdpRecvExact` fills the buffer and returns `-2147483648`: neither `length`
nor one of its five error codes. -/
theorem wdpRecvExact_count_overflows_int :
    (wdpRecvExact linkEnv 2147483648 (some (List.replicate 2147483648 0)) 2147483648 0
      ⟨List.replicate 2147483648 7, []⟩).status = .returned (-2147483648) ∧
    (wdpRecvExact linkEnv 2147483648 (some (List.replicate 2147483648 0)) 2147483648 0
      ⟨List.replicate 2147483648 7, []⟩).buffer = some (List.replicate 2147483648 7) := by
  obtain ⟨i1, i2, -⟩ := wdpRecvExactLoop_feeds linkEnv (fun s q => s.queue = q) linkEnv_feeds
    2147483648 0 (by decide) 2147483648 0 (List.replicate 2147483648 0)
    ⟨List.replicate 2147483648 7, []⟩ (List.replicate 2147483648 7) rfl (by decide)
    (List.length_replicate _ _) (by rw [List.length_replicate]) (by decide)
  refine ⟨i1, ?_⟩
  rw [List.take_zero, List.nil_append, Nat.sub_zero,
    List.take_of_length_le (by rw [List.length_replicate])] at i2
  exact i2

/-- C8, evaluated where the claim fails: with `MaxDataSize` set to 4294967295,
the payloads
`[1, ..., 1]` (2147483649 bytes) and `[5]` are sent back to back over the link;
the first `wdpRecv` consumes the whole first frame but returns `-2147483647`
with an empty message, so the calls do not yield the payloads sent. -/
theorem framing_loses_payload_beyond_int_range :
    (recvAll linkEnv (wdpSetMaxDataSize 4294967295 Globals.init) 2147483659 3 0 2
      (sendAll linkEnv (wdpSetMaxDataSize 4294967295 Globals.init) 2147483659 3
        [List.replicate 2147483649 1, [5]] ⟨[], []⟩).2).1
      = [(.returned (-2147483647), some emptyMessage),
         (.returned 1, some { dataLen := 1, data := some [5] })] := by
  have hds : ∀ d ∈ [List.replicate 2147483649 (1 : Byte), [5]],
      d.length ≤ (wdpSetMaxDataSize 4294967295 Globals.init).WDP_MAX_DATA_SIZE ∧
      WDP_HEADER_SIZE + d.length < 4294967296 ∧ WDP_HEADER_SIZE + d.length ≤ 2147483659 := by
    intro d hd
    simp only [List.mem_cons, List.mem_singleton, List.not_mem_nil, or_false] at hd
    rcases hd with hd | hd <;> subst hd
    · rw [List.length_replicate]; decide
    · decide
  obtain ⟨s1, -⟩ := sendAll_link (wdpSetMaxDataSize 4294967295 Globals.init) 2147483659 3
    (by decide) [List.replicate 2147483649 1, [5]] ⟨[], []⟩ hds
  have hq : (sendAll linkEnv (wdpSetMaxDataSize 4294967295 Globals.init) 2147483659 3
      [List.replicate 2147483649 1, [5]] ⟨[], []⟩).2.queue
      = frames [List.replicate 2147483649 1, [5]] ++ [] := by
    rw [s1, List.nil_append, List.append_nil]
  obtain ⟨r1, -⟩ := recvAll_feeds linkEnv (fun s q => s.queue = q) linkEnv_feeds
    (wdpSetMaxDataSize 4294967295 Globals.init) 2147483659 3 0 (by decide) (by decide)
    [List.replicate 2147483649 1, [5]] _ [] hq
    (fun d hd => ⟨(hds d hd).1, by have := (hds d hd).2.1; omega, by have := (hds d hd).2.2; omega⟩)
  have hlen : [List.replicate 2147483649 (1 : Byte), [5]].length = 2 := rfl
  rw [hlen] at r1
  rw [r1]
  have hr : received (List.replicate 2147483649 (1 : Byte)) = emptyMessage := by
    unfold received
    rw [List.length_replicate, if_neg (by decide)]
  simp only [List.map_cons, List.map_nil, hr, List.length_replicate]
  decide

/-! ## `wdpFree` -/

/-- What `wdpFree` does to a message: with a data reference present it releases
the buffer once and leaves the empty message; with the data reference absent
it changes nothing and releases nothing. -/
theorem wdpFree_some (m : WDP) :
    (m.data ≠ none → wdpFree (some m) = (some emptyMessage, [Event.free])) ∧
    (m.data = none → wdpFree (some m) = (some m, [])) := by
  constructor
  · intro h
    simp [wdpFree, h, emptyMessage]
  · intro h
    simp [wdpFree, h]

/-- C11, where the claim fails: `wdpFree` on the message `wdpPack(NULL, 5)`
leaves `dataLen == 5`, so the message is not in the empty state. -/
theorem wdpFree_keeps_dataLen_of_null_data :
    (wdpFree (some (wdpPack none 5))).1 = some { dataLen := 5, data := none } ∧
    (wdpFree (some (wdpPack none 5))).1 ≠ some emptyMessage := by
  constructor <;> decide

/-- C11, amended: for every message whose data reference is present (any
`dataLen`), after `wdpFree` the message is in the empty state, data reference
absent and `dataLen == 0`; a message whose data reference is absent is left
as it is, so it is empty afterwards exactly when its `dataLen` was 0. -/
theorem wdpFree_resets_owned_message (data : Option (List Byte)) (dataLen : Nat) :
    (data ≠ none → (wdpFree (some (wdpPack data dataLen))).1 = some emptyMessage) ∧
    (data = none → (wdpFree (some (wdpPack data dataLen))).1 = some (wdpPack data dataLen)) ∧
    (data = none →
      ((wdpFree (some (wdpPack data dataLen))).1 = some emptyMessage ↔ dataLen = 0)) := by
  refine ⟨fun h => ?_, fun h => ?_, fun h => ?_⟩
  · rw [(wdpFree_some (wdpPack data dataLen)).1 h]
  · rw [(wdpFree_some (wdpPack data dataLen)).2 h]
  · rw [(wdpFree_some (wdpPack data dataLen)).2 h]
    subst h
    simp [wdpPack, emptyMessage]

/-- C11, amended, at concrete inputs: a message with a 3-byte buffer and
`dataLen` 7, and the message `wdpPack(NULL, 0)`. -/
theorem wdpFree_resets_owned_message_witness :
    (wdpFree (some (wdpPack (some [1, 2, 3]) 7))).1 = some emptyMessage ∧
    ((wdpFree (some (wdpPack none 0))).1 = some emptyMessage ↔ (0 : Nat) = 0) :=
  ⟨(wdpFree_resets_owned_message (some [1, 2, 3]) 7).1 (by decide),
   (wdpFree_resets_owned_message none 0).2.2 rfl⟩

theorem wdpFree_fixed (wdp : Option WDP) : wdpFree (wdpFree wdp).1 = ((wdpFree wdp).1, []) := by
  cases wdp with
  | none => rfl
  | some m =>
    by_cases h : m.data = none
    · rw [(wdpFree_some m).2 h, (wdpFree_some m).2 h]
    · rw [(wdpFree_some m).1 h]
      rfl

theorem wdpFreeTimes_fixed (n : Nat) (wdp : Option WDP) :
    wdpFreeTimes n (wdpFree wdp).1 = ((wdpFree wdp).1, []) := by
  induction n with
  | zero => rfl
  | succ n ih =>
    simp only [wdpFreeTimes]
    rw [wdpFree_fixed]
    simp only [ih, List.append_nil]

theorem wdpFree_releases_le (wdp : Option WDP) : releases (wdpFree wdp).2 ≤ 1 := by
  cases wdp with
  | none => simp [wdpFree, releases]
  | some m =>
    by_cases h : m.data = none
    · rw [(wdpFree_some m).2 h]; simp [releases]
    · rw [(wdpFree_some m).1 h]; simp [releases]

/-- C12: `wdpFree` is idempotent: applying it twice, or any number of times,
leaves the message as one application does; over any number of calls on the
same message at most one `free` is issued; on an already-empty message and on a null message reference
it changes nothing and releases nothing. -/
theorem wdpFree_idempotent (wdp : Option WDP) :
    (wdpFree (wdpFree wdp).1).1 = (wdpFree wdp).1 ∧
    (∀ n, releases (wdpFreeTimes n wdp).2 ≤ 1) ∧
    (∀ n, (wdpFreeTimes (n + 1) wdp).1 = (wdpFree wdp).1) ∧
    wdpFree (some emptyMessage) = (some emptyMessage, []) ∧
    wdpFree none = (none, []) := by
  refine ⟨by rw [wdpFree_fixed], fun n => ?_, fun n => ?_, rfl, rfl⟩
  · cases n with
    | zero => simp [wdpFreeTimes, releases]
    | succ n =>
      simp only [wdpFreeTimes]
      rw [wdpFreeTimes_fixed, List.append_nil]
      exact wdpFree_releases_le wdp
  · simp only [wdpFreeTimes]
    rw [wdpFreeTimes_fixed]

/-! ## `wdpGetErrorString` -/

theorem wdpGetErrorString_unknown_iff (c : Int) :
    wdpGetErrorString c = "Unknown error" ↔ c ∉ definedCodes := by
  by_cases h : c ∈ definedCodes
  · simp only [h, not_true_eq_false, iff_false]
    simp only [definedCodes, errorCodes, List.mem_cons, List.mem_singleton, List.not_mem_nil,
      or_false] at h
    rcases h with h | h | h | h | h | h | h | h | h | h | h | h | h | h | h | h | h | h | h <;>
      subst h <;> decide
  · simp only [h, not_false_eq_true, iff_true]
    simp only [definedCodes, errorCodes, List.mem_cons, List.mem_singleton, List.not_mem_nil,
      or_false, not_or] at h
    obtain ⟨h0, h1, h2, h3, h4, h5, h6, h7, h8, h9, h10, h11, h12, h13, h14, h15, h16, h17,
      h18⟩ := h
    unfold wdpGetErrorString
    simp only [if_neg h0, if_neg h1, if_neg h2, if_neg h3, if_neg h4, if_neg h5, if_neg h6,
      if_neg h7, if_neg h8, if_neg h9, if_neg h10, if_neg h11, if_neg h12, if_neg h13,
      if_neg h14, if_neg h15, if_neg h16, if_neg h17, if_neg h18]

/-- C13: `wdpGetErrorString` gives `"Unknown error"` for exactly the integers
that are not a defined code (0 and the 18 error codes); every error code is
negative; the descriptions of the 19 defined codes are pairwise distinct and
none is `"Unknown error"`. -/
theorem wdpGetErrorString_lookup :
    (∀ c : Int, wdpGetErrorString c = "Unknown error" ↔ c ∉ definedCodes) ∧
    definedCodes.length = 19 ∧ errorCodes.length = 18 ∧
    (∀ c ∈ errorCodes, c < 0) ∧
    (definedCodes.map wdpGetErrorString).Nodup ∧
    (∀ c ∈ definedCodes, wdpGetErrorString c ≠ "Unknown error") := by
  refine ⟨wdpGetErrorString_unknown_iff, rfl, rfl, by decide, by decide, ?_⟩
  intro c hc h
  exact (wdpGetErrorString_unknown_iff c).1 h hc

/-- C13, at concrete inputs: the undefined code 7, the defined code 0 and the
error code `-102`. -/
theorem wdpGetErrorString_lookup_witness :
    (wdpGetErrorString 7 = "Unknown error" ↔ (7 : Int) ∉ definedCodes) ∧
    (wdpGetErrorString 0 = "Unknown error" ↔ (0 : Int) ∉ definedCodes) ∧
    (-102 : Int) < 0 ∧
    wdpGetErrorString (-102) ≠ "Unknown error" ∧
    wdpGetErrorString 7 = "Unknown error" ∧
    wdpGetErrorString (-102) = "Network timeout" :=
  ⟨wdpGetErrorString_lookup.1 7, wdpGetErrorString_lookup.1 0,
   wdpGetErrorString_lookup.2.2.2.1 (-102) (by decide),
   wdpGetErrorString_lookup.2.2.2.2.2 (-102) (by decide), by decide, by decide⟩

/-! ## Write failures in `wdpSend` -/

theorem send_mem_last {offered o : List Byte} {v w e le : Int}
    (h : Event.send offered v e ∈ [Event.send o w le, Event.free]) :
    offered = o ∧ v = w ∧ e = le := by
  rcases List.mem_cons.1 h with h | h
  · exact Event.send.inj h
  · rcases List.mem_cons.1 h with h | h
    · cases h
    · cases h

theorem wdpSendLoop_failure {σ : Type} (E : Env σ) (buf : List Byte) (totalLen : Nat) :
    ∀ (fuel totalSent : Nat) (s : σ),
      (∀ offered e,
        Event.send offered WDP_SOCKET_ERROR e ∈ (wdpSendLoop E buf totalLen fuel totalSent s).trace →
        (wdpSendLoop E buf totalLen fuel totalSent s).status
          = .returned (writeFailureCode E.platform e) ∧
        ∃ pre, (wdpSendLoop E buf totalLen fuel totalSent s).trace
          = pre ++ [Event.send offered WDP_SOCKET_ERROR e, Event.free]) ∧
      (∀ offered e,
        Event.send offered 0 e ∈ (wdpSendLoop E buf totalLen fuel totalSent s).trace →
        (wdpSendLoop E buf totalLen fuel totalSent s).status
          = .returned WDP_ERR_NETWORK_PEER_CLOSED ∧
        ∃ pre, (wdpSendLoop E buf totalLen fuel totalSent s).trace
          = pre ++ [Event.send offered 0 e, Event.free]) := by
  intro fuel
  induction fuel with
  | zero =>
    intro totalSent s
    unfold wdpSendLoop
    split <;> simp
  | succ fuel ih =>
    intro totalSent s
    unfold wdpSendLoop
    by_cases hlt : totalSent < totalLen
    · simp only [if_pos hlt]
      generalize List.take (totalLen - totalSent) (List.drop totalSent buf) = off
      generalize E.send s off = reply
      by_cases e1 : reply.1.1 = WDP_SOCKET_ERROR
      · have e1n : ¬ (0 : Int) = WDP_SOCKET_ERROR := by decide
        simp only [if_pos e1]
        have key : ∀ st : Status,
            st = .returned (writeFailureCode E.platform reply.1.2) →
            (∀ offered e,
              Event.send offered WDP_SOCKET_ERROR e
                ∈ [Event.send off reply.1.1 reply.1.2, Event.free] →
              st = .returned (writeFailureCode E.platform e) ∧
              ∃ pre, [Event.send off reply.1.1 reply.1.2, Event.free]
                = pre ++ [Event.send offered WDP_SOCKET_ERROR e, Event.free]) ∧
            (∀ offered e,
              Event.send offered 0 e ∈ [Event.send off reply.1.1 reply.1.2, Event.free] →
              st = .returned WDP_ERR_NETWORK_PEER_CLOSED ∧
              ∃ pre, [Event.send off reply.1.1 reply.1.2, Event.free]
                = pre ++ [Event.send offered 0 e, Event.free]) := by
          intro st hst
          refine ⟨fun offered e h => ?_, fun offered e h => ?_⟩
          · obtain ⟨h1, h2, h3⟩ := send_mem_last h
            rw [h1, h3, ← h2]
            exact ⟨hst, [], rfl⟩
          · obtain ⟨-, h2, -⟩ := send_mem_last h
            exact absurd (h2.trans e1) e1n
        by_cases e5 : isConnectionError E.platform reply.1.2 = true
        · rw [if_pos e5]
          exact key _ (by simp [writeFailureCode, e5])
        · rw [if_neg e5]
          exact key _ (by simp [writeFailureCode, e5])
      · simp only [if_neg e1]
        by_cases e2 : reply.1.1 = 0
        · simp only [if_pos e2]
          refine ⟨fun offered e h => ?_, fun offered e h => ?_⟩
          · obtain ⟨-, h2, -⟩ := send_mem_last h
            exact absurd h2.symm e1
          · obtain ⟨h1, h2, h3⟩ := send_mem_last h
            rw [h1, h3, ← h2]
            exact ⟨trivial, [], rfl⟩
        · simp only [if_neg e2, SendOutcome.after, List.cons_append, List.nil_append]
          obtain ⟨i1, i2⟩ := ih (toU32 (↑totalSent + reply.1.1)) reply.2
          refine ⟨fun offered e h => ?_, fun offered e h => ?_⟩
          · rcases List.mem_cons.1 h with h | h
            · exact absurd (Event.send.inj h).2.1.symm e1
            · obtain ⟨a, pre, b⟩ := i1 offered e h
              exact ⟨a, Event.send off reply.1.1 reply.1.2 :: pre, by rw [b]; rfl⟩
          · rcases List.mem_cons.1 h with h | h
            · exact absurd (Event.send.inj h).2.1.symm e2
            · obtain ⟨a, pre, b⟩ := i2 offered e h
              exact ⟨a, Event.send off reply.1.1 reply.1.2 :: pre, by rw [b]; rfl⟩
    · simp [hlt]

theorem isConnectionError_iff (p : Platform) (e : Int) :
    isConnectionError p e = true ↔ e = p.notConn ∨ e = p.connReset ∨ e = p.pipeOrAborted := by
  simp [isConnectionError, or_assoc]

/-- C14, where the claim fails: in the POSIX build a write that fails with
`ECONNABORTED` (connection aborted) makes `wdpSend` return `NetworkSendFailed`,
not `SocketNotConnected`, and a write that fails with `EPIPE`, which is none
of reset, aborted, not-connected, makes it return `SocketNotConnected`. -/
theorem wdpSend_posix_connection_aborted :
    scriptEnv.platform = posix ∧
    (wdpSend scriptEnv Globals.init 20 3 (wdpPack (some [1, 2]) 2)
      ⟨[], [(-1, ECONNABORTED)], [], []⟩).status = .returned WDP_ERR_NETWORK_SEND_FAILED ∧
    (wdpSend scriptEnv Globals.init 20 3 (wdpPack (some [1, 2]) 2)
      ⟨[], [(-1, EPIPE)], [], []⟩).status = .returned WDP_ERR_SOCKET_NOT_CONNECTED := by
  refine ⟨rfl, ?_, ?_⟩ <;> decide

/-- C14, amended: whenever a write call inside `wdpSend` fails with platform
error `e`, `wdpSend` returns `SocketNotConnected` if `e` is one of the three
codes `isConnectionError` tests on the platform (not-connected,
connection-reset, and connection-aborted under `_WIN32` but broken-pipe
`EPIPE` in the POSIX build) and `NetworkSendFailed` for every other `e`; a
write that reports zero bytes gives `NetworkPeerClosed`; in all three cases the
failing write is the last one: only the `free` of the buffer follows it. -/
theorem wdpSend_write_failure {σ : Type} (E : Env σ) (g : Globals) (fuel : Nat) (socket : Int)
    (m : WDP) (s : σ) :
    (∀ offered e,
      Event.send offered WDP_SOCKET_ERROR e ∈ (wdpSend E g fuel socket m s).trace →
      (wdpSend E g fuel socket m s).status
        = .returned (if e = E.platform.notConn ∨ e = E.platform.connReset ∨
            e = E.platform.pipeOrAborted then WDP_ERR_SOCKET_NOT_CONNECTED
          else WDP_ERR_NETWORK_SEND_FAILED) ∧
      ∃ pre, (wdpSend E g fuel socket m s).trace
        = pre ++ [Event.send offered WDP_SOCKET_ERROR e, Event.free]) ∧
    (∀ offered e,
      Event.send offered 0 e ∈ (wdpSend E g fuel socket m s).trace →
      (wdpSend E g fuel socket m s).status = .returned WDP_ERR_NETWORK_PEER_CLOSED ∧
      ∃ pre, (wdpSend E g fuel socket m s).trace
        = pre ++ [Event.send offered 0 e, Event.free]) ∧
    posix.pipeOrAborted = EPIPE ∧ win32.pipeOrAborted = WSAECONNABORTED := by
  have hcode : ∀ e, writeFailureCode E.platform e
      = (if e = E.platform.notConn ∨ e = E.platform.connReset ∨ e = E.platform.pipeOrAborted
          then WDP_ERR_SOCKET_NOT_CONNECTED else WDP_ERR_NETWORK_SEND_FAILED) := by
    intro e
    unfold writeFailureCode
    by_cases h : isConnectionError E.platform e = true
    · rw [if_pos h, if_pos ((isConnectionError_iff _ _).1 h)]
    · rw [if_neg h, if_neg (fun h2 => h ((isConnectionError_iff _ _).2 h2))]
  refine ⟨?_, ?_, rfl, rfl⟩
  · intro offered e h
    unfold wdpSend at h ⊢
    by_cases c1 : socket = E.platform.WDP_INVALID_SOCKET
    · simp [c1] at h
    · rw [if_neg c1] at h ⊢
      by_cases c2 : m.data = none ∧ m.dataLen > 0
      · simp [c2] at h
      · rw [if_neg c2] at h ⊢
        by_cases c3 : m.dataLen > g.WDP_MAX_DATA_SIZE
        · simp [c3] at h
        · rw [if_neg c3] at h ⊢
          simp only at h ⊢
          by_cases c4 : (E.malloc s ((WDP_HEADER_SIZE + m.dataLen) % 4294967296)).1 = false
          · simp [c4] at h
          · rw [if_neg c4] at h ⊢
            cases hf : fillSendBuffer ((WDP_HEADER_SIZE + m.dataLen) % 4294967296) m with
            | none => simp [hf] at h
            | some b =>
              simp only [hf, SendOutcome.after, List.singleton_append] at h ⊢
              rcases List.mem_cons.1 h with h | h
              · cases h
              · obtain ⟨a, pre, hb⟩ := (wdpSendLoop_failure E b _ fuel 0 _).1 offered e h
                rw [hcode] at a
                exact ⟨a, Event.malloc _ true :: pre, by rw [hb]; rfl⟩
  · intro offered e h
    unfold wdpSend at h ⊢
    by_cases c1 : socket = E.platform.WDP_INVALID_SOCKET
    · simp [c1] at h
    · rw [if_neg c1] at h ⊢
      by_cases c2 : m.data = none ∧ m.dataLen > 0
      · simp [c2] at h
      · rw [if_neg c2] at h ⊢
        by_cases c3 : m.dataLen > g.WDP_MAX_DATA_SIZE
        · simp [c3] at h
        · rw [if_neg c3] at h ⊢
          simp only at h ⊢
          by_cases c4 : (E.malloc s ((WDP_HEADER_SIZE + m.dataLen) % 4294967296)).1 = false
          · simp [c4] at h
          · rw [if_neg c4] at h ⊢
            cases hf : fillSendBuffer ((WDP_HEADER_SIZE + m.dataLen) % 4294967296) m with
            | none => simp [hf] at h
            | some b =>
              simp only [hf, SendOutcome.after, List.singleton_append] at h ⊢
              rcases List.mem_cons.1 h with h | h
              · cases h
              · obtain ⟨a, pre, hb⟩ := (wdpSendLoop_failure E b _ fuel 0 _).2 offered e h
                exact ⟨a, Event.malloc _ true :: pre, by rw [hb]; rfl⟩

/-- C14, amended, at concrete inputs (POSIX build): the first write takes 4 of
13 bytes and the second fails with `ECONNRESET` (104); and the first write
reports zero bytes. -/
theorem wdpSend_write_failure_witness :
    ((wdpSend scriptEnv Globals.init 20 3 (wdpPack (some [1, 2, 3]) 3)
        ⟨[], [(4, 0), (-1, 104)], [], []⟩).status
        = .returned (if (104 : Int) = scriptEnv.platform.notConn ∨
            (104 : Int) = scriptEnv.platform.connReset ∨
            (104 : Int) = scriptEnv.platform.pipeOrAborted then WDP_ERR_SOCKET_NOT_CONNECTED
          else WDP_ERR_NETWORK_SEND_FAILED) ∧
      ∃ pre, (wdpSend scriptEnv Globals.init 20 3 (wdpPack (some [1, 2, 3]) 3)
        ⟨[], [(4, 0), (-1, 104)], [], []⟩).trace
        = pre ++ [Event.send [46, 49, 0, 0, 0, 3, 1, 2, 3] WDP_SOCKET_ERROR 104, Event.free]) ∧
    ((wdpSend scriptEnv Globals.init 20 3 (wdpPack (some [1, 2, 3]) 3)
        ⟨[], [(0, 0)], [], []⟩).status = .returned WDP_ERR_NETWORK_PEER_CLOSED ∧
      ∃ pre, (wdpSend scriptEnv Globals.init 20 3 (wdpPack (some [1, 2, 3]) 3)
        ⟨[], [(0, 0)], [], []⟩).trace
        = pre ++ [Event.send [87, 68, 80, 48, 46, 49, 0, 0, 0, 3, 1, 2, 3] 0 0, Event.free]) ∧
    (wdpSend scriptEnv Globals.init 20 3 (wdpPack (some [1, 2, 3]) 3)
      ⟨[], [(4, 0), (-1, 104)], [], []⟩).status = .returned WDP_ERR_SOCKET_NOT_CONNECTED :=
  ⟨(wdpSend_write_failure scriptEnv Globals.init 20 3 (wdpPack (some [1, 2, 3]) 3)
      ⟨[], [(4, 0), (-1, 104)], [], []⟩).1 [46, 49, 0, 0, 0, 3, 1, 2, 3] 104 (by decide),
   (wdpSend_write_failure scriptEnv Globals.init 20 3 (wdpPack (some [1, 2, 3]) 3)
      ⟨[], [(0, 0)], [], []⟩).2.1 [87, 68, 80, 48, 46, 49, 0, 0, 0, 3, 1, 2, 3] 0 (by decide),
   by decide⟩

/-! ## The loops under the contracts of the write and read calls -/

theorem memcpy_length (dst src b : List Byte) (off n : Nat) (h : memcpy dst off src n = some b) :
    b.length = dst.length := by
  unfold memcpy at h
  split at h
  · rename_i hc
    simp only [Option.some.injEq] at h
    rw [← h]
    simp only [List.length_append, List.length_take, List.length_drop]
    omega
  · cases h

/-- When the three copies of `wdpSend` stay inside their objects, the send
buffer has the allocated size. -/
theorem fillSendBuffer_length (totalLen : Nat) (m : WDP) (b : List Byte)
    (h : fillSendBuffer totalLen m = some b) : b.length = totalLen := by
  unfold fillSendBuffer at h
  cases h1 : memcpy (List.replicate totalLen 0) 0 WDP_VERSION_STRING WDP_VERSION_LEN with
  | none => simp [h1] at h
  | some b1 =>
    have l1 := memcpy_length _ _ _ _ _ h1
    simp only [h1, Option.bind_eq_bind, Option.some_bind] at h
    cases h2 : memcpy b1 WDP_VERSION_LEN (htonl m.dataLen) 4 with
    | none => simp [h2] at h
    | some b2 =>
      have l2 := memcpy_length _ _ _ _ _ h2
      simp only [h2, Option.some_bind] at h
      by_cases h0 : m.dataLen > 0
      · rw [if_pos h0] at h
        cases hd : m.data with
        | none => simp [hd] at h
        | some d =>
          simp only [hd] at h
          have l3 := memcpy_length _ _ _ _ _ h
          rw [l3, l2, l1, List.length_replicate]
      · rw [if_neg h0, Option.some.injEq] at h
        rw [← h, l2, l1, List.length_replicate]

theorem sendCalls_cons_send (o : List Byte) (v e : Int) (tr : List Event) :
    sendCalls (.send o v e :: tr) = sendCalls tr + 1 := by
  simp [sendCalls, List.filter_cons]

/-- Under the contract of the write call the send loop ends, whatever the fuel
left, in one of three ways: out of fuel with bytes still to send, with the
total converted to `int` after all bytes were accepted, or with one of its
three error codes; it issues at most one write per byte still to send and
releases the buffer once when it returns. -/
theorem wdpSendLoop_contract {σ : Type} (E : Env σ) (hE : SendContract E) (buf : List Byte)
    (totalLen : Nat) (hlen : buf.length = totalLen) (h32 : totalLen < 4294967296) :
    ∀ (fuel totalSent : Nat) (s : σ), totalSent ≤ totalLen →
      (((wdpSendLoop E buf totalLen fuel totalSent s).status = .running ∧
          fuel < totalLen - totalSent) ∨
        ((wdpSendLoop E buf totalLen fuel totalSent s).status = .returned (toInt32 totalLen) ∧
          sentBytes (wdpSendLoop E buf totalLen fuel totalSent s).trace = buf.drop totalSent ∧
          releases (wdpSendLoop E buf totalLen fuel totalSent s).trace = 1) ∨
        (∃ e ∈ sendLoopErrors,
          (wdpSendLoop E buf totalLen fuel totalSent s).status = .returned e ∧
          releases (wdpSendLoop E buf totalLen fuel totalSent s).trace = 1)) ∧
      sendCalls (wdpSendLoop E buf totalLen fuel totalSent s).trace ≤ totalLen - totalSent := by
  intro fuel
  induction fuel with
  | zero =>
    intro totalSent s h1
    unfold wdpSendLoop
    by_cases hlt : totalSent < totalLen
    · simp only [if_pos hlt]
      exact ⟨Or.inl ⟨trivial, by omega⟩, by simp [sendCalls]⟩
    · have he : totalSent = totalLen := by omega
      subst he
      simp [sentBytes, sendCalls, releases, ← hlen]
  | succ fuel ih =>
    intro totalSent s h1
    unfold wdpSendLoop
    by_cases hlt : totalSent < totalLen
    · simp only [if_pos hlt]
      have hoff : List.take (totalLen - totalSent) (List.drop totalSent buf)
          = List.drop totalSent buf := by
        apply List.take_of_length_le
        simp only [List.length_drop]; omega
      rw [hoff]
      have hc := hE s (List.drop totalSent buf)
      simp only [List.length_drop, hlen] at hc
      generalize E.send s (List.drop totalSent buf) = reply at hc
      have hone : sendCalls [Event.send (List.drop totalSent buf) reply.1.1 reply.1.2,
          Event.free] ≤ totalLen - totalSent := by
        rw [sendCalls_cons_send]
        have : sendCalls [Event.free] = 0 := by simp [sendCalls, List.filter_cons]
        omega
      have hrel : releases [Event.send (List.drop totalSent buf) reply.1.1 reply.1.2,
          Event.free] = 1 := by
        simp [releases, List.filter_cons]
      by_cases e1 : reply.1.1 = WDP_SOCKET_ERROR
      · simp only [if_pos e1]
        by_cases e5 : isConnectionError E.platform reply.1.2 = true
        · rw [if_pos e5]
          exact ⟨Or.inr (Or.inr ⟨_, by simp [sendLoopErrors], rfl, hrel⟩), hone⟩
        · rw [if_neg e5]
          exact ⟨Or.inr (Or.inr ⟨_, by simp [sendLoopErrors], rfl, hrel⟩), hone⟩
      · simp only [if_neg e1]
        by_cases e2 : reply.1.1 = 0
        · simp only [if_pos e2]
          exact ⟨Or.inr (Or.inr ⟨_, by simp [sendLoopErrors], rfl, hrel⟩), hone⟩
        · simp only [if_neg e2]
          have hc3 : 1 ≤ reply.1.1 ∧ reply.1.1 ≤ ((totalLen - totalSent : Nat) : Int) := by
            rcases hc with hc | hc | hc
            · exact absurd hc e1
            · exact absurd hc e2
            · exact hc
          obtain ⟨k, hk⟩ := Int.eq_ofNat_of_zero_le (by omega : 0 ≤ reply.1.1)
          have hk1 : 1 ≤ k := by omega
          have hk2 : k ≤ totalLen - totalSent := by omega
          simp only [SendOutcome.after, List.cons_append, List.nil_append]
          rw [hk, toU32_add totalSent k (by omega)]
          obtain ⟨i1, i2⟩ := ih (totalSent + k) reply.2 (by omega)
          have hpos : (0 : Int) < (k : Int) := by omega
          have hrel2 : ∀ tr, releases (Event.send (List.drop totalSent buf) (↑k) reply.1.2 :: tr)
              = releases tr := by
            intro tr; simp [releases, List.filter_cons]
          refine ⟨?_, ?_⟩
          · rcases i1 with ⟨j1, j2⟩ | ⟨j1, j2, j3⟩ | ⟨e, he, j1, j3⟩
            · exact Or.inl ⟨j1, by omega⟩
            · refine Or.inr (Or.inl ⟨j1, ?_, ?_⟩)
              · rw [sentBytes_send, if_pos hpos, Int.toNat_ofNat, j2, ← List.drop_drop,
                  List.take_append_drop]
              · rw [hrel2, j3]
            · exact Or.inr (Or.inr ⟨e, he, j1, by rw [hrel2, j3]⟩)
          · rw [sendCalls_cons_send]; omega
    · have he : totalSent = totalLen := by omega
      subst he
      simp [sentBytes, sendCalls, releases, ← hlen]

theorem linkEnv_sendContract : SendContract linkEnv := by
  intro s offered
  have h2 := Link.chunk_le s offered.length
  show ((s.chunk offered.length : Nat) : Int) = -1 ∨ ((s.chunk offered.length : Nat) : Int) = 0 ∨
    (1 ≤ ((s.chunk offered.length : Nat) : Int) ∧
      ((s.chunk offered.length : Nat) : Int) ≤ (offered.length : Int))
  omega

theorem linkEnv_recvContract : RecvContract linkEnv := by
  intro s requested
  have h2 := Link.chunk_le s requested
  show (((s.queue.take (s.chunk requested)).length : Nat) : Int) = -1 ∨
    (((s.queue.take (s.chunk requested)).length : Nat) : Int) = 0 ∨
    (1 ≤ (((s.queue.take (s.chunk requested)).length : Nat) : Int) ∧
      (((s.queue.take (s.chunk requested)).length : Nat) : Int) ≤ (requested : Int) ∧
      (((s.queue.take (s.chunk requested)).length : Nat) : Int)
        = (((s.queue.take (s.chunk requested)).length : Nat) : Int))
  have h3 : (s.queue.take (s.chunk requested)).length ≤ s.chunk requested := by
    rw [List.length_take]; exact Nat.min_le_left _ _
  omega

/-! ## `wdpSend` within the safe configuration range -/

theorem errorCodes_neg : ∀ c ∈ errorCodes, c < 0 := by decide

/-- The copies of `wdpSend` succeed when the buffer has room for header and
payload and the data reference, if needed, designates enough bytes. -/
theorem fillSendBuffer_some (m : WDP) (hnull : ¬ (m.data = none ∧ m.dataLen > 0))
    (hdata : ∀ d, m.data = some d → m.dataLen ≤ d.length) :
    fillSendBuffer (WDP_HEADER_SIZE + m.dataLen) m
      = some (versionTag ++ htonl m.dataLen ++ (m.data.getD []).take m.dataLen) := by
  obtain ⟨L, data⟩ := m
  cases data with
  | some d => exact fillSendBuffer_eq d L (hdata d rfl)
  | none =>
    have hz : L = 0 := by
      by_contra h
      exact hnull ⟨rfl, Nat.pos_of_ne_zero h⟩
    subst hz
    exact fillSendBuffer_empty

theorem wdpSend_outcome_in_safe_range {σ : Type} (E : Env σ) (hE : SendContract E) (g : Globals)
    (fuel : Nat) (socket : Int) (m : WDP) (s : σ)
    (hmax : g.WDP_MAX_DATA_SIZE ≤ 2147483637) (hlen : m.dataLen ≤ g.WDP_MAX_DATA_SIZE)
    (hdata : ∀ d, m.data = some d → m.dataLen ≤ d.length)
    (hfuel : WDP_HEADER_SIZE + m.dataLen ≤ fuel) :
    ((wdpSend E g fuel socket m s).status
        = .returned ((WDP_HEADER_SIZE + m.dataLen : Nat) : Int) ∧
      sentBytes (wdpSend E g fuel socket m s).trace
        = versionTag ++ htonl m.dataLen ++ (m.data.getD []).take m.dataLen) ∨
    (∃ e ∈ errorCodes, (wdpSend E g fuel socket m s).status = .returned e) := by
  have h10 : WDP_HEADER_SIZE = 10 := rfl
  have hmod : (WDP_HEADER_SIZE + m.dataLen) % 4294967296 = WDP_HEADER_SIZE + m.dataLen :=
    Nat.mod_eq_of_lt (by omega)
  unfold wdpSend
  by_cases c1 : socket = E.platform.WDP_INVALID_SOCKET
  · rw [if_pos c1]
    exact Or.inr ⟨_, by simp [errorCodes], rfl⟩
  · rw [if_neg c1]
    by_cases c2 : m.data = none ∧ m.dataLen > 0
    · rw [if_pos c2]
      exact Or.inr ⟨_, by simp [errorCodes], rfl⟩
    · rw [if_neg c2, if_neg (by omega : ¬ m.dataLen > g.WDP_MAX_DATA_SIZE)]
      simp only [hmod]
      by_cases c4 : (E.malloc s (WDP_HEADER_SIZE + m.dataLen)).1 = false
      · rw [if_pos c4]
        exact Or.inr ⟨_, by simp [errorCodes], rfl⟩
      · rw [if_neg c4]
        have hfill := fillSendBuffer_some m c2 hdata
        have hbl := fillSendBuffer_length _ _ _ hfill
        simp only [hfill, SendOutcome.after]
        obtain ⟨h1, -⟩ := wdpSendLoop_contract E hE _ (WDP_HEADER_SIZE + m.dataLen) hbl
          (by omega) fuel 0 (E.malloc s (WDP_HEADER_SIZE + m.dataLen)).2 (Nat.zero_le _)
        rcases h1 with ⟨-, j2⟩ | ⟨j1, j2, -⟩ | ⟨e, he, j1, -⟩
        · omega
        · rw [toInt32_of_lt _ (by omega)] at j1
          exact Or.inl ⟨j1, j2⟩
        · refine Or.inr ⟨e, ?_, j1⟩
          simp only [sendLoopErrors, List.mem_cons, List.mem_singleton, List.not_mem_nil,
            or_false] at he
          rcases he with he | he | he <;> subst he <;> simp [errorCodes]

/-- Where the total fits an `int`, a send loop that returns a negative value
has got fewer bytes accepted than were still to send. -/
theorem wdpSendLoop_negative_short {σ : Type} (E : Env σ) (hE : SendContract E)
    (buf : List Byte) (totalLen : Nat) (hlen : buf.length = totalLen)
    (h31 : totalLen < 2147483648) :
    ∀ (fuel totalSent : Nat) (s : σ) (v : Int), totalSent ≤ totalLen →
      (wdpSendLoop E buf totalLen fuel totalSent s).status = .returned v → v < 0 →
      (sentBytes (wdpSendLoop E buf totalLen fuel totalSent s).trace).length
        < totalLen - totalSent := by
  intro fuel
  induction fuel with
  | zero =>
    intro totalSent s v h1 hst hv
    unfold wdpSendLoop at hst
    by_cases hlt : totalSent < totalLen
    · rw [if_pos hlt] at hst
      cases hst
    · rw [if_neg hlt] at hst
      simp only [Status.returned.injEq] at hst
      rw [toInt32_of_lt _ (by omega)] at hst
      omega
  | succ fuel ih =>
    intro totalSent s v h1 hst hv
    unfold wdpSendLoop at hst ⊢
    by_cases hlt : totalSent < totalLen
    · simp only [if_pos hlt] at hst ⊢
      have hoff : List.take (totalLen - totalSent) (List.drop totalSent buf)
          = List.drop totalSent buf := by
        apply List.take_of_length_le
        simp only [List.length_drop]; omega
      rw [hoff] at hst ⊢
      have hc := hE s (List.drop totalSent buf)
      simp only [List.length_drop, hlen] at hc
      generalize E.send s (List.drop totalSent buf) = reply at hc hst
      have hend : (sentBytes [Event.send (List.drop totalSent buf) reply.1.1 reply.1.2,
          Event.free]).length < totalLen - totalSent →
          ∀ st : Status, (sentBytes [Event.send (List.drop totalSent buf) reply.1.1 reply.1.2,
          Event.free]).length < totalLen - totalSent := fun h _ => h
      by_cases e1 : reply.1.1 = WDP_SOCKET_ERROR
      · have hzero : (sentBytes [Event.send (List.drop totalSent buf) reply.1.1 reply.1.2,
            Event.free]).length = 0 := by
          rw [sentBytes_send, e1]
          rfl
        simp only [if_pos e1]
        by_cases e5 : isConnectionError E.platform reply.1.2 = true
        · rw [if_pos e5]
          show (sentBytes [Event.send (List.drop totalSent buf) reply.1.1 reply.1.2,
            Event.free]).length < totalLen - totalSent
          omega
        · rw [if_neg e5]
          show (sentBytes [Event.send (List.drop totalSent buf) reply.1.1 reply.1.2,
            Event.free]).length < totalLen - totalSent
          omega
      · simp only [if_neg e1] at hst ⊢
        by_cases e2 : reply.1.1 = 0
        · have hzero : (sentBytes [Event.send (List.drop totalSent buf) reply.1.1 reply.1.2,
              Event.free]).length = 0 := by
            rw [sentBytes_send, e2]
            rfl
          simp only [if_pos e2]
          show (sentBytes [Event.send (List.drop totalSent buf) reply.1.1 reply.1.2,
            Event.free]).length < totalLen - totalSent
          omega
        · simp only [if_neg e2] at hst ⊢
          have hc3 : 1 ≤ reply.1.1 ∧ reply.1.1 ≤ ((totalLen - totalSent : Nat) : Int) := by
            rcases hc with hc | hc | hc
            · exact absurd hc e1
            · exact absurd hc e2
            · exact hc
          obtain ⟨k, hk⟩ := Int.eq_ofNat_of_zero_le (by omega : 0 ≤ reply.1.1)
          have hk1 : 1 ≤ k := by omega
          have hk2 : k ≤ totalLen - totalSent := by omega
          simp only [SendOutcome.after, List.cons_append, List.nil_append] at hst ⊢
          rw [hk, toU32_add totalSent k (by omega)] at hst ⊢
          have hi := ih (totalSent + k) reply.2 v (by omega) hst hv
          have hpos : (0 : Int) < (k : Int) := by omega
          rw [sentBytes_send, if_pos hpos, Int.toNat_ofNat, List.length_append,
            List.length_take, List.length_drop, hlen]
          omega
    · rw [if_neg hlt] at hst
      simp only [Status.returned.injEq] at hst
      rw [toInt32_of_lt _ (by omega)] at hst
      omega

/-- Within the safe range, a negative result of `wdpSend` means that fewer than
`10 + dataLen` bytes were accepted by the stream. -/
theorem wdpSend_negative_incomplete {σ : Type} (E : Env σ) (hE : SendContract E) (g : Globals)
    (fuel : Nat) (socket : Int) (m : WDP) (s : σ)
    (hmax : g.WDP_MAX_DATA_SIZE ≤ 2147483637) (hlen : m.dataLen ≤ g.WDP_MAX_DATA_SIZE)
    (v : Int) (hst : (wdpSend E g fuel socket m s).status = .returned v) (hv : v < 0) :
    (sentBytes (wdpSend E g fuel socket m s).trace).length < WDP_HEADER_SIZE + m.dataLen := by
  have h10 : WDP_HEADER_SIZE = 10 := rfl
  have hmod : (WDP_HEADER_SIZE + m.dataLen) % 4294967296 = WDP_HEADER_SIZE + m.dataLen :=
    Nat.mod_eq_of_lt (by omega)
  unfold wdpSend at hst ⊢
  by_cases c1 : socket = E.platform.WDP_INVALID_SOCKET
  · rw [if_pos c1]
    show (sentBytes []).length < _
    simp only [sentBytes, List.length_nil]; omega
  · rw [if_neg c1] at hst ⊢
    by_cases c2 : m.data = none ∧ m.dataLen > 0
    · rw [if_pos c2]
      show (sentBytes []).length < _
      simp only [sentBytes, List.length_nil]; omega
    · rw [if_neg c2, if_neg (by omega : ¬ m.dataLen > g.WDP_MAX_DATA_SIZE)] at hst ⊢
      simp only [hmod] at hst ⊢
      by_cases c4 : (E.malloc s (WDP_HEADER_SIZE + m.dataLen)).1 = false
      · rw [if_pos c4]
        show (sentBytes [Event.malloc _ false]).length < _
        simp only [sentBytes, List.length_nil]; omega
      · rw [if_neg c4] at hst ⊢
        cases hf : fillSendBuffer (WDP_HEADER_SIZE + m.dataLen) m with
        | none =>
          simp only [hf] at hst
          cases hst
        | some b =>
          simp only [hf, SendOutcome.after, List.singleton_append] at hst ⊢
          have := wdpSendLoop_negative_short E hE b (WDP_HEADER_SIZE + m.dataLen)
            (fillSendBuffer_length _ _ _ hf) (by omega) fuel 0
            (E.malloc s (WDP_HEADER_SIZE + m.dataLen)).2 v (Nat.zero_le _) hst hv
          rw [Nat.sub_zero] at this
          exact this

/-- C17: if `MaxDataSize ≤ 2^31 - 11`, then for every payload with
`dataLen ≤ MaxDataSize` the 32-bit value of `10 + dataLen` is `10 + dataLen`,
the header and payload copies stay inside the allocated buffer of that size,
and (each write returning an error, 0, or a count up to the bytes offered) the
result of `wdpSend` is either exactly `10 + dataLen`, strictly positive, or
one of the defined negative error codes; the result is negative exactly when
the send failed: a non-negative result comes with the whole frame accepted by
the stream, a negative one with fewer than `10 + dataLen` bytes accepted, so
the result is non-negative if and only if the bytes accepted are the frame. -/
theorem wdpSend_safe_range {σ : Type} (E : Env σ) (hE : SendContract E) (g : Globals)
    (fuel : Nat) (socket : Int) (m : WDP) (s : σ)
    (hmax : g.WDP_MAX_DATA_SIZE ≤ 2147483637) (hlen : m.dataLen ≤ g.WDP_MAX_DATA_SIZE)
    (hdata : ∀ d, m.data = some d → m.dataLen ≤ d.length)
    (hfuel : WDP_HEADER_SIZE + m.dataLen ≤ fuel) :
    (WDP_HEADER_SIZE + m.dataLen) % 4294967296 = WDP_HEADER_SIZE + m.dataLen ∧
    (¬ (m.data = none ∧ m.dataLen > 0) →
      ∃ b, fillSendBuffer ((WDP_HEADER_SIZE + m.dataLen) % 4294967296) m = some b ∧
        b.length = WDP_HEADER_SIZE + m.dataLen) ∧
    ∃ v, (wdpSend E g fuel socket m s).status = .returned v ∧
      ((v = ((10 + m.dataLen : Nat) : Int) ∧ 0 < v) ∨ v ∈ errorCodes) ∧
      (v < 0 ↔ v ∈ errorCodes) ∧
      (0 ≤ v → sentBytes (wdpSend E g fuel socket m s).trace
        = versionTag ++ htonl m.dataLen ++ (m.data.getD []).take m.dataLen) ∧
      (v < 0 → (sentBytes (wdpSend E g fuel socket m s).trace).length < 10 + m.dataLen) ∧
      (v < 0 ↔ sentBytes (wdpSend E g fuel socket m s).trace
        ≠ versionTag ++ htonl m.dataLen ++ (m.data.getD []).take m.dataLen) := by
  have h10 : WDP_HEADER_SIZE = 10 := rfl
  have hmod : (WDP_HEADER_SIZE + m.dataLen) % 4294967296 = WDP_HEADER_SIZE + m.dataLen :=
    Nat.mod_eq_of_lt (by omega)
  refine ⟨hmod, fun hnull => ?_, ?_⟩
  · rw [hmod]
    have hfill := fillSendBuffer_some m hnull hdata
    exact ⟨_, hfill, fillSendBuffer_length _ _ _ hfill⟩
  · rcases wdpSend_outcome_in_safe_range E hE g fuel socket m s hmax hlen hdata hfuel with
      ⟨j1, j2⟩ | ⟨e, he, j1⟩
    · refine ⟨_, j1, Or.inl ⟨by rw [h10], by omega⟩, ⟨fun h => ?_, fun h => ?_⟩, fun _ => j2,
        fun h => ?_, ⟨fun h => ?_, fun h => absurd j2 h⟩⟩
      · omega
      · have := errorCodes_neg _ h
        omega
      · omega
      · omega
    · have hneg := errorCodes_neg e he
      have hshort := wdpSend_negative_incomplete E hE g fuel socket m s hmax hlen e j1 hneg
      rw [h10] at hshort
      have hframe : 10 ≤ (versionTag ++ htonl m.dataLen
          ++ (m.data.getD []).take m.dataLen).length := by
        simp only [List.length_append, versionTag_length, htonl_length]
        omega
      have hne : sentBytes (wdpSend E g fuel socket m s).trace
          ≠ versionTag ++ htonl m.dataLen ++ (m.data.getD []).take m.dataLen := by
        intro heq
        by_cases hnull : m.data = none ∧ m.dataLen > 0
        · have hz : (sentBytes (wdpSend E g fuel socket m s).trace).length = 0 := by
            unfold wdpSend
            by_cases c1 : socket = E.platform.WDP_INVALID_SOCKET
            · rw [if_pos c1]; rfl
            · rw [if_neg c1, if_pos hnull]; rfl
          rw [heq] at hz
          omega
        · have hfill := fillSendBuffer_some m hnull hdata
          have hl := fillSendBuffer_length _ _ _ hfill
          rw [heq, hl, h10] at hshort
          omega
      exact ⟨e, j1, Or.inr he, ⟨fun _ => he, fun _ => hneg⟩, fun h => by omega,
        fun _ => hshort, ⟨fun _ => hne, fun _ => hneg⟩⟩

theorem breakingEnv_sendContract : SendContract breakingEnv := by
  intro s offered
  obtain ⟨q, picks⟩ := s
  cases picks with
  | nil => exact Or.inl rfl
  | cons p ps =>
    have h2 := Link.chunk_le ⟨q, p :: ps⟩ offered.length
    show (((Link.mk q (p :: ps)).chunk offered.length : Nat) : Int) = -1 ∨
      (((Link.mk q (p :: ps)).chunk offered.length : Nat) : Int) = 0 ∨
      (1 ≤ (((Link.mk q (p :: ps)).chunk offered.length : Nat) : Int) ∧
        (((Link.mk q (p :: ps)).chunk offered.length : Nat) : Int) ≤ (offered.length : Int))
    omega

/-- C17, at concrete inputs: the default `MaxDataSize` (1 MiB) and a 3-byte
payload; on the link the whole frame is accepted and the result is 13; on a
stream that takes 4 bytes and then fails with `EPIPE` the result is `-201`
with 4 of the 13 bytes accepted. -/
theorem wdpSend_safe_range_witness :
    ((10 + 3) % 4294967296 = 10 + 3 ∧
      (¬ ((wdpPack (some [1, 2, 3]) 3).data = none ∧ (wdpPack (some [1, 2, 3]) 3).dataLen > 0) →
        ∃ b, fillSendBuffer ((WDP_HEADER_SIZE + 3) % 4294967296) (wdpPack (some [1, 2, 3]) 3)
          = some b ∧ b.length = WDP_HEADER_SIZE + 3) ∧
      ∃ v, (wdpSend linkEnv Globals.init 20 3 (wdpPack (some [1, 2, 3]) 3) ⟨[], [4]⟩).status
          = .returned v ∧
        ((v = ((10 + 3 : Nat) : Int) ∧ 0 < v) ∨ v ∈ errorCodes) ∧
        (v < 0 ↔ v ∈ errorCodes) ∧
        (0 ≤ v → sentBytes (wdpSend linkEnv Globals.init 20 3 (wdpPack (some [1, 2, 3]) 3)
          ⟨[], [4]⟩).trace = versionTag ++ htonl 3 ++ [1, 2, 3]) ∧
        (v < 0 → (sentBytes (wdpSend linkEnv Globals.init 20 3 (wdpPack (some [1, 2, 3]) 3)
          ⟨[], [4]⟩).trace).length < 10 + 3) ∧
        (v < 0 ↔ sentBytes (wdpSend linkEnv Globals.init 20 3 (wdpPack (some [1, 2, 3]) 3)
          ⟨[], [4]⟩).trace ≠ versionTag ++ htonl 3 ++ [1, 2, 3])) ∧
    (∃ v, (wdpSend breakingEnv Globals.init 20 3 (wdpPack (some [1, 2, 3]) 3) ⟨[], [4]⟩).status
        = .returned v ∧
      ((v = ((10 + 3 : Nat) : Int) ∧ 0 < v) ∨ v ∈ errorCodes) ∧
      (v < 0 ↔ v ∈ errorCodes) ∧
      (0 ≤ v → sentBytes (wdpSend breakingEnv Globals.init 20 3 (wdpPack (some [1, 2, 3]) 3)
        ⟨[], [4]⟩).trace = versionTag ++ htonl 3 ++ [1, 2, 3]) ∧
      (v < 0 → (sentBytes (wdpSend breakingEnv Globals.init 20 3 (wdpPack (some [1, 2, 3]) 3)
        ⟨[], [4]⟩).trace).length < 10 + 3) ∧
      (v < 0 ↔ sentBytes (wdpSend breakingEnv Globals.init 20 3 (wdpPack (some [1, 2, 3]) 3)
        ⟨[], [4]⟩).trace ≠ versionTag ++ htonl 3 ++ [1, 2, 3])) ∧
    (wdpSend linkEnv Globals.init 20 3 (wdpPack (some [1, 2, 3]) 3) ⟨[], [4]⟩).status
      = .returned 13 ∧
    (wdpSend breakingEnv Globals.init 20 3 (wdpPack (some [1, 2, 3]) 3) ⟨[], [4]⟩).status
      = .returned (-201) ∧
    sentBytes (wdpSend breakingEnv Globals.init 20 3 (wdpPack (some [1, 2, 3]) 3)
      ⟨[], [4]⟩).trace = [87, 68, 80, 48] :=
  ⟨wdpSend_safe_range linkEnv linkEnv_sendContract Globals.init 20 3
      (wdpPack (some [1, 2, 3]) 3) ⟨[], [4]⟩ (by decide) (by decide)
      (by intro d hd; cases hd; decide) (by decide),
   (wdpSend_safe_range breakingEnv breakingEnv_sendContract Globals.init 20 3
      (wdpPack (some [1, 2, 3]) 3) ⟨[], [4]⟩ (by decide) (by decide)
      (by intro d hd; cases hd; decide) (by decide)).2.2,
   by decide, by decide, by decide⟩

/-! ## Termination of the exact-transfer loops -/

/-- Under the contract of the read call the loop of `wdpRecvExact` ends,
whatever the fuel left, in one of three ways: out of fuel with bytes still
missing, with `length` converted to `int`, or with one of its five error
codes; it issues at most one wait per missing byte and never more reads than
waits. -/
theorem wdpRecvExactLoop_bounded {σ : Type} (E : Env σ) (hE : RecvContract E)
    (length timeoutMs : Nat) (h32 : length < 4294967296) :
    ∀ (fuel totalRecv : Nat) (buf : List Byte) (s : σ),
      totalRecv ≤ length → length ≤ buf.length →
      (((wdpRecvExactLoop E length timeoutMs fuel totalRecv buf s).status = .running ∧
          fuel < length - totalRecv) ∨
        (wdpRecvExactLoop E length timeoutMs fuel totalRecv buf s).status
          = .returned (toInt32 length) ∨
        (∃ e ∈ exactReadErrors,
          (wdpRecvExactLoop E length timeoutMs fuel totalRecv buf s).status = .returned e)) ∧
      selectCalls (wdpRecvExactLoop E length timeoutMs fuel totalRecv buf s).trace
        ≤ length - totalRecv ∧
      recvCalls (wdpRecvExactLoop E length timeoutMs fuel totalRecv buf s).trace
        ≤ selectCalls (wdpRecvExactLoop E length timeoutMs fuel totalRecv buf s).trace := by
  intro fuel
  induction fuel with
  | zero =>
    intro totalRecv buf s h1 hb
    unfold wdpRecvExactLoop
    by_cases hlt : totalRecv < length
    · simp only [if_pos hlt]
      exact ⟨Or.inl ⟨trivial, by omega⟩, by simp [selectCalls], by simp [recvCalls]⟩
    · have he : totalRecv = length := by omega
      subst he
      simp [selectCalls, recvCalls]
  | succ fuel ih =>
    intro totalRecv buf s h1 hb
    unfold wdpRecvExactLoop
    by_cases hlt : totalRecv < length
    · simp only [if_pos hlt]
      generalize E.select s (timeoutPtr timeoutMs) = w
      have hsel1 : selectCalls [Event.select (timeoutPtr timeoutMs) w.1] ≤ length - totalRecv := by
        rw [selectCalls_cons_select]
        simp only [selectCalls, List.filter_nil, List.length_nil]
        omega
      have hsel2 : recvCalls [Event.select (timeoutPtr timeoutMs) w.1]
          ≤ selectCalls [Event.select (timeoutPtr timeoutMs) w.1] := by
        rw [recvCalls_cons_select]; simp [recvCalls]
      by_cases e1 : w.1 = WDP_SOCKET_ERROR
      · simp only [if_pos e1]
        exact ⟨Or.inr (Or.inr ⟨_, by simp [exactReadErrors], rfl⟩), hsel1, hsel2⟩
      · simp only [if_neg e1]
        by_cases e2 : w.1 = 0
        · simp only [if_pos e2]
          exact ⟨Or.inr (Or.inr ⟨_, by simp [exactReadErrors], rfl⟩), hsel1, hsel2⟩
        · simp only [if_neg e2]
          have hc := hE w.2 (length - totalRecv)
          generalize E.recv w.2 (length - totalRecv) = reply at hc
          have hcnt1 : selectCalls [Event.select (timeoutPtr timeoutMs) w.1,
              Event.recv (length - totalRecv) reply.1.1 reply.1.2.1 reply.1.2.2]
              ≤ length - totalRecv := by
            rw [selectCalls_cons_select, selectCalls_cons_recv]
            simp only [selectCalls, List.filter_nil, List.length_nil]
            omega
          have hcnt2 : recvCalls [Event.select (timeoutPtr timeoutMs) w.1,
              Event.recv (length - totalRecv) reply.1.1 reply.1.2.1 reply.1.2.2]
              ≤ selectCalls [Event.select (timeoutPtr timeoutMs) w.1,
              Event.recv (length - totalRecv) reply.1.1 reply.1.2.1 reply.1.2.2] := by
            rw [recvCalls_cons_select, recvCalls_cons_recv, selectCalls_cons_select,
              selectCalls_cons_recv]
            simp [recvCalls, selectCalls]
          by_cases e3 : reply.1.1 = WDP_SOCKET_ERROR
          · simp only [if_pos e3]
            by_cases e5 : isConnectionError E.platform reply.1.2.1 = true
            · rw [if_pos e5]
              exact ⟨Or.inr (Or.inr ⟨_, by simp [exactReadErrors], rfl⟩), hcnt1, hcnt2⟩
            · rw [if_neg e5]
              exact ⟨Or.inr (Or.inr ⟨_, by simp [exactReadErrors], rfl⟩), hcnt1, hcnt2⟩
          · simp only [if_neg e3]
            by_cases e4 : reply.1.1 = 0
            · simp only [if_pos e4]
              exact ⟨Or.inr (Or.inr ⟨_, by simp [exactReadErrors], rfl⟩), hcnt1, hcnt2⟩
            · simp only [if_neg e4]
              have hc3 : 1 ≤ reply.1.1 ∧ reply.1.1 ≤ ((length - totalRecv : Nat) : Int) ∧
                  (reply.1.2.2.length : Int) = reply.1.1 := by
                rcases hc with hc | hc | hc
                · exact absurd hc e3
                · exact absurd hc e4
                · exact hc
              obtain ⟨c1, c2, c3⟩ := hc3
              obtain ⟨buf1, m1, m2, -⟩ := memcpy_store buf reply.1.2.2 totalRecv (by omega)
              rw [m1]
              simp only [ExactOutcome.after, List.cons_append, List.nil_append]
              have hn : reply.1.1 = ((reply.1.2.2.length : Nat) : Int) := c3.symm
              rw [hn, toU32_add totalRecv reply.1.2.2.length (by omega)]
              obtain ⟨i1, i2, i3⟩ := ih (totalRecv + reply.1.2.2.length) buf1 reply.2 (by omega)
                (by omega)
              refine ⟨?_, ?_, ?_⟩
              · rcases i1 with ⟨j1, j2⟩ | j1 | j1
                · exact Or.inl ⟨j1, by omega⟩
                · exact Or.inr (Or.inl j1)
                · exact Or.inr (Or.inr j1)
              · rw [selectCalls_cons_select, selectCalls_cons_recv]; omega
              · rw [recvCalls_cons_select, recvCalls_cons_recv, selectCalls_cons_select,
                  selectCalls_cons_recv]
                omega
    · have he : totalRecv = length := by omega
      subst he
      simp [selectCalls, recvCalls]

theorem sendCalls_cons_malloc (n : Nat) (ok : Bool) (tr : List Event) :
    sendCalls (.malloc n ok :: tr) = sendCalls tr := by
  simp [sendCalls, List.filter_cons]

/-- Under the contract of the write call, with fuel for every byte of the
frame, `wdpSend` does not run out of fuel and issues at most `10 + dataLen`
write calls. -/
theorem wdpSend_terminates {σ : Type} (E : Env σ) (hE : SendContract E) (g : Globals)
    (fuel : Nat) (socket : Int) (m : WDP) (s : σ)
    (hfuel : (WDP_HEADER_SIZE + m.dataLen) % 4294967296 ≤ fuel) :
    (wdpSend E g fuel socket m s).status ≠ .running ∧
    sendCalls (wdpSend E g fuel socket m s).trace ≤ 10 + m.dataLen := by
  have h10 : WDP_HEADER_SIZE = 10 := rfl
  have hle : (WDP_HEADER_SIZE + m.dataLen) % 4294967296 ≤ 10 + m.dataLen := by
    rw [h10]; exact Nat.mod_le _ _
  have h32 : (WDP_HEADER_SIZE + m.dataLen) % 4294967296 < 4294967296 :=
    Nat.mod_lt _ (by decide)
  unfold wdpSend
  by_cases c1 : socket = E.platform.WDP_INVALID_SOCKET
  · rw [if_pos c1]; simp [sendCalls]
  · rw [if_neg c1]
    by_cases c2 : m.data = none ∧ m.dataLen > 0
    · rw [if_pos c2]; simp [sendCalls]
    · rw [if_neg c2]
      by_cases c3 : m.dataLen > g.WDP_MAX_DATA_SIZE
      · rw [if_pos c3]; simp [sendCalls]
      · rw [if_neg c3]
        simp only
        by_cases c4 : (E.malloc s ((WDP_HEADER_SIZE + m.dataLen) % 4294967296)).1 = false
        · rw [if_pos c4]; simp [sendCalls]
        · rw [if_neg c4]
          cases hf : fillSendBuffer ((WDP_HEADER_SIZE + m.dataLen) % 4294967296) m with
          | none => simp [sendCalls]
          | some b =>
            simp only [SendOutcome.after, List.singleton_append]
            obtain ⟨h1, h2⟩ := wdpSendLoop_contract E hE b _ (fillSendBuffer_length _ _ _ hf)
              h32 fuel 0 (E.malloc s ((WDP_HEADER_SIZE + m.dataLen) % 4294967296)).2
              (Nat.zero_le _)
            refine ⟨?_, ?_⟩
            · rcases h1 with ⟨-, j2⟩ | ⟨j1, -⟩ | ⟨e, -, j1, -⟩
              · omega
              · rw [j1]; exact fun h => Status.noConfusion h
              · rw [j1]; exact fun h => Status.noConfusion h
            · rw [sendCalls_cons_malloc]; omega

/-- C18: when every write and read call returns an error, 0, or between 1 and
the requested count, the send loop of `wdpSend` issues at most `10 + dataLen`
write calls and the loop of `wdpRecvExact` at most `length` waits and reads,
because the transferred count strictly increases on every iteration that does
not return and never exceeds the total; with fuel for every byte neither loop
is still running at the end; and with length 0 `wdpRecvExact` returns 0
without any wait or read. -/
theorem exact_transfer_loops_terminate {σ : Type} (E : Env σ) (hS : SendContract E)
    (hR : RecvContract E) :
    (∀ (g : Globals) (fuel : Nat) (socket : Int) (m : WDP) (s : σ),
      (WDP_HEADER_SIZE + m.dataLen) % 4294967296 ≤ fuel →
      (wdpSend E g fuel socket m s).status ≠ .running ∧
      sendCalls (wdpSend E g fuel socket m s).trace ≤ 10 + m.dataLen) ∧
    (∀ (fuel : Nat) (buf : List Byte) (length timeoutMs : Nat) (s : σ),
      length < 4294967296 → length ≤ buf.length → length ≤ fuel →
      (∃ v, (wdpRecvExact E fuel (some buf) length timeoutMs s).status = .returned v) ∧
      selectCalls (wdpRecvExact E fuel (some buf) length timeoutMs s).trace ≤ length ∧
      recvCalls (wdpRecvExact E fuel (some buf) length timeoutMs s).trace ≤ length) ∧
    (∀ (total count : Nat) (status : Int),
      count < total → total < 4294967296 → 1 ≤ status → status ≤ ((total - count : Nat) : Int) →
      count < toU32 (count + status) ∧ toU32 (count + status) ≤ total) ∧
    (∀ (fuel : Nat) (buf : List Byte) (timeoutMs : Nat) (s : σ),
      wdpRecvExact E fuel (some buf) 0 timeoutMs s = ⟨.returned 0, some buf, s, []⟩) := by
  refine ⟨fun g fuel socket m s hf => wdpSend_terminates E hS g fuel socket m s hf,
    fun fuel buf length timeoutMs s h32 hb hf => ?_, fun total count status h1 h2 h3 h4 => ?_,
    fun fuel buf timeoutMs s => ?_⟩
  · obtain ⟨h1, h2, h3⟩ := wdpRecvExactLoop_bounded E hR length timeoutMs h32 fuel 0 buf s
      (Nat.zero_le _) hb
    have hx : wdpRecvExact E fuel (some buf) length timeoutMs s
        = wdpRecvExactLoop E length timeoutMs fuel 0 buf s := rfl
    rw [hx]
    refine ⟨?_, by omega, by omega⟩
    rcases h1 with ⟨-, j2⟩ | j1 | ⟨e, -, j1⟩
    · omega
    · exact ⟨_, j1⟩
    · exact ⟨_, j1⟩
  · unfold toU32
    omega
  · cases fuel <;> simp [wdpRecvExact, wdpRecvExactLoop, toInt32]

/-- C18, on the link stream: a 3-byte payload sent with the stream taking 4
bytes first (2 write calls, at most 13), 5 bytes read in chunks of 2, 2 and 1
(3 waits, at most 5), and a read of length 0. -/
theorem exact_transfer_loops_terminate_witness :
    ((wdpSend linkEnv Globals.init 13 3 (wdpPack (some [1, 2, 3]) 3) ⟨[], [4]⟩).status
        ≠ .running ∧
      sendCalls (wdpSend linkEnv Globals.init 13 3 (wdpPack (some [1, 2, 3]) 3) ⟨[], [4]⟩).trace
        ≤ 10 + 3) ∧
    ((∃ v, (wdpRecvExact linkEnv 5 (some [0, 0, 0, 0, 0]) 5 0
        ⟨[1, 2, 3, 4, 5, 6], [2, 2]⟩).status = .returned v) ∧
      selectCalls (wdpRecvExact linkEnv 5 (some [0, 0, 0, 0, 0]) 5 0
        ⟨[1, 2, 3, 4, 5, 6], [2, 2]⟩).trace ≤ 5 ∧
      recvCalls (wdpRecvExact linkEnv 5 (some [0, 0, 0, 0, 0]) 5 0
        ⟨[1, 2, 3, 4, 5, 6], [2, 2]⟩).trace ≤ 5) ∧
    wdpRecvExact linkEnv 0 (some [9]) 0 250 ⟨[1], []⟩ = ⟨.returned 0, some [9], ⟨[1], []⟩, []⟩ ∧
    sendCalls (wdpSend linkEnv Globals.init 13 3 (wdpPack (some [1, 2, 3]) 3) ⟨[], [4]⟩).trace
      = 2 ∧
    selectCalls (wdpRecvExact linkEnv 5 (some [0, 0, 0, 0, 0]) 5 0
      ⟨[1, 2, 3, 4, 5, 6], [2, 2]⟩).trace = 3 :=
  ⟨(exact_transfer_loops_terminate linkEnv linkEnv_sendContract linkEnv_recvContract).1
      Globals.init 13 3 (wdpPack (some [1, 2, 3]) 3) ⟨[], [4]⟩ (by decide),
   (exact_transfer_loops_terminate linkEnv linkEnv_sendContract linkEnv_recvContract).2.1
      5 [0, 0, 0, 0, 0] 5 0 ⟨[1, 2, 3, 4, 5, 6], [2, 2]⟩ (by decide) (by decide) (by decide),
   (exact_transfer_loops_terminate linkEnv linkEnv_sendContract linkEnv_recvContract).2.2.2
      0 [9] 250 ⟨[1], []⟩,
   by decide, by decide⟩

/-! ## The per-wait timeout -/

/-- The `timeval` of a wait: none for `timeoutMs == 0`; otherwise seconds and
microseconds that add up to `timeoutMs` milliseconds, microseconds below one
million. -/
theorem timeoutPtr_spec (timeoutMs : Nat) :
    (timeoutMs = 0 → timeoutPtr timeoutMs = none) ∧
    (0 < timeoutMs →
      timeoutPtr timeoutMs = some (timeoutMs / 1000, timeoutMs % 1000 * 1000) ∧
      timeoutMs / 1000 * 1000000 + timeoutMs % 1000 * 1000 = timeoutMs * 1000 ∧
      timeoutMs % 1000 * 1000 < 1000000) := by
  refine ⟨fun h => ?_, fun h => ⟨?_, ?_, ?_⟩⟩
  · subst h; rfl
  · unfold timeoutPtr
    rw [if_pos h]
  · omega
  · omega

/-- Every wait of the exact-read loop is armed with the `timeval` derived from
the full `timeoutMs`, whatever came before it. -/
theorem wdpRecvExactLoop_waits_armed {σ : Type} (E : Env σ) (length timeoutMs : Nat) :
    ∀ (fuel totalRecv : Nat) (buf : List Byte) (s : σ) (t : Option (Nat × Nat)) (v : Int),
      Event.select t v ∈ (wdpRecvExactLoop E length timeoutMs fuel totalRecv buf s).trace →
      t = timeoutPtr timeoutMs := by
  intro fuel
  induction fuel with
  | zero =>
    intro totalRecv buf s t v h
    unfold wdpRecvExactLoop at h
    split at h <;> simp at h
  | succ fuel ih =>
    intro totalRecv buf s t v h
    unfold wdpRecvExactLoop at h
    by_cases hlt : totalRecv < length
    · simp only [if_pos hlt] at h
      generalize E.select s (timeoutPtr timeoutMs) = w at h
      have first : ∀ tr : List Event,
          Event.select t v ∈ Event.select (timeoutPtr timeoutMs) w.1 :: tr →
          (Event.select t v ∈ tr → t = timeoutPtr timeoutMs) → t = timeoutPtr timeoutMs := by
        intro tr hm hrest
        rcases List.mem_cons.1 hm with hm | hm
        · exact (Event.select.inj hm).1
        · exact hrest hm
      by_cases e1 : w.1 = WDP_SOCKET_ERROR
      · simp only [if_pos e1] at h
        exact first [] h (fun h2 => by cases h2)
      · simp only [if_neg e1] at h
        by_cases e2 : w.1 = 0
        · simp only [if_pos e2] at h
          exact first [] h (fun h2 => by cases h2)
        · simp only [if_neg e2] at h
          generalize E.recv w.2 (length - totalRecv) = reply at h
          have second : ∀ tr : List Event,
              Event.select t v ∈ Event.recv (length - totalRecv) reply.1.1 reply.1.2.1
                reply.1.2.2 :: tr →
              (Event.select t v ∈ tr → t = timeoutPtr timeoutMs) → t = timeoutPtr timeoutMs := by
            intro tr hm hrest
            rcases List.mem_cons.1 hm with hm | hm
            · cases hm
            · exact hrest hm
          by_cases e3 : reply.1.1 = WDP_SOCKET_ERROR
          · simp only [if_pos e3] at h
            by_cases e5 : isConnectionError E.platform reply.1.2.1 = true
            · rw [if_pos e5] at h
              exact first _ h (fun h2 => second [] h2 (fun h3 => by cases h3))
            · rw [if_neg e5] at h
              exact first _ h (fun h2 => second [] h2 (fun h3 => by cases h3))
          · simp only [if_neg e3] at h
            by_cases e4 : reply.1.1 = 0
            · simp only [if_pos e4] at h
              exact first _ h (fun h2 => second [] h2 (fun h3 => by cases h3))
            · simp only [if_neg e4] at h
              cases hm : memcpy buf totalRecv reply.1.2.2 reply.1.2.2.length with
              | none =>
                simp only [hm] at h
                exact first _ h (fun h2 => second [] h2 (fun h3 => by cases h3))
              | some buf1 =>
                simp only [hm, ExactOutcome.after, List.cons_append, List.nil_append] at h
                exact first _ h (fun h2 => second _ h2 (fun h3 => ih _ _ _ t v h3))
    · simp [hlt] at h

/-- On a stream where every wait reports ready and every read delivers at least
one byte, the exact-read loop reads all missing bytes: it returns `length`
converted to `int` after at most one wait per missing byte. -/
theorem wdpRecvExactLoop_trickles {σ : Type} (E : Env σ) (hE : Trickles E)
    (length timeoutMs : Nat) (h32 : length < 4294967296) :
    ∀ (fuel totalRecv : Nat) (buf : List Byte) (s : σ),
      totalRecv ≤ length → length ≤ buf.length → length - totalRecv ≤ fuel →
      (wdpRecvExactLoop E length timeoutMs fuel totalRecv buf s).status
        = .returned (toInt32 length) ∧
      selectCalls (wdpRecvExactLoop E length timeoutMs fuel totalRecv buf s).trace
        ≤ length - totalRecv := by
  intro fuel
  induction fuel with
  | zero =>
    intro totalRecv buf s h1 hb h3
    have he : totalRecv = length := by omega
    subst he
    unfold wdpRecvExactLoop
    simp [selectCalls]
  | succ fuel ih =>
    intro totalRecv buf s h1 hb h3
    unfold wdpRecvExactLoop
    by_cases hlt : totalRecv < length
    · simp only [if_pos hlt]
      obtain ⟨w1, w2⟩ := hE.select_ready s (timeoutPtr timeoutMs)
      generalize E.select s (timeoutPtr timeoutMs) = w at w1 w2
      obtain ⟨c1, c2, c3⟩ := hE.recv_some w.2 (length - totalRecv) (by omega)
      generalize E.recv w.2 (length - totalRecv) = reply at c1 c2 c3
      have e1 : ¬ w.1 = WDP_SOCKET_ERROR := w1
      have e3 : ¬ reply.1.1 = WDP_SOCKET_ERROR := by
        simp only [WDP_SOCKET_ERROR]; omega
      have e4 : ¬ reply.1.1 = 0 := by omega
      simp only [if_neg e1, if_neg w2, if_neg e3, if_neg e4]
      obtain ⟨buf1, m1, m2, -⟩ := memcpy_store buf reply.1.2.2 totalRecv (by omega)
      rw [m1]
      simp only [ExactOutcome.after, List.cons_append, List.nil_append]
      have hn : reply.1.1 = ((reply.1.2.2.length : Nat) : Int) := c3.symm
      rw [hn, toU32_add totalRecv reply.1.2.2.length (by omega)]
      obtain ⟨i1, i2⟩ := ih (totalRecv + reply.1.2.2.length) buf1 reply.2 (by omega) (by omega)
        (by omega)
      refine ⟨i1, ?_⟩
      rw [selectCalls_cons_select, selectCalls_cons_recv]; omega
    · have he : totalRecv = length := by omega
      subst he
      simp [selectCalls]

theorem trickleEnv_trickles : Trickles trickleEnv where
  select_ready := fun _ _ => ⟨show (1 : Int) ≠ -1 by decide, show (1 : Int) ≠ 0 by decide⟩
  recv_some := by
    intro s requested h
    show (1 : Int) ≤ ((min 1 requested : Nat) : Int) ∧
      ((min 1 requested : Nat) : Int) ≤ (requested : Int) ∧
      (((List.replicate (min 1 requested) (Fin.ofNat s : Byte)).length : Nat) : Int)
        = ((min 1 requested : Nat) : Int)
    rw [List.length_replicate]
    omega

/-- Per-wait timeout: every wait of `wdpRecvExact` is armed with the bound
derived from the full `timeoutMs`, and where `length` fits an `int`, on a
stream where every wait reports ready and every read delivers at least one
byte, `wdpRecvExact` returns `length`, not `NetworkTimeout`, after at most
`length` waits. -/
theorem wdpRecvExact_per_wait_timeout {σ : Type} (E : Env σ) (fuel : Nat) (buf : List Byte)
    (length timeoutMs : Nat) (s : σ) :
    (∀ t v, Event.select t v ∈ (wdpRecvExact E fuel (some buf) length timeoutMs s).trace →
      t = timeoutPtr timeoutMs) ∧
    (Trickles E → length < 2147483648 → length ≤ buf.length → length ≤ fuel →
      (wdpRecvExact E fuel (some buf) length timeoutMs s).status = .returned (length : Int) ∧
      (wdpRecvExact E fuel (some buf) length timeoutMs s).status
        ≠ .returned WDP_ERR_NETWORK_TIMEOUT ∧
      selectCalls (wdpRecvExact E fuel (some buf) length timeoutMs s).trace ≤ length) := by
  have hx : wdpRecvExact E fuel (some buf) length timeoutMs s
      = wdpRecvExactLoop E length timeoutMs fuel 0 buf s := rfl
  rw [hx]
  refine ⟨fun t v h => wdpRecvExactLoop_waits_armed E length timeoutMs fuel 0 buf s t v h,
    fun hE h31 hb hf => ?_⟩
  obtain ⟨i1, i2⟩ := wdpRecvExactLoop_trickles E hE length timeoutMs (by omega) fuel 0 buf s
    (Nat.zero_le _) hb (by omega)
  rw [toInt32_of_lt _ h31] at i1
  refine ⟨i1, ?_, by omega⟩
  rw [i1]
  intro h
  simp only [Status.returned.injEq, WDP_ERR_NETWORK_TIMEOUT] at h
  omega

/-- C15, evaluated where the claim fails: asked for 4294967194 bytes from a
peer that delivers one byte per wait, every wait reporting ready,
`wdpRecvExact` reads all the bytes and returns `-102`, the value of
`NetworkTimeout`, although no wait expired. -/
theorem wdpRecvExact_trickle_returns_timeout_code :
    Trickles trickleEnv ∧
    (wdpRecvExact trickleEnv 4294967194 (some (List.replicate 4294967194 0)) 4294967194 250
      0).status = .returned WDP_ERR_NETWORK_TIMEOUT := by
  refine ⟨trickleEnv_trickles, ?_⟩
  obtain ⟨i1, -⟩ := wdpRecvExactLoop_trickles trickleEnv trickleEnv_trickles 4294967194 250
    (by decide) 4294967194 0 (List.replicate 4294967194 0) 0 (by decide)
    (by rw [List.length_replicate]) (by decide)
  exact i1

/-! ## The short-result checks of `wdpRecv` -/

theorem exactReadErrors_spec : ∀ e ∈ exactReadErrors,
    e < 0 ∧ e ≠ WDP_ERR_PROTOCOL_HEADER_INCOMPLETE ∧ e ≠ WDP_ERR_NETWORK_INCOMPLETE := by
  decide

/-- Under the contract of the read call an exact read of `length < 2^31` bytes
is still running, has returned `length`, or has returned one of its five error
codes. -/
theorem wdpRecvExact_status {σ : Type} (E : Env σ) (hE : RecvContract E) (fuel : Nat)
    (length timeoutMs : Nat) (s : σ) (h31 : length < 2147483648) :
    (wdpRecvExact E fuel (some (List.replicate length 0)) length timeoutMs s).status = .running ∨
    (wdpRecvExact E fuel (some (List.replicate length 0)) length timeoutMs s).status
      = .returned (length : Int) ∨
    (∃ e ∈ exactReadErrors,
      (wdpRecvExact E fuel (some (List.replicate length 0)) length timeoutMs s).status
        = .returned e) := by
  obtain ⟨h, -⟩ := wdpRecvExactLoop_bounded E hE length timeoutMs (by omega) fuel 0
    (List.replicate length 0) s (Nat.zero_le _) (by rw [List.length_replicate])
  rw [toInt32_of_lt _ h31] at h
  rcases h with ⟨h, -⟩ | h | h
  · exact Or.inl h
  · exact Or.inr (Or.inl h)
  · exact Or.inr (Or.inr h)

theorem wdpRecvPayload_never_short {σ : Type} (E : Env σ) (hE : RecvContract E) (fuel : Nat)
    (dataLen timeoutMs : Nat) (s : σ) (h31 : dataLen < 2147483648) :
    (wdpRecvPayload E fuel dataLen timeoutMs s).status
      ≠ .returned WDP_ERR_PROTOCOL_HEADER_INCOMPLETE ∧
    (wdpRecvPayload E fuel dataLen timeoutMs s).status
      ≠ .returned WDP_ERR_NETWORK_INCOMPLETE := by
  unfold wdpRecvPayload
  by_cases hm : (E.malloc s dataLen).1 = false
  · rw [if_pos hm]
    constructor <;> (show Status.returned _ ≠ Status.returned _; decide)
  · rw [if_neg hm]
    have hst := wdpRecvExact_status E hE fuel dataLen timeoutMs (E.malloc s dataLen).2 h31
    generalize wdpRecvExact E fuel (some (List.replicate dataLen 0)) dataLen timeoutMs
      (E.malloc s dataLen).2 = r at hst
    have hv : toInt32 dataLen = (dataLen : Int) := toInt32_of_lt _ h31
    rcases hst with h | h | ⟨e, he, h⟩
    · simp only [h]
      constructor <;> exact fun x => Status.noConfusion x
    · simp only [h, hv]
      rw [if_neg (by omega), if_neg (lt_irrefl _)]
      simp only [ne_eq, Status.returned.injEq, WDP_ERR_PROTOCOL_HEADER_INCOMPLETE,
        WDP_ERR_NETWORK_INCOMPLETE]
      constructor <;> omega
    · obtain ⟨n1, n2, n3⟩ := exactReadErrors_spec e he
      simp only [h]
      rw [if_pos n1]
      simp only [ne_eq, Status.returned.injEq]
      exact ⟨n2, n3⟩

/-- Short-result checks: with `MaxDataSize < 2^31`, on every stream whose
reads return an error, 0, or between 1 and the requested number of bytes,
`wdpRecv` never returns `ProtocolHeaderIncomplete` and never returns
`NetworkIncomplete`. -/
theorem wdpRecv_never_short_within_int_range {σ : Type} (E : Env σ) (hE : RecvContract E)
    (g : Globals) (fuel : Nat) (socket : Int) (dst : Option WDP) (timeoutMs : Nat) (s : σ)
    (hmax : g.WDP_MAX_DATA_SIZE < 2147483648) :
    (wdpRecv E g fuel socket dst timeoutMs s).status
      ≠ .returned WDP_ERR_PROTOCOL_HEADER_INCOMPLETE ∧
    (wdpRecv E g fuel socket dst timeoutMs s).status
      ≠ .returned WDP_ERR_NETWORK_INCOMPLETE := by
  unfold wdpRecv
  by_cases c1 : socket = E.platform.WDP_INVALID_SOCKET
  · rw [if_pos c1]
    constructor <;> (show Status.returned _ ≠ Status.returned _; decide)
  · rw [if_neg c1]
    cases dst with
    | none => constructor <;> (show Status.returned _ ≠ Status.returned _; decide)
    | some d0 =>
      simp only
      have hst := wdpRecvExact_status E hE fuel WDP_HEADER_SIZE timeoutMs s (by decide)
      generalize wdpRecvExact E fuel (some (List.replicate WDP_HEADER_SIZE 0)) WDP_HEADER_SIZE
        timeoutMs s = h at hst
      rcases hst with hs | hs | ⟨e, he, hs⟩
      · simp only [hs]
        constructor <;> exact fun x => Status.noConfusion x
      · simp only [hs]
        rw [if_neg (by decide), if_neg (lt_irrefl _)]
        simp only
        unfold wdpRecvBody
        by_cases b1 : wdpStartsWith h.buffer (some WDP_VERSION_STRING) WDP_VERSION_LEN = 0
        · rw [if_pos b1]
          constructor <;> (show Status.returned _ ≠ Status.returned _; decide)
        · rw [if_neg b1]
          simp only
          by_cases b2 : ntohl (List.take 4 (List.drop WDP_VERSION_LEN (h.buffer.getD [])))
              > g.WDP_MAX_DATA_SIZE
          · rw [if_pos b2]
            constructor <;> (show Status.returned _ ≠ Status.returned _; decide)
          · rw [if_neg b2]
            by_cases b3 : ntohl (List.take 4 (List.drop WDP_VERSION_LEN (h.buffer.getD []))) = 0
            · rw [if_pos b3]
              constructor <;> (show Status.returned _ ≠ Status.returned _; decide)
            · rw [if_neg b3]
              exact wdpRecvPayload_never_short E hE fuel _ timeoutMs h.state (by omega)
      · obtain ⟨n1, n2, n3⟩ := exactReadErrors_spec e he
        simp only [hs]
        rw [if_pos n1]
        simp only [ne_eq, Status.returned.injEq]
        exact ⟨n2, n3⟩

/-- C16, evaluated where the claim fails: with `MaxDataSize` set to 4294967295,
on the link stream (whose reads return between 1 and the requested number of
bytes), a frame whose length field is 4294966893 makes `wdpRecv` return
`-403`, the value of `ProtocolHeaderIncomplete`, and one whose length field is
4294967192 makes it return `-104`, the value of `NetworkIncomplete`, after all
bytes were read. -/
theorem wdpRecv_returns_short_result_codes :
    RecvContract linkEnv ∧
    (wdpRecv linkEnv (wdpSetMaxDataSize 4294967295 Globals.init) 4294966893 3
      (some emptyMessage) 0 ⟨frame (List.replicate 4294966893 0), []⟩).status
      = .returned WDP_ERR_PROTOCOL_HEADER_INCOMPLETE ∧
    (wdpRecv linkEnv (wdpSetMaxDataSize 4294967295 Globals.init) 4294967192 3
      (some emptyMessage) 0 ⟨frame (List.replicate 4294967192 0), []⟩).status
      = .returned WDP_ERR_NETWORK_INCOMPLETE := by
  refine ⟨linkEnv_recvContract, ?_, ?_⟩
  · obtain ⟨r1, -⟩ := wdpRecv_feeds linkEnv (fun s q => s.queue = q) linkEnv_feeds
      (wdpSetMaxDataSize 4294967295 Globals.init) 4294966893 3 emptyMessage 0
      ⟨frame (List.replicate 4294966893 0), []⟩ (List.replicate 4294966893 0) [] (by decide)
      (List.append_nil _).symm (by rw [List.length_replicate]; decide)
      (by rw [List.length_replicate]; decide) (by decide) (by rw [List.length_replicate])
    rw [List.length_replicate] at r1
    exact r1
  · obtain ⟨r1, -⟩ := wdpRecv_feeds linkEnv (fun s q => s.queue = q) linkEnv_feeds
      (wdpSetMaxDataSize 4294967295 Globals.init) 4294967192 3 emptyMessage 0
      ⟨frame (List.replicate 4294967192 0), []⟩ (List.replicate 4294967192 0) [] (by decide)
      (List.append_nil _).symm (by rw [List.length_replicate]; decide)
      (by rw [List.length_replicate]; decide) (by decide) (by rw [List.length_replicate])
    rw [List.length_replicate] at r1
    exact r1

end Wdp
